import Mathlib

/-!
# GOAT Royalty App: the autonomous agent and its session routes

A shallow embedding of `src/agents/AutonomousAgent.js` (the tool registry,
`executeAction`, `updateMemory`, the execution loop `run` and the built-in
`execute*` methods), of the handlers of `src/routes/agent.js` over the map
`activeAgents`, and of the tools of `src/agents/tools/hostingerTools.js`.

The external collaborators (the completion service behind `getNextAction`,
`isTaskComplete` and `generateSummary`, the tool implementations, the clock)
are an environment `Env` of outcomes, one per loop iteration: every behaviour
they can show during one call of `run` is some value of `Env`. The model
calls of the built-in tools are a `Builtins`, the hosting service a `Hosting`.
-/

namespace Goat

/-! ## Values -/

/-- What an awaited call gives back: a value, or a thrown `Error` with its
`message`. -/
inductive Outcome (α : Type) where
  | ok (value : α)
  | threw (message : String)
  deriving DecidableEq, Repr

/-- A JSON value as the loop sees it; the loop never looks inside one, so
arrays and objects are kept as their serialised text. -/
inductive JVal where
  | null
  | bool (b : Bool)
  | num (n : Int)
  | str (s : String)
  | json (text : String)
  deriving DecidableEq, Repr

/-- A JSON object: its fields in order. -/
abbrev JObject := List (String × JVal)

/-- True when the object has a field of that name (`name in obj`). -/
def JObject.hasField (o : JObject) (field : String) : Bool :=
  o.any (fun kv => kv.1 == field)

/-- The planner reply decoded by `JSON.parse` in `getNextAction`:
`{type, tool, parameters, reasoning}`. A field that is absent is `none`
(`undefined`); `tool` is kept as the property key it is used as. -/
structure Action where
  type : Option String
  tool : Option String
  parameters : Option JObject
  reasoning : Option String
  deriving DecidableEq, Repr

/-- The object a tool invocation gives: `{success, error?, message?, data?}`;
`data` stands for whatever else the object carries. -/
structure Result where
  success : Bool
  error : Option String
  message : Option String
  data : Option String
  deriving DecidableEq, Repr

/-! ## The tool registry (`initializeTools`) -/

/-- One entry of a tool's `parameters.properties`. -/
structure PropertySchema where
  type : String
  description : String
  enumValues : List String
  items : Option String
  deriving DecidableEq, Repr

/-- A tool's `parameters` object. -/
structure ParameterSchema where
  type : String
  properties : List (String × PropertySchema)
  required : List String
  deriving DecidableEq, Repr

/-- A tool of the registry. `execute` is the closure
`async (params) => await this.executeX(params)`; it is represented by the
name of the method it calls, and what that method does is `Env.execute`. -/
structure Tool where
  name : String
  description : String
  parameters : ParameterSchema
  execute : String
  deriving DecidableEq, Repr

/-- A plain property `{ type, description }`. -/
def plainProp (type description : String) : PropertySchema :=
  ⟨type, description, [], none⟩

/-- A string property with an `enum`. -/
def enumProp (values : List String) (description : String) : PropertySchema :=
  ⟨"string", description, values, none⟩

/-- An array property `{ type: 'array', items: { type: 'string' }, description }`. -/
def arrayProp (description : String) : PropertySchema :=
  ⟨"array", description, [], some "string"⟩

/-- The object returned by `initializeTools`: its own keys, in source order. -/
def initializeTools : List (String × Tool) :=
  [ ("analyzeRoyalties",
      ⟨"analyze_royalties", "Analyze royalty data for patterns, trends, and insights",
       ⟨"object",
        [("artistId", plainProp "string" "Artist ID to analyze"),
         ("startDate", plainProp "string" "Start date for analysis"),
         ("endDate", plainProp "string" "End date for analysis"),
         ("metrics", arrayProp "Metrics to analyze (revenue, streams, growth, etc.)")],
        ["artistId"]⟩,
       "executeAnalyzeRoyalties"⟩),
    ("processPayment",
      ⟨"process_payment", "Process a payment to an artist",
       ⟨"object",
        [("artistId", plainProp "string" "Artist ID"),
         ("amount", plainProp "number" "Payment amount"),
         ("method", enumProp ["bank_transfer", "paypal", "stripe", "check"] "Payment method"),
         ("royaltyIds", arrayProp "Royalty IDs to include in payment")],
        ["artistId", "amount", "method"]⟩,
       "executeProcessPayment"⟩),
    ("generateReport",
      ⟨"generate_report", "Generate comprehensive reports (PDF, Excel, CSV)",
       ⟨"object",
        [("reportType",
           enumProp ["earnings", "payments", "analytics", "tax", "quarterly", "annual"]
             "Type of report to generate"),
         ("format", enumProp ["pdf", "excel", "csv", "json"] "Output format"),
         ("artistId", plainProp "string" "Artist ID (optional)"),
         ("startDate", plainProp "string" "Start date"),
         ("endDate", plainProp "string" "End date")],
        ["reportType", "format"]⟩,
       "executeGenerateReport"⟩),
    ("sendEmail",
      ⟨"send_email", "Send email to artists or stakeholders",
       ⟨"object",
        [("to", plainProp "string" "Recipient email"),
         ("subject", plainProp "string" "Email subject"),
         ("body", plainProp "string" "Email body"),
         ("attachments", arrayProp "File paths to attach")],
        ["to", "subject", "body"]⟩,
       "executeSendEmail"⟩),
    ("queryDatabase",
      ⟨"query_database", "Query the database for specific information",
       ⟨"object",
        [("collection",
           enumProp ["artists", "royalties", "payments", "contracts", "users"]
             "Database collection to query"),
         ("filters", plainProp "object" "Query filters"),
         ("sort", plainProp "object" "Sort criteria"),
         ("limit", plainProp "number" "Maximum number of results")],
        ["collection"]⟩,
       "executeQueryDatabase"⟩),
    ("calculateRoyalties",
      ⟨"calculate_royalties", "Calculate royalties based on streams, sales, and contracts",
       ⟨"object",
        [("artistId", plainProp "string" "Artist ID"),
         ("platform",
           enumProp ["spotify", "apple", "youtube", "amazon", "all"] "Platform to calculate for"),
         ("streams", plainProp "number" "Number of streams"),
         ("sales", plainProp "number" "Number of sales"),
         ("period", plainProp "string" "Period (e.g., \"2024-Q1\")")],
        ["artistId", "platform"]⟩,
       "executeCalculateRoyalties"⟩),
    ("searchWeb",
      ⟨"search_web", "Search the web for information about artists, industry trends, etc.",
       ⟨"object",
        [("query", plainProp "string" "Search query"),
         ("numResults", plainProp "number" "Number of results to return")],
        ["query"]⟩,
       "executeSearchWeb"⟩),
    ("analyzeContract",
      ⟨"analyze_contract", "Analyze contract terms and calculate obligations",
       ⟨"object",
        [("contractId", plainProp "string" "Contract ID"),
         ("analysisType",
           enumProp ["terms", "obligations", "royalty_rates", "expiration", "compliance"]
             "Type of analysis to perform")],
        ["contractId", "analysisType"]⟩,
       "executeAnalyzeContract"⟩),
    ("predictRevenue",
      ⟨"predict_revenue", "Predict future revenue using AI/ML models",
       ⟨"object",
        [("artistId", plainProp "string" "Artist ID"),
         ("months", plainProp "number" "Number of months to predict"),
         ("includeFactors",
           arrayProp "Factors to include (seasonality, trends, releases, etc.)")],
        ["artistId", "months"]⟩,
       "executePredictRevenue"⟩),
    ("optimizePayments",
      ⟨"optimize_payments", "Optimize payment schedules and methods to minimize fees",
       ⟨"object",
        [("artistIds", arrayProp "Artist IDs to optimize for"),
         ("constraints", plainProp "object" "Constraints (min amount, max frequency, etc.)")],
        ["artistIds"]⟩,
       "executeOptimizePayments"⟩),
    ("sendNotification",
      ⟨"send_notification", "Send notifications via email, SMS, or push",
       ⟨"object",
        [("userId", plainProp "string" "User ID"),
         ("type", enumProp ["email", "sms", "push", "all"] "Notification type"),
         ("message", plainProp "string" "Notification message"),
         ("priority", enumProp ["low", "medium", "high", "urgent"] "Priority level")],
        ["userId", "type", "message"]⟩,
       "executeSendNotification"⟩),
    ("exportData",
      ⟨"export_data", "Export data in various formats",
       ⟨"object",
        [("dataType",
           enumProp ["royalties", "payments", "artists", "contracts", "analytics"]
             "Type of data to export"),
         ("format", enumProp ["csv", "excel", "json", "pdf"] "Export format"),
         ("filters", plainProp "object" "Data filters")],
        ["dataType", "format"]⟩,
       "executeExportData"⟩),
    ("syncPlatformData",
      ⟨"sync_platform_data", "Sync data from streaming platforms (Spotify, Apple, etc.)",
       ⟨"object",
        [("platform",
           enumProp ["spotify", "apple", "youtube", "amazon", "all"] "Platform to sync"),
         ("artistId", plainProp "string" "Artist ID"),
         ("syncType", enumProp ["streams", "sales", "analytics", "all"] "Type of data to sync")],
        ["platform"]⟩,
       "executeSyncPlatformData"⟩),
    ("checkCompliance",
      ⟨"check_compliance", "Check compliance with contracts, regulations, and policies",
       ⟨"object",
        [("checkType",
           enumProp ["contract", "tax", "payment", "reporting", "all"] "Type of compliance check"),
         ("entityId", plainProp "string" "Entity ID to check"),
         ("period", plainProp "string" "Period to check")],
        ["checkType"]⟩,
       "executeCheckCompliance"⟩),
    ("executeWorkflow",
      ⟨"execute_workflow",
       "Execute predefined workflows (monthly close, quarterly reports, etc.)",
       ⟨"object",
        [("workflowName",
           enumProp
             ["monthly_close", "quarterly_reports", "annual_statements", "payment_run",
              "data_sync"]
             "Workflow to execute"),
         ("parameters", plainProp "object" "Workflow-specific parameters")],
        ["workflowName"]⟩,
       "executeWorkflow"⟩) ]

/-- The property names every object literal inherits from `Object.prototype`;
each is a function or an object, so `this.tools[key]` is truthy for them. -/
def objectPrototypeKeys : List String :=
  ["constructor", "__defineGetter__", "__defineSetter__", "hasOwnProperty",
   "__lookupGetter__", "__lookupSetter__", "isPrototypeOf", "propertyIsEnumerable",
   "toString", "valueOf", "__proto__", "toLocaleString"]

/-- What the property read `this.tools[action.tool]` gives. -/
inductive ToolLookup where
  | own (key : String) (tool : Tool)
  | inherited (key : String)
  | undefined
  deriving DecidableEq, Repr

/-- The property key `action.tool` is read with: an absent `tool` is the key
`undefined`. -/
def toolKey (tool : Option String) : String :=
  tool.getD "undefined"

/-- The property read `this.tools[action.tool]`: an own key of the registry,
else a property inherited from `Object.prototype`, else `undefined`. -/
def lookupTool (tool : Option String) : ToolLookup :=
  match initializeTools.lookup (toolKey tool) with
  | some t => .own (toolKey tool) t
  | none =>
    if objectPrototypeKeys.contains (toolKey tool) then .inherited (toolKey tool)
    else .undefined

/-! ## The agent object -/

/-- The constructor argument `config`; an absent field is `none`. The
`temperature` (a float passed through to the completion service) is left out. -/
structure ConfigInput where
  model : Option String
  maxIterations : Option Nat
  deriving DecidableEq, Repr

/-- The field `this.config`. -/
structure Config where
  model : String
  maxIterations : Nat
  deriving DecidableEq, Repr

/-- An entry of `memory.shortTerm`: `{action, result, timestamp}`. -/
structure MemoryEntry where
  action : Action
  result : Result
  timestamp : Nat
  deriving DecidableEq, Repr

/-- The field `this.memory`. -/
structure Memory where
  shortTerm : List MemoryEntry
  longTerm : List MemoryEntry
  context : JObject
  deriving DecidableEq, Repr

/-- The field `this.state`. -/
structure State where
  isRunning : Bool
  currentTask : Option String
  iterations : Nat
  results : List Result
  deriving DecidableEq, Repr

/-- Bookkeeping that is not in the source: which calls were made so far.
`plannerCalls` counts the calls of `getNextAction`, `executeCalls` lists the
calls of a tool's `execute` with the registry key and the argument, and
`completionChecks` lists the answers `isTaskComplete` returned. -/
structure Ghost where
  plannerCalls : Nat
  executeCalls : List (String × Option JObject)
  completionChecks : List Bool
  deriving DecidableEq, Repr

/-- An `AutonomousAgent` object (its `tools` field is `initializeTools`). -/
structure Agent where
  config : Config
  memory : Memory
  state : State
  ghost : Ghost
  deriving DecidableEq, Repr

/-- The outcomes of the external calls made during one call of `run`. The
`Nat` argument is the value of `state.iterations` when the call is made, that
is, the number of the loop iteration making it.

* `getNextAction i`: what `await this.getNextAction(task)` gives; `threw`
  covers a failed completion request, a `JSON.parse` error, and a decoded
  `null` (the read `action.type` in `run` then throws inside the same `try`).
* `execute key params i`: what the implementation behind the tool stored
  under `key` does when called with `params`.
* `isTaskComplete i`: what `await this.isTaskComplete(task)` gives, as the
  truth value the `if` sees.
* `generateSummary`: what `await this.generateSummary()` gives.
* `now i`: the clock reading `new Date()` in `updateMemory`. -/
structure Env where
  getNextAction : Nat → Outcome Action
  execute : String → Option JObject → Nat → Outcome Result
  isTaskComplete : Nat → Outcome Bool
  generateSummary : Outcome String
  now : Nat → Nat

namespace AutonomousAgent

/-- The constructor: `config.x || default` followed by `...config`, so a
field that is present in `config` is kept as it is, and an absent one gets
the default. -/
def new (config : ConfigInput) : Agent :=
  { config := ⟨config.model.getD "gpt-4-turbo-preview", config.maxIterations.getD 10⟩
    memory := ⟨[], [], []⟩
    state := ⟨false, none, 0, []⟩
    ghost := ⟨0, [], []⟩ }

/-- The method `executeAction(action)`: the agent afterwards (only the
bookkeeping changes) and what the call gives. -/
def executeAction (env : Env) (a : Agent) (action : Action) : Agent × Outcome Result :=
  if action.type = some "complete" then
    (a, .ok ⟨true, none, some "Task completed", none⟩)
  else
    match lookupTool action.tool with
    | .undefined => (a, .threw ("Tool not found: " ++ toolKey action.tool))
    | .inherited _ => (a, .ok ⟨false, some "tool.execute is not a function", none, none⟩)
    | .own key _ =>
      let called : Agent :=
        { a with ghost.executeCalls := a.ghost.executeCalls ++ [(key, action.parameters)] }
      match env.execute key action.parameters a.state.iterations with
      | .ok result => (called, .ok result)
      | .threw message => (called, .ok ⟨false, some message, none, none⟩)

/-- The method `updateMemory(action, result)`, with the clock reading. -/
def updateMemory (a : Agent) (action : Action) (result : Result) (timestamp : Nat) : Agent :=
  let pushed := a.memory.shortTerm ++ [⟨action, result, timestamp⟩]
  { a with memory.shortTerm := if pushed.length > 10 then pushed.tail else pushed }

/-- How one pass through the body of the `while` loop ends. -/
inductive Control where
  | next
  | plannerComplete
  | satisfied
  | threw (message : String)
  deriving DecidableEq, Repr

/-- One pass through the loop body: the agent after each statement that ran
(in order), the agent at the end, and how the pass ended. -/
structure Pass where
  points : List Agent
  agent : Agent
  control : Control
  deriving DecidableEq, Repr

/-- The statement `this.state.iterations++`, together with the count of the
planner call that follows it. -/
def beginPass (a : Agent) : Agent :=
  { a with state.iterations := a.state.iterations + 1
           ghost.plannerCalls := a.ghost.plannerCalls + 1 }

/-- The statement `this.state.results.push(result)`. -/
def pushResult (a : Agent) (result : Result) : Agent :=
  { a with state.results := a.state.results ++ [result] }

/-- Bookkeeping: `isTaskComplete` returned `answer`. -/
def noteCheck (a : Agent) (answer : Bool) : Agent :=
  { a with ghost.completionChecks := a.ghost.completionChecks ++ [answer] }

/-- The body of the `while` loop of `run` (lines 409-432). -/
def iteration (env : Env) (a : Agent) : Pass :=
  let a1 := beginPass a
  match env.getNextAction a1.state.iterations with
  | .threw message => ⟨[a1], a1, .threw message⟩
  | .ok action =>
    if action.type = some "complete" then ⟨[a1], a1, .plannerComplete⟩
    else
      match executeAction env a1 action with
      | (a2, .threw message) => ⟨[a1, a2], a2, .threw message⟩
      | (a2, .ok result) =>
        let a3 := pushResult a2 result
        let a4 := updateMemory a3 action result (env.now a3.state.iterations)
        match env.isTaskComplete a4.state.iterations with
        | .threw message => ⟨[a1, a2, a3, a4], a4, .threw message⟩
        | .ok answer =>
          let a5 := noteCheck a4 answer
          ⟨[a1, a2, a3, a4, a5], a5, if answer then .satisfied else .next⟩

/-- How the `while` loop ends. `outOfFuel` is not an ending of the source
loop: it marks a model run cut short (see `runLoop_fuel`). -/
inductive LoopEnd where
  | exhausted
  | plannerComplete
  | satisfied
  | threw (message : String)
  | outOfFuel
  deriving DecidableEq, Repr

/-- A run of the `while` loop: the agent after each statement that ran, the
agent when the loop is left, and how it was left. -/
structure LoopRun where
  points : List Agent
  agent : Agent
  ending : LoopEnd
  deriving DecidableEq, Repr

/-- The loop `while (this.state.iterations < this.config.maxIterations)`,
run for at most `fuel` passes. -/
def runLoop (env : Env) : Nat → Agent → LoopRun
  | 0, a =>
    if a.state.iterations < a.config.maxIterations then ⟨[], a, .outOfFuel⟩
    else ⟨[], a, .exhausted⟩
  | fuel + 1, a =>
    if a.state.iterations < a.config.maxIterations then
      let pass := iteration env a
      match pass.control with
      | .next =>
        let rest := runLoop env fuel pass.agent
        ⟨pass.points ++ rest.points, rest.agent, rest.ending⟩
      | .plannerComplete => ⟨pass.points, pass.agent, .plannerComplete⟩
      | .satisfied => ⟨pass.points, pass.agent, .satisfied⟩
      | .threw message => ⟨pass.points, pass.agent, .threw message⟩
    else ⟨[], a, .exhausted⟩

/-- The object `run` returns; `error` is set on the failure path and
`summary` on the success path. -/
structure RunReturn where
  success : Bool
  error : Option String
  task : String
  iterations : Nat
  results : List Result
  summary : Option String
  deriving DecidableEq, Repr

/-- A call of `run`: the agent after each statement that ran, the agent once
`run` has returned, the returned object, and how the loop was left. -/
structure RunResult where
  points : List Agent
  agent : Agent
  returned : RunReturn
  ending : LoopEnd
  deriving DecidableEq, Repr

/-- The agent after each of the five assignments at the top of `run`
(lines 399-403), in order. -/
def startPoints (a : Agent) (task : String) (context : JObject) : List Agent :=
  let p1 : Agent := { a with state.isRunning := true }
  let p2 : Agent := { p1 with state.currentTask := some task }
  let p3 : Agent := { p2 with state.iterations := 0 }
  let p4 : Agent := { p3 with state.results := [] }
  let p5 : Agent := { p4 with memory.context := context }
  [p1, p2, p3, p4, p5]

/-- The agent when the `try` block of `run` is entered. -/
def start (a : Agent) (task : String) (context : JObject) : Agent :=
  { a with state := ⟨true, some task, 0, []⟩
           memory.context := context }

/-- The `finally` block: `this.state.isRunning = false`. -/
def finish (a : Agent) : Agent :=
  { a with state.isRunning := false }

/-- The method `run(task, context)` for a task that is a string: the
assignments at the top, the loop, then the `return` of the `try` block (whose
`generateSummary` call can still throw) or that of the `catch` block, then
the `finally` block. The template of the `console.log` call at line 405,
between the assignments and the `try` block, cannot throw on a string; a task
of another type is the matter of `runValue`. -/
def run (env : Env) (a : Agent) (task : String) (context : JObject) : RunResult :=
  let a0 := start a task context
  let loop := runLoop env a.config.maxIterations a0
  let failure (message : String) : RunReturn :=
    ⟨false, some message, task, loop.agent.state.iterations, loop.agent.state.results, none⟩
  let returned : RunReturn :=
    match loop.ending with
    | .threw message => failure message
    | _ =>
      match env.generateSummary with
      | .ok summary =>
        ⟨true, none, task, loop.agent.state.iterations, loop.agent.state.results, some summary⟩
      | .threw message => failure message
  ⟨startPoints a task context ++ loop.points ++ [finish loop.agent], finish loop.agent,
   returned, loop.ending⟩

end AutonomousAgent

/-- The assignment `agent.state.isRunning = false` the route
`POST /stop/:agentId` makes on the agent it found in the registry. -/
def stopAgent (a : Agent) : Agent :=
  { a with state.isRunning := false }

/-- The built-in implementation `executeSendEmail(params)`: it does not read
`params` and returns `{ success: true, message: 'Email sent' }`. -/
def executeSendEmail (_params : Option JObject) : Outcome Result :=
  .ok ⟨true, none, some "Email sent", none⟩

namespace AutonomousAgent

/-- The agent after `k` passes through the loop body, one after the other. -/
def passes (env : Env) : Nat → Agent → Agent
  | 0, a => a
  | k + 1, a => passes env k (iteration env a).agent

/-- Pass `i` goes all the way round: the planner returns an action other
than `complete`, its invocation resolves with a result satisfying `P`, and the
completion check answers false. -/
def Proceeds (env : Env) (P : Result → Prop) (i : Nat) : Prop :=
  ∃ action, env.getNextAction i = .ok action ∧ action.type ≠ some "complete" ∧
    (∀ b : Agent, b.state.iterations = i →
      ∃ r, (executeAction env b action).2 = .ok r ∧ P r) ∧
    env.isTaskComplete i = .ok false

end AutonomousAgent

/-! ## Concrete inputs -/

/-- A planner reply asking for the tool stored under `key`. -/
def toolCall (key : String) (parameters : JObject) : Action :=
  ⟨some "tool_call", some key, some parameters, none⟩

/-- The planner reply `{ "type": "complete" }`. -/
def completeAction : Action :=
  ⟨some "complete", none, none, none⟩

/-- An environment in which the planner asks for `sendEmail` with an empty
parameter object in every pass, every tool behaves as `executeSendEmail`, the
completion check always answers false, and the summary call gives `summary`. -/
def emailEnv (summary : Outcome String) : Env where
  getNextAction := fun _ => .ok (toolCall "sendEmail" [])
  execute := fun _ params _ => executeSendEmail params
  isTaskComplete := fun _ => .ok false
  generateSummary := summary
  now := fun i => i

/-- The spec's payment scenario: the planner asks once for `processPayment`,
which succeeds, then answers `complete`; the completion check answers false. -/
def paymentEnv : Env where
  getNextAction := fun i =>
    if i ≤ 1 then
      .ok (toolCall "processPayment"
        [("artistId", .str "artist-1"), ("amount", .num 100), ("method", .str "paypal")])
    else .ok completeAction
  execute := fun _ _ _ => .ok ⟨true, none, none, some "payment"⟩
  isTaskComplete := fun _ => .ok false
  generateSummary := .ok "Payments processed"
  now := fun i => i

/-- An environment in which the completion check answers true after the
first invocation. -/
def satisfiedEnv : Env where
  getNextAction := fun _ => .ok (toolCall "sendEmail" [])
  execute := fun _ params _ => executeSendEmail params
  isTaskComplete := fun _ => .ok true
  generateSummary := .ok "Done"
  now := fun i => i

/-- An environment in which the planner proposes the tool `name` in every
pass; whatever is executed succeeds and the completion check answers false. -/
def proposingEnv (name : String) : Env where
  getNextAction := fun _ => .ok (toolCall name [])
  execute := fun _ params _ => executeSendEmail params
  isTaskComplete := fun _ => .ok false
  generateSummary := .ok "Done"
  now := fun i => i

/-- An environment in which the first planner call fails and every later one
would succeed. -/
def flakyEnv : Env where
  getNextAction := fun i =>
    if i ≤ 1 then .threw "Service unavailable" else .ok (toolCall "sendEmail" [])
  execute := fun _ params _ => executeSendEmail params
  isTaskComplete := fun _ => .ok false
  generateSummary := .ok "Done"
  now := fun i => i

/-- An environment in which the planner asks for `processPayment` in every
pass and the tool implementation throws every time. -/
def failingEnv : Env where
  getNextAction := fun _ => .ok (toolCall "processPayment" [])
  execute := fun _ _ _ => .threw "Payment validation failed"
  isTaskComplete := fun _ => .ok false
  generateSummary := .ok "Done"
  now := fun i => i

/-- True when the parameter object passed to a tool has no field `field`
(an absent parameter object has none). -/
def missingField (parameters : Option JObject) (field : String) : Bool :=
  match parameters with
  | none => true
  | some o => !o.hasField field

/-- A descriptor as listed by `GET /capabilities`. -/
structure Capability where
  name : String
  description : String
  parameters : ParameterSchema
  deriving DecidableEq, Repr

/-- The list `Object.entries(agent.tools).map(...)` of `GET /capabilities`. -/
def capabilities : List Capability :=
  initializeTools.map fun kt => ⟨kt.2.name, kt.2.description, kt.2.parameters⟩

/-- The names `Object.keys(this.tools)` that the prompt of `getNextAction`
lists to the planner as the available tools. -/
def availableTools : List String :=
  initializeTools.map fun kt => kt.1

namespace AutonomousAgent

/-- The agent after a sequence of `updateMemory` calls, one per entry, in
order (the entry's `timestamp` is the clock reading of its call). -/
def remember (a : Agent) (steps : List MemoryEntry) : Agent :=
  steps.foldl (fun b e => updateMemory b e.action e.result e.timestamp) a

end AutonomousAgent

/-- An environment in which the first two passes record a result and the
planner call of the third pass fails. -/
def lateFailureEnv : Env where
  getNextAction := fun i =>
    if i ≤ 2 then .ok (toolCall "sendEmail" []) else .threw "Service unavailable"
  execute := fun _ params _ => executeSendEmail params
  isTaskComplete := fun _ => .ok false
  generateSummary := .ok "Done"
  now := fun i => i

/-! ## The agent routes (`src/routes/agent.js`) -/

/-- What the map `activeAgents` holds under a key: an agent object, the
object `run` returned (stored by the `then` callback under
`<agentId>-result`), or the `{ success: false, error }` of the `catch`
callback. -/
inductive Entry where
  | agent (a : Agent)
  | result (r : AutonomousAgent.RunReturn)
  | failure (error : String)
  deriving DecidableEq, Repr

/-- The map `activeAgents`: its entries in insertion order. Every value is
the state of the stored object at the moment the registry is looked at. -/
abbrev Registry := List (String × Entry)

/-- The call `activeAgents.get(key)`. -/
def mapGet (reg : Registry) (key : String) : Option Entry :=
  reg.lookup key

/-- The call `activeAgents.set(key, value)`: an existing key keeps its place
and gets the new value, a new key is added at the end. -/
def mapSet (reg : Registry) (key : String) (value : Entry) : Registry :=
  if reg.any (fun kv => kv.1 == key) then
    reg.map (fun kv => if kv.1 == key then (kv.1, value) else kv)
  else reg ++ [(key, value)]

/-- The call `activeAgents.delete(key)`. -/
def mapDelete (reg : Registry) (key : String) : Registry :=
  reg.filter (fun kv => kv.1 != key)

/-- The test `text.includes(part)`. -/
def includes (text part : String) : Bool :=
  text.toList.tails.any (fun rest => part.toList.isPrefixOf rest)

/-- The authenticated user `req.user` (set by the `protect` middleware). -/
structure User where
  id : JVal
  role : JVal
  deriving DecidableEq, Repr

/-- What a route handler answers: `res.status(status).json(body)`, or the
answer the error handler gives for an error the handler threw (an `AppError`
with its status code, any other error with status 500 and its message). -/
inductive Response (α : Type) where
  | json (status : Nat) (body : α)
  | error (status : Nat) (message : String)
  deriving DecidableEq, Repr

/-- Assigning a property of an object: an existing property keeps its place
and gets the new value, a new one is added at the end. -/
def objectSet (o : JObject) (key : String) (value : JVal) : JObject :=
  if o.hasField key then o.map (fun kv => if kv.1 == key then (kv.1, value) else kv)
  else o ++ [(key, value)]

/-- Reading a property of an object. -/
def objectGet (o : JObject) (key : String) : Option JVal :=
  o.lookup key

/-- The object literal `{ ...context, userId: req.user.id, userRole:
req.user.role }` of `POST /execute`; an absent `context` spreads to nothing. -/
def executeContext (context : Option JObject) (user : User) : JObject :=
  objectSet (objectSet (context.getD []) "userId" user.id) "userRole" user.role

namespace AutonomousAgent

/-- The agent when a call `run(task, context)` reaches its first `await`:
the statements up to there (the assignments at the top and, when the loop is
entered, `iterations++` and the preparation of the first planner request) run
in the turn of the caller, before anything else can look at the agent. -/
def launch (a : Agent) (task : String) (context : JObject) : Agent :=
  if (start a task context).state.iterations < (start a task context).config.maxIterations
  then beginPass (start a task context)
  else start a task context

end AutonomousAgent

/-- A session started by a route: the key, the agent as constructed, and the
arguments of its `run` call. -/
structure Started where
  agentId : String
  agent : Agent
  task : String
  context : JObject
  deriving DecidableEq, Repr

/-- The body of `POST /execute`. -/
structure ExecuteRequest where
  task : Option String
  context : Option JObject
  model : Option String
  maxIterations : Option Nat
  deriving DecidableEq, Repr

/-- The `data` of the 202 answers: `{ agentId, taskName?, task, status }`. -/
structure AcceptedBody where
  agentId : String
  taskName : Option String
  task : String
  status : String
  deriving DecidableEq, Repr

/-- A route handler that may start a session: the registry when the handler
returns, its answer, and the session it started. -/
structure Submission where
  registry : Registry
  response : Response AcceptedBody
  started : Option Started
  deriving DecidableEq, Repr

/-- The constructor argument of `POST /execute`: `req.body.model ||
'gpt-4-turbo-preview'` and `req.body.maxIterations || 10`. -/
def executeConfig (req : ExecuteRequest) : ConfigInput :=
  ⟨some (if req.model.getD "" = "" then "gpt-4-turbo-preview" else req.model.getD ""),
   some (if req.maxIterations.getD 0 = 0 then 10 else req.maxIterations.getD 0)⟩

/-- The handler of `POST /execute`. `now` is the reading `Date.now()` and
`random` the text `Math.random().toString(36).substr(2, 9)`. The registry is
given as it stands when the handler returns: the stored agent is the object
`run` was started on. -/
def executeRoute (reg : Registry) (user : User) (req : ExecuteRequest) (now : Nat)
    (random : String) : Submission :=
  if req.task.getD "" = "" then ⟨reg, .error 400 "Task is required", none⟩
  else
    let task := req.task.getD ""
    let agent := AutonomousAgent.new (executeConfig req)
    let agentId := "agent-" ++ toString now ++ "-" ++ random
    let context := executeContext req.context user
    ⟨mapSet reg agentId (.agent (AutonomousAgent.launch agent task context)),
     .json 202 ⟨agentId, none, task, "running"⟩,
     some ⟨agentId, agent, task, context⟩⟩

/-- The table `tasks` of `POST /tasks/:taskName`; `insightsFor` is the text
`parameters?.artistId || 'all artists'` of the template. -/
def predefinedTasks (insightsFor : String) : List (String × String) :=
  [ ("monthly-close",
      "Execute the monthly close process: calculate all royalties, generate reports, and prepare payments for all artists"),
    ("quarterly-reports",
      "Generate quarterly reports for all artists including earnings summaries, payment history, and analytics"),
    ("optimize-payments",
      "Analyze all pending payments and optimize the payment schedule to minimize fees and maximize efficiency"),
    ("sync-platforms",
      "Sync data from all streaming platforms (Spotify, Apple Music, YouTube) for all artists"),
    ("compliance-check",
      "Run a comprehensive compliance check on all contracts, payments, and reporting"),
    ("revenue-forecast",
      "Analyze historical data and predict revenue for the next 6 months for all artists"),
    ("artist-insights",
      "Generate detailed insights and recommendations for artist: " ++ insightsFor),
    ("payment-reminders", "Send payment reminders to all artists with pending payments"),
    ("contract-renewals",
      "Identify contracts expiring in the next 90 days and prepare renewal notices"),
    ("anomaly-detection",
      "Analyze all royalty data for anomalies, discrepancies, or unusual patterns") ]

/-- The text of what the read `tasks[taskName]` gives for a name inherited
from `Object.prototype` (a function, or the prototype object itself). -/
def inheritedTaskText (key : String) : String :=
  if key = "__proto__" then "[object Object]"
  else "function " ++ (if key = "constructor" then "Object" else key)
    ++ "() \x7b [native code] \x7d"

/-- The read `tasks[taskName]`: an own key of the table, else a property
inherited from `Object.prototype` (truthy), else `undefined`. -/
def taskFor (insightsFor taskName : String) : Option String :=
  match (predefinedTasks insightsFor).lookup taskName with
  | some task => some task
  | none =>
    if objectPrototypeKeys.contains taskName then some (inheritedTaskText taskName)
    else none

/-- The context object of `POST /tasks/:taskName`: `{ taskName, parameters,
userId, userRole }`; an absent `parameters` leaves no property behind when
the context is serialised. -/
def tasksContext (taskName : String) (parameters : Option JVal) (user : User) : JObject :=
  [("taskName", .str taskName)] ++ (parameters.map (fun p => [("parameters", p)])).getD []
    ++ [("userId", user.id), ("userRole", user.role)]

/-- The handler of `POST /tasks/:taskName`; `now` is the reading
`Date.now()`. -/
def tasksRoute (reg : Registry) (user : User) (taskName : String) (parameters : Option JVal)
    (insightsFor : String) (now : Nat) : Submission :=
  match taskFor insightsFor taskName with
  | none => ⟨reg, .error 404 "Task not found", none⟩
  | some task =>
    let agent := AutonomousAgent.new ⟨none, none⟩
    let agentId := "agent-" ++ taskName ++ "-" ++ toString now
    let context := tasksContext taskName parameters user
    ⟨mapSet reg agentId (.agent (AutonomousAgent.launch agent task context)),
     .json 202 ⟨agentId, some taskName, task, "running"⟩,
     some ⟨agentId, agent, task, context⟩⟩

/-- The end of a started session: its `run` call has returned. The agent
object is as `run` left it (seen through the registry when the key still
holds it), and the `then` callback stores the returned object under
`<agentId>-result`. -/
def sessionEnds (reg : Registry) (env : Env) (session : Started) : Registry :=
  let done := AutonomousAgent.run env session.agent session.task session.context
  let seen : Registry :=
    reg.map (fun kv =>
      match kv with
      | (key, .agent _) => if key == session.agentId then (key, .agent done.agent) else kv
      | _ => kv)
  mapSet seen (session.agentId ++ "-result") (.result done.returned)

/-- The `data` of `GET /status/:agentId`: `{ agentId, status: 'completed',
result }`, or `{ agentId, status, currentTask, iterations, results }`. -/
inductive StatusBody where
  | completed (agentId : String) (result : Entry)
  | snapshot (agentId : String) (status : String) (currentTask : Option String)
      (iterations : Nat) (results : List Result)
  deriving DecidableEq, Repr

/-- The handler of `GET /status/:agentId`. -/
def statusRoute (reg : Registry) (agentId : String) : Response StatusBody :=
  match mapGet reg agentId, mapGet reg (agentId ++ "-result") with
  | none, none => .error 404 "Agent not found"
  | _, some result => .json 200 (.completed agentId result)
  | some (.agent a), none =>
    .json 200 (.snapshot agentId (if a.state.isRunning then "running" else "idle")
      a.state.currentTask a.state.iterations a.state.results)
  | some _, none => .error 500 "Cannot read properties of undefined (reading 'isRunning')"

/-- An item of the list of `GET /list`. -/
structure ListedAgent where
  agentId : String
  status : String
  currentTask : Option String
  iterations : Nat
  deriving DecidableEq, Repr

/-- The `data` of `GET /list`: `{ agents, count }`. -/
structure ListBody where
  agents : List ListedAgent
  count : Nat
  deriving DecidableEq, Repr

/-- The loop of `GET /list` over the entries still to visit: `none` when
reading `agent.state.isRunning` throws on a stored object that is not an
agent. -/
def listAgents : Registry → Option (List ListedAgent)
  | [] => some []
  | (agentId, entry) :: rest =>
    if includes agentId "-result" then listAgents rest
    else
      match entry with
      | .agent a =>
        (listAgents rest).map (fun items =>
          ⟨agentId, if a.state.isRunning then "running" else "idle", a.state.currentTask,
           a.state.iterations⟩ :: items)
      | _ => none

/-- The handler of `GET /list`. -/
def listRoute (reg : Registry) : Response ListBody :=
  match listAgents reg with
  | some agents => .json 200 ⟨agents, agents.length⟩
  | none => .error 500 "Cannot read properties of undefined (reading 'isRunning')"

/-- The `data` of `POST /stop/:agentId`: `{ agentId, status: 'stopped' }`. -/
structure StopBody where
  agentId : String
  status : String
  deriving DecidableEq, Repr

/-- The outcome of the stop handler: the registry afterwards, the answer, and
the agent object after the assignment `agent.state.isRunning = false` (the
object lives on in its own `run` call). -/
structure Stopped where
  registry : Registry
  response : Response StopBody
  agent : Option Agent
  deriving DecidableEq, Repr

/-- The handler of `POST /stop/:agentId`. -/
def stopRoute (reg : Registry) (agentId : String) : Stopped :=
  match mapGet reg agentId with
  | none => ⟨reg, .error 404 "Agent not found", none⟩
  | some (.agent a) =>
    ⟨mapDelete reg agentId, .json 200 ⟨agentId, "stopped"⟩, some (stopAgent a)⟩
  | some _ => ⟨reg, .error 500 "Cannot set properties of undefined (setting 'isRunning')", none⟩

/-- The body of `POST /chat`. -/
structure ChatRequest where
  message : Option String
  conversationId : Option String
  deriving DecidableEq, Repr

/-- The `data` of `POST /chat`: `{ response, conversationId, actions }`. -/
structure ChatBody where
  response : Option String
  conversationId : String
  actions : List Result
  deriving DecidableEq, Repr

/-- The outcome of the chat handler: the registry afterwards, the answer, the
key the agent is stored under, and the `run` call the handler awaited. -/
structure Chatted where
  registry : Registry
  response : Response ChatBody
  key : Option String
  ran : Option AutonomousAgent.RunResult
  deriving DecidableEq, Repr

/-- The task text of `POST /chat`. -/
def chatTask (message : String) : String :=
  "Respond to user message: \"" ++ message
    ++ "\". If the message requires action, execute the appropriate tools. Otherwise, provide a helpful response."

/-- The context object of `POST /chat`: `{ userId, userRole, conversationId }`;
an absent `conversationId` leaves no property behind when the context is
serialised. -/
def chatContext (user : User) (conversationId : Option String) : JObject :=
  [("userId", user.id), ("userRole", user.role)]
    ++ (conversationId.map (fun c => [("conversationId", JVal.str c)])).getD []

/-- The handler of `POST /chat`. `stored` and `answered` are the two readings
of `Date.now()`: the one used for the key of a new agent and the one used in
the answer. -/
def chatRoute (reg : Registry) (env : Env) (user : User) (req : ChatRequest)
    (stored answered : Nat) : Chatted :=
  if req.message.getD "" = "" then ⟨reg, .error 400 "Message is required", none, none⟩
  else
    let task := chatTask (req.message.getD "")
    let context := chatContext user req.conversationId
    let answerId :=
      if req.conversationId.getD "" = "" then "conv-" ++ toString answered
      else req.conversationId.getD ""
    let found := match req.conversationId with
      | some c => mapGet reg c
      | none => none
    match found with
    | some (.agent a) =>
      let done := AutonomousAgent.run env a task context
      ⟨mapSet reg (req.conversationId.getD "") (.agent done.agent),
       .json 200 ⟨done.returned.summary, answerId, done.returned.results⟩,
       req.conversationId, some done⟩
    | some _ => ⟨reg, .error 500 "agent.run is not a function", req.conversationId, none⟩
    | none =>
      let key :=
        if req.conversationId.getD "" = "" then "conv-" ++ toString stored
        else req.conversationId.getD ""
      let done := AutonomousAgent.run env (AutonomousAgent.new ⟨none, none⟩) task context
      ⟨mapSet reg key (.agent done.agent),
       .json 200 ⟨done.returned.summary, answerId, done.returned.results⟩,
       some key, some done⟩

/-- An administrator, as `req.user`. -/
def adminUser : User := ⟨.str "user-1", .str "admin"⟩

/-- A manager, as `req.user`. -/
def managerUser : User := ⟨.str "user-2", .str "manager"⟩

/-- A chat message sent under the conversation id `conv-1`. -/
def chatRequest (message : String) : ChatRequest := ⟨some message, some "conv-1"⟩

/-- The registry after a first chat message under `conv-1` was answered. -/
def registryAfterChat : Registry :=
  (chatRoute [] satisfiedEnv adminUser (chatRequest "hello") 5 6).registry

/-- The agent a first chat message under `conv-1` leaves in the registry. -/
def agentAfterChat : Agent :=
  (AutonomousAgent.run satisfiedEnv (AutonomousAgent.new ⟨none, none⟩) (chatTask "hello")
    (chatContext adminUser (some "conv-1"))).agent

/-- A task submitted through `POST /execute` with a limit of 3. -/
def paymentsRequest : ExecuteRequest :=
  ⟨some "process pending payments", none, none, some 3⟩

/-- The session `POST /execute` starts for `paymentsRequest` at clock reading
1700000000000 with random text `k3j9x0q1z`. -/
def paymentsSession : Started :=
  ⟨"agent-1700000000000-k3j9x0q1z", AutonomousAgent.new (executeConfig paymentsRequest),
   "process pending payments", executeContext none adminUser⟩

/-- The registry right after that submission: the session is running. -/
def registryAfterSubmit : Registry :=
  (executeRoute [] adminUser paymentsRequest 1700000000000 "k3j9x0q1z").registry

/-- The registry once the run of that session has ended and its result has
been stored. -/
def registryAfterRun : Registry :=
  sessionEnds registryAfterSubmit (emailEnv (.ok "Done")) paymentsSession

/-- A caller-supplied context that names a user of its own. -/
def spoofedContext : JObject :=
  [("userId", .str "intruder"), ("note", .str "urgent")]

/-- A first `POST /tasks/monthly-close`, by the administrator, at clock
reading 1700000000000. -/
def firstMonthlyClose : Submission :=
  tasksRoute [] adminUser "monthly-close" none "all artists" 1700000000000

/-- A second `POST /tasks/monthly-close`, by the manager, handled within the
same millisecond. -/
def secondMonthlyClose : Submission :=
  tasksRoute firstMonthlyClose.registry managerUser "monthly-close" none "all artists"
    1700000000000

/-! ## The built-in tool implementations (`execute*` methods) -/

/-- The truthiness of a value that may be absent. -/
def truthy : Option JVal → Bool
  | none => false
  | some .null => false
  | some (.bool b) => b
  | some (.num n) => n != 0
  | some (.str s) => s != ""
  | some (.json _) => true

/-- True for the serialised text of an array. -/
def JVal.isArray : JVal → Bool
  | .json text => text.toList.head? == some '['
  | _ => false

/-- The text a template literal gives for a value that converts to text. The
text of an array or object depends on its contents, which are not modelled:
`compound` gives it from the serialised text. -/
def templateText (compound : String → String) : Option JVal → String
  | none => "undefined"
  | some .null => "null"
  | some (.bool b) => if b then "true" else "false"
  | some (.num n) => toString n
  | some (.str s) => s
  | some (.json text) => compound text

/-- True for the serialised text of the empty array. -/
def JVal.isEmptyArray : JVal → Bool
  | .json text => text == "[]"
  | _ => false

/-- How the values kept as text convert to a primitive. `compound` gives,
from the serialised text of an array or object, the text its `toString`
gives, or the `TypeError` thrown when it has none that can be called: parsed
JSON can hold an object with an own property `toString`, which is no
function, or an array with such an object in it. `large` gives the text of a
number that is no safe integer (rounded, and in exponent form from 1e21 on). -/
structure Conversion where
  compound : String → Outcome String
  large : Int → String

/-- The text a template literal gives for a value, or the error thrown by
the conversion of the value. -/
def interpolate (c : Conversion) : Option JVal → Outcome String
  | none => .ok "undefined"
  | some .null => .ok "null"
  | some (.bool b) => .ok (if b then "true" else "false")
  | some (.num n) => .ok (if n.natAbs ≤ 9007199254740991 then toString n else c.large n)
  | some (.str s) => .ok s
  | some (.json text) => c.compound text

/-- The conversion to a number an arithmetic operator makes of an operand;
only whether it throws is kept, the number is not. A primitive always
converts (to `NaN` at worst); an array or object is first converted to a
primitive, which throws for the same values as in a template: its `valueOf`
gives the object itself, so the outcome rests on `toString` either way. -/
def toNumber (c : Conversion) : Option JVal → Outcome Unit
  | some (.json text) =>
    match c.compound text with
    | .ok _ => .ok ()
    | .threw message => .threw message
  | _ => .ok ()

/-- What lies outside the agent for its built-in tools: the outcomes of the
model calls (`Royalty.getArtistSummary`, `Payment.create`, loading a model
module, `Model.find(...).sort(...).limit(...)`, `Contract.findById`), the
clock, and the conversion of parameter values to primitives. -/
structure Builtins where
  getArtistSummary : JObject → Outcome String
  createPayment : JObject → Option JVal → Outcome String
  requireModel : String → Outcome Unit
  find : JObject → Outcome String
  findById : Option JVal → Outcome String
  dateNow : Nat
  conversion : Conversion

/-- The error of reading a property of an absent parameter object. -/
def readOfUndefined (property : String) : String :=
  "Cannot read properties of undefined (reading \x27" ++ property ++ "\x27)"

/-- The method `executeAnalyzeRoyalties(params)`. -/
def executeAnalyzeRoyalties (w : Builtins) (params : Option JObject) : Outcome Result :=
  match params with
  | none => .threw (readOfUndefined "artistId")
  | some p =>
    match w.getArtistSummary p with
    | .ok summary => .ok ⟨true, none, none, some summary⟩
    | .threw message => .threw message

/-- The method `executeProcessPayment(params)`; `context` is
`this.memory.context`. The optional call `params.royaltyIds?.map(...)` is
skipped for an absent or null `royaltyIds` and throws on anything that is no
array; on an array its callback divides `params.amount` by the length once
for each element, so for an array that is not empty the amount is converted
to a number before `Payment.create` is called. -/
def executeProcessPayment (w : Builtins) (context : JObject) (params : Option JObject) :
    Outcome Result :=
  match params with
  | none => .threw (readOfUndefined "artistId")
  | some p =>
    let create : Outcome Result :=
      match w.createPayment p (objectGet context "userId") with
      | .ok payment => .ok ⟨true, none, none, some payment⟩
      | .threw message => .threw message
    match objectGet p "royaltyIds" with
    | none => create
    | some .null => create
    | some ids =>
      if ids.isArray then
        if ids.isEmptyArray then create
        else
          match toNumber w.conversion (objectGet p "amount") with
          | .ok _ => create
          | .threw message => .threw message
      else .threw "params.royaltyIds?.map is not a function"

/-- The method `executeGenerateReport(params)`: the template of `reportPath`
converts `params.reportType`, then `params.format`. -/
def executeGenerateReport (w : Builtins) (params : Option JObject) : Outcome Result :=
  match params with
  | none => .threw (readOfUndefined "reportType")
  | some p =>
    match interpolate w.conversion (objectGet p "reportType") with
    | .threw message => .threw message
    | .ok reportType =>
      match interpolate w.conversion (objectGet p "format") with
      | .threw message => .threw message
      | .ok format =>
        .ok ⟨true, none, some "Report generated",
          some ("/reports/" ++ reportType ++ "-" ++ toString w.dateNow ++ "." ++ format)⟩

/-- The module name `executeQueryDatabase` derives from a collection name:
`collection.charAt(0).toUpperCase() + collection.slice(1, -1)` (upper-casing
as for ASCII letters). -/
def modelModule (collection : String) : String :=
  String.mk ((collection.toList.take 1).map Char.toUpper
    ++ (collection.toList.drop 1).dropLast)

/-- The method `executeQueryDatabase(params)`. -/
def executeQueryDatabase (w : Builtins) (params : Option JObject) : Outcome Result :=
  match params with
  | none => .threw (readOfUndefined "collection")
  | some p =>
    match objectGet p "collection" with
    | none => .threw (readOfUndefined "charAt")
    | some .null => .threw "Cannot read properties of null (reading \x27charAt\x27)"
    | some (.str collection) =>
      match w.requireModel (modelModule collection) with
      | .threw message => .threw message
      | .ok _ =>
        match w.find p with
        | .ok results => .ok ⟨true, none, none, some results⟩
        | .threw message => .threw message
    | some _ => .threw "params.collection.charAt is not a function"

/-- The method `executeCalculateRoyalties(params)`: the product
`params.streams * rate` converts `params.streams` to a number; the amounts are
floating point and stand as the names of the fields returned. -/
def executeCalculateRoyalties (w : Builtins) (params : Option JObject) : Outcome Result :=
  match params with
  | none => .threw (readOfUndefined "streams")
  | some p =>
    match toNumber w.conversion (objectGet p "streams") with
    | .threw message => .threw message
    | .ok _ => .ok ⟨true, none, none, some "amount, streams, rate"⟩

/-- The method `executeSearchWeb(params)`. -/
def executeSearchWeb (_params : Option JObject) : Outcome Result :=
  .ok ⟨true, none, none, some "results: []"⟩

/-- The method `executeAnalyzeContract(params)`. -/
def executeAnalyzeContract (w : Builtins) (params : Option JObject) : Outcome Result :=
  match params with
  | none => .threw (readOfUndefined "contractId")
  | some p =>
    match w.findById (objectGet p "contractId") with
    | .ok contract => .ok ⟨true, none, none, some contract⟩
    | .threw message => .threw message

/-- The method `executePredictRevenue(params)`. -/
def executePredictRevenue (_params : Option JObject) : Outcome Result :=
  .ok ⟨true, none, none, some "predictions: []"⟩

/-- The method `executeOptimizePayments(params)`. -/
def executeOptimizePayments (_params : Option JObject) : Outcome Result :=
  .ok ⟨true, none, none, some "optimizedSchedule: []"⟩

/-- The method `executeSendNotification(params)`. -/
def executeSendNotification (_params : Option JObject) : Outcome Result :=
  .ok ⟨true, none, some "Notification sent", none⟩

/-- The method `executeExportData(params)`: the template of `exportPath`
converts `params.dataType`, then `params.format`. -/
def executeExportData (w : Builtins) (params : Option JObject) : Outcome Result :=
  match params with
  | none => .threw (readOfUndefined "dataType")
  | some p =>
    match interpolate w.conversion (objectGet p "dataType") with
    | .threw message => .threw message
    | .ok dataType =>
      match interpolate w.conversion (objectGet p "format") with
      | .threw message => .threw message
      | .ok format =>
        .ok ⟨true, none, none,
          some ("/exports/" ++ dataType ++ "-" ++ toString w.dateNow ++ "." ++ format)⟩

/-- The method `executeSyncPlatformData(params)`. -/
def executeSyncPlatformData (_params : Option JObject) : Outcome Result :=
  .ok ⟨true, none, some "Data synced", none⟩

/-- The method `executeCheckCompliance(params)`. -/
def executeCheckCompliance (_params : Option JObject) : Outcome Result :=
  .ok ⟨true, none, none, some "compliant: true, issues: []"⟩

/-- The method `executeWorkflow(params)`: the template of `message` converts
`params.workflowName`. -/
def executeWorkflow (w : Builtins) (params : Option JObject) : Outcome Result :=
  match params with
  | none => .threw (readOfUndefined "workflowName")
  | some p =>
    match interpolate w.conversion (objectGet p "workflowName") with
    | .threw message => .threw message
    | .ok workflowName => .ok ⟨true, none, some ("Workflow " ++ workflowName ++ " executed"), none⟩

/-- The call a tool's `execute` closure makes: the method named in the
registry entry, applied to the parameters. A name that is no method of the
agent gives `none`. -/
def builtinMethod (w : Builtins) (context : JObject) (method : String)
    (params : Option JObject) : Option (Outcome Result) :=
  if method = "executeAnalyzeRoyalties" then some (executeAnalyzeRoyalties w params)
  else if method = "executeProcessPayment" then some (executeProcessPayment w context params)
  else if method = "executeGenerateReport" then some (executeGenerateReport w params)
  else if method = "executeSendEmail" then some (executeSendEmail params)
  else if method = "executeQueryDatabase" then some (executeQueryDatabase w params)
  else if method = "executeCalculateRoyalties" then some (executeCalculateRoyalties w params)
  else if method = "executeSearchWeb" then some (executeSearchWeb params)
  else if method = "executeAnalyzeContract" then some (executeAnalyzeContract w params)
  else if method = "executePredictRevenue" then some (executePredictRevenue params)
  else if method = "executeOptimizePayments" then some (executeOptimizePayments params)
  else if method = "executeSendNotification" then some (executeSendNotification params)
  else if method = "executeExportData" then some (executeExportData w params)
  else if method = "executeSyncPlatformData" then some (executeSyncPlatformData params)
  else if method = "executeCheckCompliance" then some (executeCheckCompliance params)
  else if method = "executeWorkflow" then some (executeWorkflow w params)
  else none

/-- The built-in methods that make a call outside the agent. -/
def callingMethods : List String :=
  ["executeAnalyzeRoyalties", "executeProcessPayment", "executeQueryDatabase",
   "executeAnalyzeContract"]

/-- True when the conversion of the value to a primitive throws: the value is
an array or object for which `compound` gives an error. -/
def unconvertible (c : Conversion) : Option JVal → Bool
  | some (.json text) =>
    match c.compound text with
    | .ok _ => false
    | .threw _ => true
  | _ => false

/-- The parameters a built-in method without an outside call converts to a
primitive, in the order it converts them: the fields its template literal
interpolates, and the factor `params.streams` of `executeCalculateRoyalties`.
The other methods of that kind never read their parameters. -/
def convertedFields (method : String) : List String :=
  if method = "executeGenerateReport" then ["reportType", "format"]
  else if method = "executeExportData" then ["dataType", "format"]
  else if method = "executeWorkflow" then ["workflowName"]
  else if method = "executeCalculateRoyalties" then ["streams"]
  else []

/-- The serialised text of the object `{"toString":1}`: its own property
`toString` is no function, so it converts to no primitive. -/
def unconvertibleText : String := "\x7b\"toString\":1\x7d"

/-- The conversions of the values used in the examples: the object
`{"toString":1}` throws, any other object gives `[object Object]`. -/
def sampleConversion : Conversion where
  compound := fun text =>
    if text = unconvertibleText then .threw "Cannot convert object to primitive value"
    else .ok "[object Object]"
  large := fun n => toString n

/-- Built-in tools in which every model call fails with a cast error. -/
def failingBuiltins : Builtins where
  getArtistSummary := fun _ => .threw "Cast to ObjectId failed"
  createPayment := fun _ _ => .threw "Payment validation failed"
  requireModel := fun _ => .ok ()
  find := fun _ => .threw "Query failed"
  findById := fun _ => .threw "Cast to ObjectId failed"
  dateNow := 1700000000000
  conversion := sampleConversion

/-! ## The Hostinger tools (`src/agents/tools/hostingerTools.js`) -/

/-- A call of a method of `hostingerService`, with its arguments as passed
(an argument read from a property that is absent is `none`). -/
inductive ServiceCall where
  | getDomains
  | getDomainDetails (domain : Option JVal)
  | getDNSRecords (domain : Option JVal)
  | createDNSRecord (domain data : Option JVal)
  | updateDNSRecord (domain record data : Option JVal)
  | deleteDNSRecord (domain record : Option JVal)
  | getSSLInfo (domain : Option JVal)
  | installSSL (domain data : Option JVal)
  | getEmailAccounts (domain : Option JVal)
  | createEmailAccount (domain data : Option JVal)
  | deleteEmailAccount (domain email : Option JVal)
  | getHostingStats
  | getBandwidthUsage (startDate endDate : Option JVal)
  | getDiskUsage
  | getDatabases
  | createDatabase (data : Option JVal)
  | getFTPAccounts
  | createFTPAccount (data : Option JVal)
  | checkDomainAvailability (domain : Option JVal)
  | getAccountInfo
  deriving DecidableEq, Repr

/-- The hosting service as the tools see it: what awaiting each call gives,
and the text of compound values in templates. -/
structure Hosting where
  respond : ServiceCall → Outcome Result
  compoundText : String → String

/-- A call of a Hostinger tool: the service calls it made, in order, and
what the call gives. -/
structure ToolRun where
  calls : List ServiceCall
  outcome : Outcome Result
  deriving DecidableEq, Repr

namespace HostingerTools

/-- The `catch` block shared by the tools: `{ success: false, error:
error.message }`. -/
def caught (message : String) : Result :=
  ⟨false, some message, none, none⟩

/-- A tool that ends in its `catch` block without having called the service. -/
def rejected (message : String) : ToolRun :=
  ⟨[], .ok (caught message)⟩

/-- The statement `return await this.hostingerService.method(...)` inside the
`try` block: the result of the call, or the `catch` block on an error. -/
def awaited (h : Hosting) (call : ServiceCall) : ToolRun :=
  match h.respond call with
  | .ok result => ⟨[call], .ok result⟩
  | .threw message => ⟨[call], .ok (caught message)⟩

/-- The error of destructuring an absent parameter object. -/
def destructureError (property : String) : String :=
  "Cannot destructure property \x27" ++ property
    ++ "\x27 of \x27params\x27 as it is undefined."

/-- The method `manageDomain(params)`. -/
def manageDomain (h : Hosting) (params : Option JObject) : ToolRun :=
  match params with
  | none => rejected (destructureError "action")
  | some p =>
    let domain := objectGet p "domain_name"
    let data := objectGet p "dns_data"
    let record := objectGet p "record_id"
    match objectGet p "action" with
    | some (.str "list") => awaited h .getDomains
    | some (.str "get_details") =>
      if !truthy domain then rejected "domain_name is required"
      else awaited h (.getDomainDetails domain)
    | some (.str "get_dns") =>
      if !truthy domain then rejected "domain_name is required"
      else awaited h (.getDNSRecords domain)
    | some (.str "add_dns") =>
      if !truthy domain || !truthy data then rejected "domain_name and dns_data are required"
      else awaited h (.createDNSRecord domain data)
    | some (.str "update_dns") =>
      if !truthy domain || !truthy record || !truthy data then
        rejected "domain_name, record_id, and dns_data are required"
      else awaited h (.updateDNSRecord domain record data)
    | some (.str "delete_dns") =>
      if !truthy domain || !truthy record then
        rejected "domain_name and record_id are required"
      else awaited h (.deleteDNSRecord domain record)
    | action => rejected ("Unknown action: " ++ templateText h.compoundText action)

/-- The method `manageSSL(params)`. -/
def manageSSL (h : Hosting) (params : Option JObject) : ToolRun :=
  match params with
  | none => rejected (destructureError "action")
  | some p =>
    let domain := objectGet p "domain_name"
    let data := objectGet p "ssl_data"
    match objectGet p "action" with
    | some (.str "get_info") => awaited h (.getSSLInfo domain)
    | some (.str "install") =>
      if !truthy data then rejected "ssl_data is required"
      else awaited h (.installSSL domain data)
    | action => rejected ("Unknown action: " ++ templateText h.compoundText action)

/-- The method `manageEmail(params)`. -/
def manageEmail (h : Hosting) (params : Option JObject) : ToolRun :=
  match params with
  | none => rejected (destructureError "action")
  | some p =>
    let domain := objectGet p "domain_name"
    let data := objectGet p "email_data"
    let email := objectGet p "email_id"
    match objectGet p "action" with
    | some (.str "list") => awaited h (.getEmailAccounts domain)
    | some (.str "create") =>
      if !truthy data then rejected "email_data is required"
      else awaited h (.createEmailAccount domain data)
    | some (.str "delete") =>
      if !truthy email then rejected "email_id is required"
      else awaited h (.deleteEmailAccount domain email)
    | action => rejected ("Unknown action: " ++ templateText h.compoundText action)

/-- The first error among the outcomes of calls awaited together. -/
def firstError : List (Outcome Result) → Option String
  | [] => none
  | .threw message :: _ => some message
  | .ok _ :: rest => firstError rest

/-- The method `getHostingStats(params)`. For `all` the three calls are
started together (`Promise.all`); the combined object has `success: true`
and carries the `data` of the three results under `stats`, `bandwidth` and
`disk_usage`. -/
def getHostingStats (h : Hosting) (params : Option JObject) : ToolRun :=
  match params with
  | none => rejected (destructureError "metric")
  | some p =>
    let startDate := objectGet p "start_date"
    let endDate := objectGet p "end_date"
    match objectGet p "metric" with
    | some (.str "overview") => awaited h .getHostingStats
    | some (.str "bandwidth") => awaited h (.getBandwidthUsage startDate endDate)
    | some (.str "disk_usage") => awaited h .getDiskUsage
    | some (.str "all") =>
      let calls : List ServiceCall :=
        [.getHostingStats, .getBandwidthUsage startDate endDate, .getDiskUsage]
      match firstError (calls.map h.respond) with
      | some message => ⟨calls, .ok (caught message)⟩
      | none => ⟨calls, .ok ⟨true, none, none, some "stats, bandwidth, disk_usage"⟩⟩
    | metric => rejected ("Unknown metric: " ++ templateText h.compoundText metric)

/-- The method `manageDatabase(params)`. -/
def manageDatabase (h : Hosting) (params : Option JObject) : ToolRun :=
  match params with
  | none => rejected (destructureError "action")
  | some p =>
    let data := objectGet p "database_data"
    match objectGet p "action" with
    | some (.str "list") => awaited h .getDatabases
    | some (.str "create") =>
      if !truthy data then rejected "database_data is required"
      else awaited h (.createDatabase data)
    | action => rejected ("Unknown action: " ++ templateText h.compoundText action)

/-- The method `manageFTP(params)`. -/
def manageFTP (h : Hosting) (params : Option JObject) : ToolRun :=
  match params with
  | none => rejected (destructureError "action")
  | some p =>
    let data := objectGet p "ftp_data"
    match objectGet p "action" with
    | some (.str "list") => awaited h .getFTPAccounts
    | some (.str "create") =>
      if !truthy data then rejected "ftp_data is required"
      else awaited h (.createFTPAccount data)
    | action => rejected ("Unknown action: " ++ templateText h.compoundText action)

/-- The method `checkDomainAvailability(params)`. -/
def checkDomainAvailability (h : Hosting) (params : Option JObject) : ToolRun :=
  match params with
  | none => rejected (destructureError "domain_name")
  | some p => awaited h (.checkDomainAvailability (objectGet p "domain_name"))

/-- The method `getAccountInfo(params)`. -/
def getAccountInfo (h : Hosting) (_params : Option JObject) : ToolRun :=
  awaited h .getAccountInfo

/-- The names of the tools `getTools()` returns, in order. -/
def toolNames : List String :=
  ["manage_domain", "manage_ssl", "manage_email", "get_hosting_stats", "manage_database",
   "manage_ftp", "check_domain_availability", "get_account_info"]

/-- The `execute` function of the tool of that name in `getTools()`. -/
def execute (h : Hosting) (name : String) (params : Option JObject) : Option ToolRun :=
  if name = "manage_domain" then some (manageDomain h params)
  else if name = "manage_ssl" then some (manageSSL h params)
  else if name = "manage_email" then some (manageEmail h params)
  else if name = "get_hosting_stats" then some (getHostingStats h params)
  else if name = "manage_database" then some (manageDatabase h params)
  else if name = "manage_ftp" then some (manageFTP h params)
  else if name = "check_domain_availability" then some (checkDomainAvailability h params)
  else if name = "get_account_info" then some (getAccountInfo h params)
  else none

end HostingerTools

namespace HostingerTools

/-- A tool call that keeps its errors inside: it gives a result object, and
if any service call it made threw, that object is a failure with an error
text. -/
def Contained (h : Hosting) (run : ToolRun) : Prop :=
  ∃ r, run.outcome = .ok r ∧
    ∀ c ∈ run.calls, ∀ m, h.respond c = .threw m → r.success = false ∧ ∃ e, r.error = some e

end HostingerTools

/-- A hosting service whose every call fails. -/
def unreachableHosting : Hosting where
  respond := fun _ => .threw "connect ETIMEDOUT"
  compoundText := fun text => text

/-- The methods the `execute` closures of the registry call, in registry
order. -/
def builtinMethods : List String :=
  initializeTools.map fun kt => kt.2.execute

/-! ## The capability listing and the planner prompt -/

/-- The `data` of `GET /capabilities`: `{ capabilities, count, categories }`. -/
structure CapabilitiesBody where
  capabilities : List Capability
  count : Nat
  categories : List (String × List String)
  deriving DecidableEq, Repr

/-- The handler of `GET /capabilities`. -/
def capabilitiesRoute : Response CapabilitiesBody :=
  .json 200
    ⟨capabilities, capabilities.length,
     [ ("Data Analysis", ["analyze_royalties", "query_database", "predict_revenue"]),
       ("Payment Processing", ["process_payment", "optimize_payments"]),
       ("Reporting", ["generate_report", "export_data"]),
       ("Communication", ["send_email", "send_notification"]),
       ("Calculations", ["calculate_royalties"]),
       ("Integration", ["sync_platform_data", "search_web"]),
       ("Contract Management", ["analyze_contract"]),
       ("Compliance", ["check_compliance"]),
       ("Automation", ["execute_workflow"]) ]⟩

/-- The call `xs.slice(start)` of an array: a negative `start` counts from
the end, and what falls outside the array is clamped. -/
def jsSlice {α : Type} (xs : List α) (start : Int) : List α :=
  if start < 0 then xs.drop (xs.length - start.natAbs)
  else xs.drop start.toNat

/-- What the prompt built by `getNextAction` tells the planner about the
agent: the available tools, the current context and the previous actions
(lines 468-471). -/
structure PlannerPrompt where
  availableTools : List String
  context : JObject
  previousActions : List Result
  deriving DecidableEq, Repr

namespace AutonomousAgent

/-- The three interpolations of the system message of `getNextAction`:
`Object.keys(this.tools)`, `this.memory.context` and
`this.state.results.slice(-3)`. -/
def plannerPrompt (a : Agent) : PlannerPrompt :=
  ⟨availableTools, a.memory.context, jsSlice a.state.results (-3)⟩

end AutonomousAgent

/-- An environment in which the tool fails in every pass and the completion
check answers true. -/
def failedYetCompleteEnv : Env where
  getNextAction := fun _ => .ok (toolCall "processPayment" [])
  execute := fun _ _ _ => .threw "Payment validation failed"
  isTaskComplete := fun _ => .ok true
  generateSummary := .ok "Done"
  now := fun i => i

/-- The values the schema of `queryDatabase` allows for `collection`. -/
def collectionEnum : List String :=
  match initializeTools.lookup "queryDatabase" with
  | some tool =>
    match tool.parameters.properties.lookup "collection" with
    | some property => property.enumValues
    | none => []
  | none => []

/-- The model module each collection is meant to stand for: the singular,
capitalised name of the collection. -/
def modelFor : String → Option String
  | "artists" => some "Artist"
  | "royalties" => some "Royalty"
  | "payments" => some "Payment"
  | "contracts" => some "Contract"
  | "users" => some "User"
  | _ => none

/-- A chat message sent without a conversation id. -/
def firstChat : ChatRequest := ⟨some "hello", none⟩

namespace HostingerTools

/-- The six management tools, by the name of their entry in `getTools()`. -/
def managementTools : List String :=
  ["manage_domain", "manage_ssl", "manage_email", "manage_database", "manage_ftp",
   "get_hosting_stats"]

/-- The parameter a management tool switches on. -/
def selector (name : String) : String :=
  if name = "get_hosting_stats" then "metric" else "action"

/-- The values of its selector a management tool handles: the `case` labels
of its `switch`. -/
def handledValues (name : String) : List String :=
  if name = "manage_domain" then
    ["list", "get_details", "get_dns", "add_dns", "update_dns", "delete_dns"]
  else if name = "manage_ssl" then ["get_info", "install"]
  else if name = "manage_email" then ["list", "create", "delete"]
  else if name = "manage_database" then ["list", "create"]
  else if name = "manage_ftp" then ["list", "create"]
  else if name = "get_hosting_stats" then ["overview", "bandwidth", "disk_usage", "all"]
  else []

/-- The start of the error text for a selector value that is not handled. -/
def unknownText (name : String) : String :=
  if name = "get_hosting_stats" then "Unknown metric: " else "Unknown action: "

/-- The data fields the actions need, as (tool, action, field): `domain_name`
for the domain actions other than `list`, and the data or id the action
works on. -/
def neededFields : List (String × String × String) :=
  [ ("manage_domain", "get_details", "domain_name"),
    ("manage_domain", "get_dns", "domain_name"),
    ("manage_domain", "add_dns", "domain_name"),
    ("manage_domain", "add_dns", "dns_data"),
    ("manage_domain", "update_dns", "domain_name"),
    ("manage_domain", "update_dns", "record_id"),
    ("manage_domain", "update_dns", "dns_data"),
    ("manage_domain", "delete_dns", "domain_name"),
    ("manage_domain", "delete_dns", "record_id"),
    ("manage_ssl", "install", "ssl_data"),
    ("manage_email", "create", "email_data"),
    ("manage_email", "delete", "email_id"),
    ("manage_database", "create", "database_data"),
    ("manage_ftp", "create", "ftp_data") ]

end HostingerTools

/-- A hosting service that answers every call. -/
def workingHosting : Hosting where
  respond := fun _ => .ok ⟨true, none, none, some "data"⟩
  compoundText := fun text => text

/-! ## A call of `run` with a task of any type -/

namespace AutonomousAgent

/-- The task as the agent holds it in `state.currentTask` and hands it back
in the returned object. Tasks are kept as text: a string is itself, any other
value stands as its JSON text. -/
def heldTask : JVal → String
  | .null => "null"
  | .bool b => if b then "true" else "false"
  | .num n => toString n
  | .str s => s
  | .json text => text

/-- What a call of `run` comes to: it returns an object, or it throws (the
promise it gave is rejected) and leaves the agent as it stands. -/
inductive RunCall where
  | returned (result : RunResult)
  | threw (message : String) (points : List Agent) (agent : Agent)
  deriving DecidableEq, Repr

/-- The object a call of `run` returned, if it returned. -/
def RunCall.returnedObject : RunCall → Option RunReturn
  | .returned result => some result.returned
  | .threw _ _ _ => none

/-- The agent when the call of `run` is over. -/
def RunCall.agent : RunCall → Agent
  | .returned result => result.agent
  | .threw _ _ agent => agent

/-- The method `run(task, context)` for a task of any JSON type
(`POST /execute` hands on whatever truthy value the request body holds).
After the five assignments, the template of the `console.log` call at line
405 converts the task to text. That statement stands before the `try` block,
so an error of the conversion leaves `run` at once: neither the `catch` nor
the `finally` block runs. When the task converts, the call goes on as `run`
describes. -/
def runValue (c : Conversion) (env : Env) (a : Agent) (task : JVal) (context : JObject) :
    RunCall :=
  match interpolate c (some task) with
  | .threw message =>
    .threw message (startPoints a (heldTask task) context) (start a (heldTask task) context)
  | .ok _ => .returned (run env a (heldTask task) context)

end AutonomousAgent

/-! ## Facts about one pass through the loop body -/

namespace AutonomousAgent

theorem start_eq_last (a : Agent) (task : String) (context : JObject) :
    (startPoints a task context).getLast? = some (start a task context) := by
  rfl

theorem executeAction_state (env : Env) (a : Agent) (action : Action) :
    (executeAction env a action).1.state = a.state ∧
    (executeAction env a action).1.config = a.config ∧
    (executeAction env a action).1.memory = a.memory ∧
    (executeAction env a action).1.ghost.plannerCalls = a.ghost.plannerCalls ∧
    (executeAction env a action).1.ghost.completionChecks = a.ghost.completionChecks := by
  unfold executeAction
  split
  · simp
  · split
    · simp
    · simp
    · split <;> simp

theorem updateMemory_state (a : Agent) (action : Action) (result : Result) (t : Nat) :
    (updateMemory a action result t).state = a.state ∧
    (updateMemory a action result t).config = a.config ∧
    (updateMemory a action result t).ghost = a.ghost := by
  simp [updateMemory]

@[simp] theorem beginPass_iterations (a : Agent) :
    (beginPass a).state.iterations = a.state.iterations + 1 := rfl

@[simp] theorem beginPass_results (a : Agent) :
    (beginPass a).state.results = a.state.results := rfl

@[simp] theorem beginPass_config (a : Agent) : (beginPass a).config = a.config := rfl

@[simp] theorem beginPass_plannerCalls (a : Agent) :
    (beginPass a).ghost.plannerCalls = a.ghost.plannerCalls + 1 := rfl

/-- The index the completion check is asked with is the pass number. -/
theorem checkIndex (env : Env) (a : Agent) (action : Action) (result : Result) (t : Nat) :
    (updateMemory (pushResult (executeAction env (beginPass a) action).1 result)
      action result t).state.iterations = a.state.iterations + 1 := by
  rw [(updateMemory_state _ _ _ _).1]
  simp [pushResult, (executeAction_state env (beginPass a) action).1]

/-- A pass in which the planner call throws. -/
theorem iteration_plannerThrew (env : Env) (a : Agent) (m : String)
    (hp : env.getNextAction (a.state.iterations + 1) = .threw m) :
    iteration env a = ⟨[beginPass a], beginPass a, .threw m⟩ := by
  simp [iteration, hp]

/-- A pass in which the planner answers `complete`. -/
theorem iteration_plannerComplete (env : Env) (a : Agent) (action : Action)
    (hp : env.getNextAction (a.state.iterations + 1) = .ok action)
    (hc : action.type = some "complete") :
    iteration env a = ⟨[beginPass a], beginPass a, .plannerComplete⟩ := by
  simp [iteration, hp, hc]

/-- A pass in which `executeAction` throws. -/
theorem iteration_executeThrew (env : Env) (a : Agent) (action : Action) (m : String)
    (hp : env.getNextAction (a.state.iterations + 1) = .ok action)
    (hc : action.type ≠ some "complete")
    (he : (executeAction env (beginPass a) action).2 = .threw m) :
    iteration env a =
      ⟨[beginPass a, (executeAction env (beginPass a) action).1],
       (executeAction env (beginPass a) action).1, .threw m⟩ := by
  cases hx : executeAction env (beginPass a) action with
  | mk a2 o =>
    rw [hx] at he
    simp only at he
    subst he
    simp [iteration, hp, hc, hx]

/-- A pass in which `executeAction` gives a result and the completion check
throws. -/
theorem iteration_checkThrew (env : Env) (a : Agent) (action : Action) (result : Result)
    (m : String)
    (hp : env.getNextAction (a.state.iterations + 1) = .ok action)
    (hc : action.type ≠ some "complete")
    (he : (executeAction env (beginPass a) action).2 = .ok result)
    (hj : env.isTaskComplete (a.state.iterations + 1) = .threw m) :
    iteration env a =
      ⟨[beginPass a, (executeAction env (beginPass a) action).1,
        pushResult (executeAction env (beginPass a) action).1 result,
        updateMemory (pushResult (executeAction env (beginPass a) action).1 result)
          action result (env.now (a.state.iterations + 1))],
       updateMemory (pushResult (executeAction env (beginPass a) action).1 result)
          action result (env.now (a.state.iterations + 1)),
       .threw m⟩ := by
  have hi := checkIndex env a action result (env.now (a.state.iterations + 1))
  have hs : (pushResult (executeAction env (beginPass a) action).1 result).state.iterations
      = a.state.iterations + 1 := by
    simp [pushResult, (executeAction_state env (beginPass a) action).1]
  cases hx : executeAction env (beginPass a) action with
  | mk a2 o =>
    rw [hx] at he hi hs
    simp only at he hi hs
    subst he
    simp [iteration, hp, hc, hx, hs, hi, hj]

/-- A pass in which `executeAction` gives a result and the completion check
answers. -/
theorem iteration_checked (env : Env) (a : Agent) (action : Action) (result : Result)
    (answer : Bool)
    (hp : env.getNextAction (a.state.iterations + 1) = .ok action)
    (hc : action.type ≠ some "complete")
    (he : (executeAction env (beginPass a) action).2 = .ok result)
    (hj : env.isTaskComplete (a.state.iterations + 1) = .ok answer) :
    iteration env a =
      ⟨[beginPass a, (executeAction env (beginPass a) action).1,
        pushResult (executeAction env (beginPass a) action).1 result,
        updateMemory (pushResult (executeAction env (beginPass a) action).1 result)
          action result (env.now (a.state.iterations + 1)),
        noteCheck (updateMemory (pushResult (executeAction env (beginPass a) action).1 result)
          action result (env.now (a.state.iterations + 1))) answer],
       noteCheck (updateMemory (pushResult (executeAction env (beginPass a) action).1 result)
          action result (env.now (a.state.iterations + 1))) answer,
       if answer then .satisfied else .next⟩ := by
  have hi := checkIndex env a action result (env.now (a.state.iterations + 1))
  have hs : (pushResult (executeAction env (beginPass a) action).1 result).state.iterations
      = a.state.iterations + 1 := by
    simp [pushResult, (executeAction_state env (beginPass a) action).1]
  cases hx : executeAction env (beginPass a) action with
  | mk a2 o =>
    rw [hx] at he hi hs
    simp only at he hi hs
    subst he
    simp [iteration, hp, hc, hx, hs, hi, hj]

/-- What every pass through the loop body does to the counters, whatever the
planner, the tool and the completion check do. -/
theorem iteration_frame (env : Env) (a : Agent) :
    (iteration env a).agent.state.iterations = a.state.iterations + 1 ∧
    (iteration env a).agent.config = a.config ∧
    (iteration env a).agent.ghost.plannerCalls = a.ghost.plannerCalls + 1 ∧
    (∀ q ∈ (iteration env a).points,
      q.state.iterations = a.state.iterations + 1 ∧ q.config = a.config) := by
  cases hp : env.getNextAction (a.state.iterations + 1) with
  | threw m => simp [iteration_plannerThrew env a m hp]
  | ok action =>
    have e1 := (executeAction_state env (beginPass a) action).1
    have e2 := (executeAction_state env (beginPass a) action).2.1
    have e4 := (executeAction_state env (beginPass a) action).2.2.2.1
    by_cases hc : action.type = some "complete"
    · simp [iteration_plannerComplete env a action hp hc]
    · cases he : (executeAction env (beginPass a) action).2 with
      | threw m =>
        simp [iteration_executeThrew env a action m hp hc he, e1, e2, e4]
      | ok result =>
        cases hj : env.isTaskComplete (a.state.iterations + 1) with
        | threw m =>
          simp [iteration_checkThrew env a action result m hp hc he hj, e1, e2, e4,
            updateMemory, pushResult]
        | ok answer =>
          simp [iteration_checked env a action result answer hp hc he hj, e1, e2, e4,
            updateMemory, pushResult, noteCheck]

/-- A pass leaves the results as they were or appends exactly one. -/
theorem iteration_results (env : Env) (a : Agent) :
    (iteration env a).agent.state.results = a.state.results ∨
    ∃ r, (iteration env a).agent.state.results = a.state.results ++ [r] := by
  cases hp : env.getNextAction (a.state.iterations + 1) with
  | threw m => simp [iteration_plannerThrew env a m hp]
  | ok action =>
    have e1 := (executeAction_state env (beginPass a) action).1
    by_cases hc : action.type = some "complete"
    · simp [iteration_plannerComplete env a action hp hc]
    · cases he : (executeAction env (beginPass a) action).2 with
      | threw m =>
        simp [iteration_executeThrew env a action m hp hc he, e1]
      | ok result =>
        cases hj : env.isTaskComplete (a.state.iterations + 1) with
        | threw m =>
          simp [iteration_checkThrew env a action result m hp hc he hj, e1,
            updateMemory, pushResult]
        | ok answer =>
          simp [iteration_checked env a action result answer hp hc he hj, e1,
            updateMemory, pushResult, noteCheck]

/-- A pass that ends by early satisfaction made a completion check, and that
check, the last one made, answered true. -/
theorem iteration_satisfied (env : Env) (a : Agent)
    (h : (iteration env a).control = .satisfied) :
    (iteration env a).agent.ghost.completionChecks.getLast? = some true := by
  cases hp : env.getNextAction (a.state.iterations + 1) with
  | threw m => simp [iteration_plannerThrew env a m hp] at h
  | ok action =>
    by_cases hc : action.type = some "complete"
    · simp [iteration_plannerComplete env a action hp hc] at h
    · cases he : (executeAction env (beginPass a) action).2 with
      | threw m => simp [iteration_executeThrew env a action m hp hc he] at h
      | ok result =>
        cases hj : env.isTaskComplete (a.state.iterations + 1) with
        | threw m => simp [iteration_checkThrew env a action result m hp hc he hj] at h
        | ok answer =>
          rw [iteration_checked env a action result answer hp hc he hj] at h ⊢
          cases answer with
          | false => simp at h
          | true => simp [noteCheck]

/-! ## Facts about the loop -/

/-- The loop guard is false: the loop is left at once. -/
theorem runLoop_exhausted (env : Env) (fuel : Nat) (a : Agent)
    (hg : ¬ a.state.iterations < a.config.maxIterations) :
    runLoop env fuel a = ⟨[], a, .exhausted⟩ := by
  cases fuel <;> simp [runLoop, hg]

/-- The pass ends normally: the loop goes round again. -/
theorem runLoop_next (env : Env) (fuel : Nat) (a : Agent)
    (hg : a.state.iterations < a.config.maxIterations)
    (hc : (iteration env a).control = .next) :
    runLoop env (fuel + 1) a =
      ⟨(iteration env a).points ++ (runLoop env fuel (iteration env a).agent).points,
       (runLoop env fuel (iteration env a).agent).agent,
       (runLoop env fuel (iteration env a).agent).ending⟩ := by
  simp [runLoop, hg, hc]

/-- The pass ends on the planner's `complete`: `break`. -/
theorem runLoop_plannerComplete (env : Env) (fuel : Nat) (a : Agent)
    (hg : a.state.iterations < a.config.maxIterations)
    (hc : (iteration env a).control = .plannerComplete) :
    runLoop env (fuel + 1) a =
      ⟨(iteration env a).points, (iteration env a).agent, .plannerComplete⟩ := by
  simp [runLoop, hg, hc]

/-- The pass ends on a true completion check: `break`. -/
theorem runLoop_satisfied (env : Env) (fuel : Nat) (a : Agent)
    (hg : a.state.iterations < a.config.maxIterations)
    (hc : (iteration env a).control = .satisfied) :
    runLoop env (fuel + 1) a =
      ⟨(iteration env a).points, (iteration env a).agent, .satisfied⟩ := by
  simp [runLoop, hg, hc]

/-- The pass throws: the loop is left for the `catch` block. -/
theorem runLoop_threw (env : Env) (fuel : Nat) (a : Agent) (m : String)
    (hg : a.state.iterations < a.config.maxIterations)
    (hc : (iteration env a).control = .threw m) :
    runLoop env (fuel + 1) a =
      ⟨(iteration env a).points, (iteration env a).agent, .threw m⟩ := by
  simp [runLoop, hg, hc]

/-- The loop keeps `iterations` within `maxIterations` at every point, and
never touches the configuration. -/
theorem runLoop_bound (env : Env) (fuel : Nat) :
    ∀ a : Agent, a.state.iterations ≤ a.config.maxIterations →
      (runLoop env fuel a).agent.config = a.config ∧
      (runLoop env fuel a).agent.state.iterations ≤ a.config.maxIterations ∧
      ∀ q ∈ (runLoop env fuel a).points,
        q.state.iterations ≤ a.config.maxIterations ∧ q.config = a.config := by
  induction fuel with
  | zero =>
    intro a h
    unfold runLoop
    split <;> simp [h]
  | succ n ih =>
    intro a h
    obtain ⟨f1, f2, -, f4⟩ := iteration_frame env a
    by_cases hlt : a.state.iterations < a.config.maxIterations
    · have hq : ∀ q ∈ (iteration env a).points,
          q.state.iterations ≤ a.config.maxIterations ∧ q.config = a.config := by
        intro q hq
        obtain ⟨q1, q2⟩ := f4 q hq
        exact ⟨by omega, q2⟩
      have hb : (iteration env a).agent.state.iterations
          ≤ (iteration env a).agent.config.maxIterations := by
        rw [f1, f2]; omega
      cases hc : (iteration env a).control with
      | next =>
        rw [runLoop_next env n a hlt hc]
        obtain ⟨i1, i2, i3⟩ := ih (iteration env a).agent hb
        rw [f2] at i1 i2 i3
        refine ⟨i1, i2, ?_⟩
        intro q hq'
        simp only [List.mem_append] at hq'
        rcases hq' with hq' | hq'
        · exact hq q hq'
        · exact i3 q hq'
      | plannerComplete =>
        rw [runLoop_plannerComplete env n a hlt hc]
        exact ⟨f2, by rw [f1]; omega, hq⟩
      | satisfied =>
        rw [runLoop_satisfied env n a hlt hc]
        exact ⟨f2, by rw [f1]; omega, hq⟩
      | threw m =>
        rw [runLoop_threw env n a m hlt hc]
        exact ⟨f2, by rw [f1]; omega, hq⟩
    · rw [runLoop_exhausted env _ a hlt]
      simp [h]

/-- With at least `maxIterations - iterations` passes allowed, the model loop
is never cut short: one more pass of fuel changes nothing, and the loop ends
the way the source loop does. -/
theorem runLoop_fuel (env : Env) (fuel : Nat) :
    ∀ a : Agent, a.config.maxIterations - a.state.iterations ≤ fuel →
      runLoop env (fuel + 1) a = runLoop env fuel a ∧
      (runLoop env fuel a).ending ≠ .outOfFuel := by
  induction fuel with
  | zero =>
    intro a h
    have hge : ¬ a.state.iterations < a.config.maxIterations := by omega
    simp [runLoop, hge]
  | succ n ih =>
    intro a h
    obtain ⟨f1, f2, -, -⟩ := iteration_frame env a
    have hn : (iteration env a).agent.config.maxIterations
        - (iteration env a).agent.state.iterations ≤ n := by
      rw [f1, f2]; omega
    obtain ⟨i1, i2⟩ := ih (iteration env a).agent hn
    by_cases hlt : a.state.iterations < a.config.maxIterations
    · cases hc : (iteration env a).control with
      | next =>
        rw [runLoop_next env (n + 1) a hlt hc, runLoop_next env n a hlt hc, i1]
        exact ⟨rfl, i2⟩
      | plannerComplete =>
        rw [runLoop_plannerComplete env (n + 1) a hlt hc, runLoop_plannerComplete env n a hlt hc]
        simp
      | satisfied =>
        rw [runLoop_satisfied env (n + 1) a hlt hc, runLoop_satisfied env n a hlt hc]
        simp
      | threw m =>
        rw [runLoop_threw env (n + 1) a m hlt hc, runLoop_threw env n a m hlt hc]
        simp
    · rw [runLoop_exhausted env _ a hlt, runLoop_exhausted env _ a hlt]
      simp

/-- The counter advances in step with the passes made: it grows by as much
as the number of planner calls. -/
theorem runLoop_count (env : Env) (fuel : Nat) :
    ∀ a : Agent,
      (runLoop env fuel a).agent.state.iterations + a.ghost.plannerCalls =
        (runLoop env fuel a).agent.ghost.plannerCalls + a.state.iterations := by
  induction fuel with
  | zero =>
    intro a
    unfold runLoop
    split <;> simp <;> omega
  | succ n ih =>
    intro a
    obtain ⟨f1, -, f3, -⟩ := iteration_frame env a
    by_cases hlt : a.state.iterations < a.config.maxIterations
    · cases hc : (iteration env a).control with
      | next =>
        rw [runLoop_next env n a hlt hc]
        have := ih (iteration env a).agent
        simp only
        omega
      | plannerComplete =>
        rw [runLoop_plannerComplete env n a hlt hc]
        simp only
        omega
      | satisfied =>
        rw [runLoop_satisfied env n a hlt hc]
        simp only
        omega
      | threw m =>
        rw [runLoop_threw env n a m hlt hc]
        simp only
        omega
    · rw [runLoop_exhausted env _ a hlt]
      simp only
      omega

/-- A pass that goes all the way round appends one result and lets the loop
go on. -/
theorem iteration_proceeds (env : Env) (P : Result → Prop) (a : Agent)
    (h : Proceeds env P (a.state.iterations + 1)) :
    (iteration env a).control = .next ∧
    ∃ r, P r ∧ (iteration env a).agent.state.results = a.state.results ++ [r] := by
  obtain ⟨action, hp, hc, he, hj⟩ := h
  obtain ⟨r, hr, hP⟩ := he (beginPass a) rfl
  rw [iteration_checked env a action r false hp hc hr hj]
  refine ⟨by simp, r, hP, ?_⟩
  simp [noteCheck, updateMemory, pushResult, (executeAction_state env (beginPass a) action).1]

/-- What `k` passes do to the counters. -/
theorem passes_frame (env : Env) (k : Nat) :
    ∀ a : Agent,
      (passes env k a).state.iterations = a.state.iterations + k ∧
      (passes env k a).config = a.config ∧
      (passes env k a).ghost.plannerCalls = a.ghost.plannerCalls + k := by
  induction k with
  | zero => intro a; simp [passes]
  | succ n ih =>
    intro a
    obtain ⟨f1, f2, f3, -⟩ := iteration_frame env a
    obtain ⟨i1, i2, i3⟩ := ih (iteration env a).agent
    simp only [passes]
    refine ⟨by omega, by rw [i2, f2], by omega⟩

/-- While the passes go all the way round and the limit is not reached, the
loop makes them one after the other: `k` such passes append `k` results, each
satisfying `P`, and the loop carries on from the agent they leave. -/
theorem runLoop_proceeds (env : Env) (P : Result → Prop) (k : Nat) :
    ∀ a : Agent, a.state.iterations + k ≤ a.config.maxIterations →
      (∀ i, a.state.iterations < i → i ≤ a.state.iterations + k → Proceeds env P i) →
      (∃ added : List Result, added.length = k ∧ (∀ r ∈ added, P r) ∧
        (passes env k a).state.results = a.state.results ++ added) ∧
      ∀ fuel, (runLoop env (k + fuel) a).agent = (runLoop env fuel (passes env k a)).agent ∧
        (runLoop env (k + fuel) a).ending = (runLoop env fuel (passes env k a)).ending := by
  induction k with
  | zero =>
    intro a _ _
    exact ⟨⟨[], rfl, by simp, by simp [passes]⟩, fun fuel => by simp [passes]⟩
  | succ n ih =>
    intro a hle hall
    obtain ⟨f1, f2, -, -⟩ := iteration_frame env a
    obtain ⟨hc, r, hP, hr⟩ := iteration_proceeds env P a
      (hall (a.state.iterations + 1) (by omega) (by omega))
    obtain ⟨⟨added, a1, a2, a3⟩, hloop⟩ := ih (iteration env a).agent
      (by rw [f1, f2]; omega)
      (fun i h1 h2 => hall i (by rw [f1] at h1; omega) (by rw [f1] at h2; omega))
    refine ⟨⟨r :: added, by simp [a1], ?_, ?_⟩, ?_⟩
    · intro x hx
      simp only [List.mem_cons] at hx
      rcases hx with rfl | hx
      · exact hP
      · exact a2 x hx
    · simp only [passes]
      rw [a3, hr]
      simp
    · intro fuel
      have hlt : a.state.iterations < a.config.maxIterations := by omega
      have e : n + 1 + fuel = (n + fuel) + 1 := by omega
      rw [e, runLoop_next env (n + fuel) a hlt hc]
      simp only [passes]
      exact hloop fuel

/-! ## The claims about `run` -/

theorem startPoints_frame (a : Agent) (task : String) (context : JObject) :
    ∀ q ∈ startPoints a task context,
      (q.state.iterations = a.state.iterations ∨ q.state.iterations = 0) ∧
      q.config = a.config := by
  intro q hq
  simp only [startPoints, List.mem_cons, List.mem_singleton, List.not_mem_nil, or_false] at hq
  rcases hq with rfl | rfl | rfl | rfl | rfl <;> simp

/-- The parts of a call of `run`, in terms of its loop. -/
theorem run_parts (env : Env) (a : Agent) (task : String) (context : JObject) :
    (run env a task context).points =
      startPoints a task context
        ++ (runLoop env a.config.maxIterations (start a task context)).points
        ++ [finish (runLoop env a.config.maxIterations (start a task context)).agent] ∧
    (run env a task context).agent =
      finish (runLoop env a.config.maxIterations (start a task context)).agent ∧
    (run env a task context).ending =
      (runLoop env a.config.maxIterations (start a task context)).ending ∧
    (run env a task context).returned.iterations =
      (runLoop env a.config.maxIterations (start a task context)).agent.state.iterations ∧
    (run env a task context).returned.results =
      (runLoop env a.config.maxIterations (start a task context)).agent.state.results ∧
    (run env a task context).returned.task = task := by
  refine ⟨rfl, rfl, rfl, ?_, ?_, ?_⟩ <;>
  · simp only [run]
    split
    · simp
    · split <;> simp

/-- C1. Started on an agent whose counter is within its limit (as it is for
a new agent, and as every run leaves it), `run` keeps `state.iterations` at or
below `config.maxIterations` at every point: after each of its statements, in
the agent it leaves and in the object it returns, whatever the planner, the
tools, the completion check and the summary do. The configuration is never
changed, the loop is run to its own end, every pass through the loop body
raises the counter by exactly one at its first statement and leaves it alone
afterwards, and the count returned is the number of passes made. -/
theorem run_iterations_within_max (env : Env) (a : Agent) (task : String) (context : JObject)
    (h : a.state.iterations ≤ a.config.maxIterations) :
    (∀ q ∈ (run env a task context).points,
      q.state.iterations ≤ q.config.maxIterations ∧ q.config = a.config) ∧
    (run env a task context).agent.state.iterations
      ≤ (run env a task context).agent.config.maxIterations ∧
    (run env a task context).returned.iterations ≤ a.config.maxIterations ∧
    (run env a task context).ending ≠ .outOfFuel ∧
    (run env a task context).returned.iterations + a.ghost.plannerCalls
      = (run env a task context).agent.ghost.plannerCalls ∧
    (∀ b : Agent,
      (iteration env b).agent.state.iterations = b.state.iterations + 1 ∧
      ∀ q ∈ (iteration env b).points, q.state.iterations = b.state.iterations + 1) := by
  obtain ⟨l1, l2, l3⟩ := runLoop_bound env a.config.maxIterations
    (start a task context) (Nat.zero_le _)
  have hfuel := (runLoop_fuel env a.config.maxIterations
    (start a task context) (Nat.sub_le _ _)).2
  have hcount := runLoop_count env a.config.maxIterations (start a task context)
  obtain ⟨p1, p2, p3, p4, -, -⟩ := run_parts env a task context
  have hcfg : (start a task context).config = a.config := rfl
  have hs : (start a task context).state.iterations = 0 := rfl
  have hg : (start a task context).ghost.plannerCalls = a.ghost.plannerCalls := rfl
  have hfin : ∀ b : Agent, (finish b).state.iterations = b.state.iterations ∧
      (finish b).config = b.config ∧ (finish b).ghost = b.ghost := fun b => ⟨rfl, rfl, rfl⟩
  rw [hcfg] at l1 l2 l3
  refine ⟨?_, ?_, ?_, ?_, ?_, ?_⟩
  · intro q hq
    rw [p1] at hq
    simp only [List.mem_append, List.mem_singleton] at hq
    rcases hq with (hq | hq) | hq
    · obtain ⟨s1, s2⟩ := startPoints_frame a task context q hq
      rw [s2]
      refine ⟨?_, rfl⟩
      rcases s1 with s1 | s1 <;> omega
    · obtain ⟨q1, q2⟩ := l3 q hq
      rw [q2]
      exact ⟨q1, rfl⟩
    · subst hq
      rw [(hfin _).1, (hfin _).2.1, l1]
      exact ⟨l2, rfl⟩
  · rw [p2, (hfin _).1, (hfin _).2.1, l1]
    exact l2
  · rw [p4]
    exact l2
  · rw [p3]
    exact hfuel
  · rw [p4, p2, (hfin _).2.2]
    omega
  · intro b
    obtain ⟨f1, -, -, f4⟩ := iteration_frame env b
    exact ⟨f1, fun q hq => (f4 q hq).1⟩

/-- The object returned when the loop was left without an error and the
summary call resolves. -/
theorem run_returned_success (env : Env) (a : Agent) (task : String) (context : JObject)
    (summary : String)
    (hend : ∀ m, (runLoop env a.config.maxIterations (start a task context)).ending ≠ .threw m)
    (hs : env.generateSummary = .ok summary) :
    (run env a task context).returned =
      ⟨true, none, task,
       (runLoop env a.config.maxIterations (start a task context)).agent.state.iterations,
       (runLoop env a.config.maxIterations (start a task context)).agent.state.results,
       some summary⟩ := by
  cases hE : (runLoop env a.config.maxIterations (start a task context)).ending with
  | threw m => exact absurd hE (hend m)
  | exhausted => simp [run, hE, hs]
  | plannerComplete => simp [run, hE, hs]
  | satisfied => simp [run, hE, hs]
  | outOfFuel => simp [run, hE, hs]

/-- The object returned when the loop was left by an error. -/
theorem run_returned_threw (env : Env) (a : Agent) (task : String) (context : JObject)
    (m : String)
    (hend : (runLoop env a.config.maxIterations (start a task context)).ending = .threw m) :
    (run env a task context).returned =
      ⟨false, some m, task,
       (runLoop env a.config.maxIterations (start a task context)).agent.state.iterations,
       (runLoop env a.config.maxIterations (start a task context)).agent.state.results,
       none⟩ := by
  simp [run, hend]

/-- The four assumptions of the budget scenario make every pass go all the
way round. -/
theorem proceeds_of_resolving (env : Env)
    (hplan : ∀ i, ∃ action, env.getNextAction i = .ok action ∧ action.type ≠ some "complete")
    (hinv : ∀ i action (b : Agent), env.getNextAction i = .ok action →
      ∃ r, (executeAction env b action).2 = .ok r)
    (hjudge : ∀ i, env.isTaskComplete i = .ok false) (i : Nat) :
    Proceeds env (fun _ => True) i := by
  obtain ⟨action, hp, hc⟩ := hplan i
  refine ⟨action, hp, hc, ?_, hjudge i⟩
  intro b _
  obtain ⟨r, hr⟩ := hinv i action b hp
  exact ⟨r, hr, trivial⟩

/-- C2 (amended). If the planner always returns an action other than
`complete`, every invocation resolves, `isTaskComplete` always answers false
and the closing `generateSummary` call resolves, then `run` makes exactly
`maxIterations` passes, leaves the loop because the limit is reached, and
returns `success: true` with `iterations = maxIterations`, exactly
`maxIterations` results, no error and the summary. -/
theorem run_exhausts_budget (env : Env) (a : Agent) (task : String) (context : JObject)
    (summary : String)
    (hplan : ∀ i, ∃ action, env.getNextAction i = .ok action ∧ action.type ≠ some "complete")
    (hinv : ∀ i action (b : Agent), env.getNextAction i = .ok action →
      ∃ r, (executeAction env b action).2 = .ok r)
    (hjudge : ∀ i, env.isTaskComplete i = .ok false)
    (hsum : env.generateSummary = .ok summary) :
    (run env a task context).ending = .exhausted ∧
    (run env a task context).agent.ghost.plannerCalls
      = a.ghost.plannerCalls + a.config.maxIterations ∧
    (run env a task context).returned.success = true ∧
    (run env a task context).returned.error = none ∧
    (run env a task context).returned.iterations = a.config.maxIterations ∧
    (run env a task context).returned.results.length = a.config.maxIterations ∧
    (run env a task context).returned.summary = some summary := by
  have hs : (start a task context).state.iterations = 0 := rfl
  have hcfg : (start a task context).config = a.config := rfl
  have hres : (start a task context).state.results = [] := rfl
  have hg : (start a task context).ghost = a.ghost := rfl
  obtain ⟨⟨added, a1, -, a3⟩, hloop⟩ := runLoop_proceeds env (fun _ => True)
    a.config.maxIterations (start a task context) (by rw [hs, hcfg]; omega)
    (fun i _ _ => proceeds_of_resolving env hplan hinv hjudge i)
  obtain ⟨q1, q2, q3⟩ := passes_frame env a.config.maxIterations (start a task context)
  have hdone : ¬ (passes env a.config.maxIterations (start a task context)).state.iterations
      < (passes env a.config.maxIterations (start a task context)).config.maxIterations := by
    rw [q1, q2, hs, hcfg]; omega
  obtain ⟨l1, l2⟩ := hloop 0
  rw [runLoop_exhausted env 0 _ hdone] at l1 l2
  simp only [Nat.add_zero] at l1 l2
  have hret := run_returned_success env a task context summary (by rw [l2]; simp) hsum
  obtain ⟨-, p2, p3, -, -, -⟩ := run_parts env a task context
  rw [hret, p2, p3, l1, l2]
  refine ⟨rfl, ?_, rfl, rfl, ?_, ?_, rfl⟩
  · show (passes env a.config.maxIterations (start a task context)).ghost.plannerCalls = _
    rw [q3, hg]
  · show (passes env a.config.maxIterations (start a task context)).state.iterations = _
    rw [q1, hs]; omega
  · show (passes env a.config.maxIterations (start a task context)).state.results.length = _
    rw [a3, hres]; simp [a1]

/-- The spec's scenario for C2: `maxIterations = 3`, three passes, and a
completed run with three results. -/
theorem run_exhausts_budget_witness :
    (run (emailEnv (.ok "Budget reached")) (new ⟨none, some 3⟩) "process pending payments"
        []).returned.success = true ∧
    (run (emailEnv (.ok "Budget reached")) (new ⟨none, some 3⟩) "process pending payments"
        []).returned.iterations = 3 ∧
    (run (emailEnv (.ok "Budget reached")) (new ⟨none, some 3⟩) "process pending payments"
        []).returned.results.length = 3 := by
  have h := run_exhausts_budget (emailEnv (.ok "Budget reached")) (new ⟨none, some 3⟩)
    "process pending payments" [] "Budget reached"
    (fun _ => ⟨toolCall "sendEmail" [], rfl, by decide⟩)
    (fun _ action b hp => by
      cases hp
      exact ⟨⟨true, none, some "Email sent", none⟩, rfl⟩)
    (fun _ => rfl) rfl
  exact ⟨h.2.2.1, h.2.2.2.2.1, h.2.2.2.2.2.1⟩

/-- C2 (as stated) fails: the planner never completes, every invocation
resolves and the completion check always answers false, yet the run with
`maxIterations = 3` returns `success: false`, because the `generateSummary`
call in the `return` statement throws inside the `try` block. -/
theorem run_budget_summary_failure :
    (∀ i, ∃ action, (emailEnv (.threw "Service unavailable")).getNextAction i = .ok action ∧
      action.type ≠ some "complete") ∧
    (∀ i action (b : Agent),
      (emailEnv (.threw "Service unavailable")).getNextAction i = .ok action →
      ∃ r, (executeAction (emailEnv (.threw "Service unavailable")) b action).2 = .ok r) ∧
    (∀ i, (emailEnv (.threw "Service unavailable")).isTaskComplete i = .ok false) ∧
    (run (emailEnv (.threw "Service unavailable")) (new ⟨none, some 3⟩)
        "process pending payments" []).returned.success = false ∧
    (run (emailEnv (.threw "Service unavailable")) (new ⟨none, some 3⟩)
        "process pending payments" []).returned.error = some "Service unavailable" ∧
    (run (emailEnv (.threw "Service unavailable")) (new ⟨none, some 3⟩)
        "process pending payments" []).returned.iterations = 3 ∧
    (run (emailEnv (.threw "Service unavailable")) (new ⟨none, some 3⟩)
        "process pending payments" []).returned.results.length = 3 := by
  refine ⟨fun _ => ⟨toolCall "sendEmail" [], rfl, by decide⟩, ?_, fun _ => rfl,
    by decide, by decide, by decide, by decide⟩
  intro _ action b hp
  cases hp
  exact ⟨⟨true, none, some "Email sent", none⟩, rfl⟩

/-- The scenario of C1 on a new agent with `maxIterations = 3`. -/
theorem run_iterations_within_max_witness :
    (new ⟨none, some 3⟩).state.iterations ≤ (new ⟨none, some 3⟩).config.maxIterations ∧
    (run (emailEnv (.ok "done")) (new ⟨none, some 3⟩) "task" []).returned.iterations ≤ 3 :=
  ⟨by decide,
   (run_iterations_within_max (emailEnv (.ok "done")) (new ⟨none, some 3⟩) "task" []
      (by decide)).2.2.1⟩

/-- C3 (amended). If the first `k` passes each invoke a capability that
succeeds (the completion check answering false after each), the planner then
answers `complete`, `k < maxIterations` and the summary call resolves, then
`run` ends successfully with exactly `k` results, each with `success: true`,
and with an iteration count of `k + 1`: the pass in which the planner answers
`complete` is counted too. -/
theorem run_completes_after_invocations (env : Env) (a : Agent) (task : String)
    (context : JObject) (k : Nat) (summary : String)
    (hk : k < a.config.maxIterations)
    (hinvoke : ∀ i, 1 ≤ i → i ≤ k → Proceeds env (fun r => r.success = true) i)
    (hcomplete : ∃ action, env.getNextAction (k + 1) = .ok action ∧
      action.type = some "complete")
    (hsum : env.generateSummary = .ok summary) :
    (run env a task context).ending = .plannerComplete ∧
    (run env a task context).returned.success = true ∧
    (run env a task context).returned.results.length = k ∧
    (∀ r ∈ (run env a task context).returned.results, r.success = true) ∧
    (run env a task context).returned.iterations = k + 1 ∧
    (run env a task context).agent.ghost.plannerCalls = a.ghost.plannerCalls + (k + 1) := by
  have hs : (start a task context).state.iterations = 0 := rfl
  have hcfg : (start a task context).config = a.config := rfl
  have hres : (start a task context).state.results = [] := rfl
  have hg : (start a task context).ghost = a.ghost := rfl
  obtain ⟨⟨added, a1, a2, a3⟩, hloop⟩ := runLoop_proceeds env (fun r => r.success = true)
    k (start a task context) (by rw [hs, hcfg]; omega)
    (fun i h1 h2 => hinvoke i (by omega) (by rw [hs] at h2; omega))
  obtain ⟨q1, q2, q3⟩ := passes_frame env k (start a task context)
  obtain ⟨action, hp, hc⟩ := hcomplete
  have hlt : (passes env k (start a task context)).state.iterations
      < (passes env k (start a task context)).config.maxIterations := by
    rw [q1, q2, hs, hcfg]; omega
  have hp2 : env.getNextAction ((passes env k (start a task context)).state.iterations + 1)
      = .ok action := by
    rw [q1, hs]; simpa using hp
  have hit := iteration_plannerComplete env _ action hp2 hc
  have hfuel : a.config.maxIterations = k + ((a.config.maxIterations - k - 1) + 1) := by omega
  obtain ⟨l1, l2⟩ := hloop ((a.config.maxIterations - k - 1) + 1)
  rw [runLoop_plannerComplete env _ _ hlt (by rw [hit]), hit, ← hfuel] at l1 l2
  simp only at l1 l2
  have hret := run_returned_success env a task context summary (by rw [l2]; simp) hsum
  obtain ⟨-, p2, p3, -, -, -⟩ := run_parts env a task context
  rw [hret, p2, p3, l1, l2]
  simp only [beginPass_iterations, beginPass_results]
  refine ⟨trivial, trivial, ?_, ?_, ?_, ?_⟩
  · rw [a3, hres]; simp [a1]
  · intro r hr
    rw [a3, hres] at hr
    exact a2 r (by simpa using hr)
  · rw [q1, hs]; omega
  · show (beginPass (passes env k (start a task context))).ghost.plannerCalls = _
    rw [beginPass_plannerCalls, q3, hg]; omega

/-- The spec's scenario for C3 in the code: one invocation of
`processPayment`, then `complete`. -/
theorem run_completes_after_invocations_witness :
    (run paymentEnv (new ⟨none, none⟩) "process pending payments" []).returned.success = true ∧
    (run paymentEnv (new ⟨none, none⟩) "process pending payments" []).returned.results.length
      = 1 ∧
    (run paymentEnv (new ⟨none, none⟩) "process pending payments" []).returned.iterations
      = 1 + 1 := by
  have h := run_completes_after_invocations paymentEnv (new ⟨none, none⟩)
    "process pending payments" [] 1 "Payments processed" (by decide)
    (fun i h1 h2 => by
      have hi : i = 1 := by omega
      subst hi
      exact ⟨_, rfl, by decide, fun b _ => ⟨_, rfl, rfl⟩, rfl⟩)
    ⟨completeAction, rfl, rfl⟩ rfl
  exact ⟨h.2.1, h.2.2.1, h.2.2.2.2.1⟩

/-- C3 (as stated) fails: in the spec's scenario (one successful invocation
of `processPayment`, then `complete`, limit 10) the run ends successfully with
one result having `success: true`, but the iteration count returned is 2, not 1. -/
theorem run_payment_scenario_counts_two :
    (run paymentEnv (new ⟨none, none⟩) "process pending payments" []).returned.success = true ∧
    (run paymentEnv (new ⟨none, none⟩) "process pending payments" []).returned.results
      = [⟨true, none, none, some "payment"⟩] ∧
    (run paymentEnv (new ⟨none, none⟩) "process pending payments" []).returned.iterations = 2 ∧
    (run paymentEnv (new ⟨none, none⟩) "process pending payments" []).returned.iterations ≠ 1 := by
  refine ⟨by decide, by decide, by decide, by decide⟩

/-- A loop left by early satisfaction made at least one pass, and the last
completion check made answered true. -/
theorem runLoop_satisfied_check (env : Env) (fuel : Nat) :
    ∀ a : Agent, (runLoop env fuel a).ending = .satisfied →
      a.state.iterations + 1 ≤ (runLoop env fuel a).agent.state.iterations ∧
      (runLoop env fuel a).agent.ghost.completionChecks.getLast? = some true := by
  induction fuel with
  | zero =>
    intro a h
    unfold runLoop at h
    split at h <;> simp at h
  | succ n ih =>
    intro a h
    obtain ⟨f1, -, -, -⟩ := iteration_frame env a
    by_cases hlt : a.state.iterations < a.config.maxIterations
    · cases hc : (iteration env a).control with
      | next =>
        rw [runLoop_next env n a hlt hc] at h ⊢
        obtain ⟨i1, i2⟩ := ih (iteration env a).agent h
        exact ⟨by simp only; omega, i2⟩
      | plannerComplete =>
        rw [runLoop_plannerComplete env n a hlt hc] at h
        simp at h
      | satisfied =>
        rw [runLoop_satisfied env n a hlt hc]
        exact ⟨by simp only; omega, iteration_satisfied env a hc⟩
      | threw m =>
        rw [runLoop_threw env n a m hlt hc] at h
        simp at h
    · rw [runLoop_exhausted env _ a hlt] at h
      simp at h

/-- C4 (amended). Whenever `run` ends because `isTaskComplete` answered true
after an invocation, the iteration count it returns is at least one and at
most `maxIterations` (it equals `maxIterations` when the check answers true in
the last pass the limit allows), and the last completion check made answered
true. -/
theorem run_satisfied_within_max (env : Env) (a : Agent) (task : String) (context : JObject)
    (h : (run env a task context).ending = .satisfied) :
    1 ≤ (run env a task context).returned.iterations ∧
    (run env a task context).returned.iterations ≤ a.config.maxIterations ∧
    (run env a task context).agent.ghost.completionChecks.getLast? = some true := by
  obtain ⟨-, p2, p3, p4, -, -⟩ := run_parts env a task context
  rw [p3] at h
  obtain ⟨s1, s2⟩ := runLoop_satisfied_check env _ _ h
  obtain ⟨-, l2, -⟩ := runLoop_bound env a.config.maxIterations
    (start a task context) (Nat.zero_le _)
  rw [p4, p2]
  exact ⟨by omega, l2, s2⟩

/-- Early satisfaction in the only pass a limit of one allows. -/
theorem run_satisfied_within_max_witness :
    (run satisfiedEnv (new ⟨none, some 1⟩) "task" []).ending = .satisfied ∧
    (run satisfiedEnv (new ⟨none, some 1⟩) "task" []).returned.iterations ≤ 1 :=
  ⟨by decide,
   (run_satisfied_within_max satisfiedEnv (new ⟨none, some 1⟩) "task" [] (by decide)).2.1⟩

/-- C4 (as stated) fails: with `maxIterations = 1` the completion check
answers true after the first invocation, the run ends by early satisfaction,
and the iteration count returned is 1, which is not below the limit. -/
theorem run_satisfied_at_limit :
    (new ⟨none, some 1⟩).config.maxIterations = 1 ∧
    (run satisfiedEnv (new ⟨none, some 1⟩) "task" []).ending = .satisfied ∧
    (run satisfiedEnv (new ⟨none, some 1⟩) "task" []).agent.ghost.completionChecks = [true] ∧
    (run satisfiedEnv (new ⟨none, some 1⟩) "task" []).returned.iterations = 1 ∧
    ¬ (run satisfiedEnv (new ⟨none, some 1⟩) "task" []).returned.iterations
        < (new ⟨none, some 1⟩).config.maxIterations := by
  refine ⟨by decide, by decide, by decide, by decide, by decide⟩

/-- An action naming a tool the registry lookup does not find makes
`executeAction` throw, before anything is called. -/
theorem executeAction_undefined (env : Env) (a : Agent) (action : Action)
    (hc : action.type ≠ some "complete") (hl : lookupTool action.tool = .undefined) :
    executeAction env a action = (a, .threw ("Tool not found: " ++ toolKey action.tool)) := by
  simp [executeAction, hc, hl]

/-- After `k` passes that go all the way round, a pass that throws without
recording anything ends the run: the `catch` block returns the failure with
the count of that pass and the results recorded before it. -/
theorem run_pass_threw (env : Env) (a : Agent) (task : String) (context : JObject)
    (k : Nat) (m : String)
    (hk : k < a.config.maxIterations)
    (hbefore : ∀ i, 1 ≤ i → i ≤ k → Proceeds env (fun _ => True) i)
    (hpass : (iteration env (passes env k (start a task context))).control = .threw m)
    (hkeep : (iteration env (passes env k (start a task context))).agent.state.results
      = (passes env k (start a task context)).state.results) :
    (run env a task context).ending = .threw m ∧
    (run env a task context).returned =
      ⟨false, some m, task, k + 1, (passes env k (start a task context)).state.results, none⟩ ∧
    (run env a task context).returned.results.length = k ∧
    (run env a task context).agent.ghost.plannerCalls = a.ghost.plannerCalls + (k + 1) := by
  have hs : (start a task context).state.iterations = 0 := rfl
  have hcfg : (start a task context).config = a.config := rfl
  have hres : (start a task context).state.results = [] := rfl
  have hg : (start a task context).ghost = a.ghost := rfl
  obtain ⟨⟨added, a1, -, a3⟩, hloop⟩ := runLoop_proceeds env (fun _ => True)
    k (start a task context) (by rw [hs, hcfg]; omega)
    (fun i h1 h2 => hbefore i (by omega) (by rw [hs] at h2; omega))
  obtain ⟨q1, q2, q3⟩ := passes_frame env k (start a task context)
  obtain ⟨f1, -, f3, -⟩ := iteration_frame env (passes env k (start a task context))
  have hlt : (passes env k (start a task context)).state.iterations
      < (passes env k (start a task context)).config.maxIterations := by
    rw [q1, q2, hs, hcfg]; omega
  have hfuel : a.config.maxIterations = k + ((a.config.maxIterations - k - 1) + 1) := by omega
  obtain ⟨l1, l2⟩ := hloop ((a.config.maxIterations - k - 1) + 1)
  rw [runLoop_threw env _ _ m hlt hpass, ← hfuel] at l1 l2
  simp only at l1 l2
  have hret := run_returned_threw env a task context m l2
  obtain ⟨-, p2, p3, -, -, -⟩ := run_parts env a task context
  rw [hret, p2, p3, l1, l2, hkeep, f1, q1, hs]
  refine ⟨rfl, by simp, ?_, ?_⟩
  · simp only
    rw [a3, hres]; simp [a1]
  · show (iteration env (passes env k (start a task context))).agent.ghost.plannerCalls = _
    rw [f3, q3, hg]; omega

/-- C5 (amended). When the planner proposes a tool that the registry lookup
does not find (after `k` passes that went all the way round, `k` below the
limit), `executeAction` throws `Tool not found: <name>`, nothing is recorded
for that pass, and the run ends at once: `run` returns `success: false` with
that message, the iteration count including the failed pass, and the results
recorded before it; no further pass is made. -/
theorem run_unknown_tool_ends_run (env : Env) (a : Agent) (task : String)
    (context : JObject) (k : Nat) (action : Action)
    (hk : k < a.config.maxIterations)
    (hbefore : ∀ i, 1 ≤ i → i ≤ k → Proceeds env (fun _ => True) i)
    (hp : env.getNextAction (k + 1) = .ok action)
    (hc : action.type ≠ some "complete")
    (hunknown : lookupTool action.tool = .undefined) :
    (run env a task context).ending = .threw ("Tool not found: " ++ toolKey action.tool) ∧
    (run env a task context).returned =
      ⟨false, some ("Tool not found: " ++ toolKey action.tool), task, k + 1,
       (passes env k (start a task context)).state.results, none⟩ ∧
    (run env a task context).returned.results.length = k ∧
    (run env a task context).agent.ghost.plannerCalls = a.ghost.plannerCalls + (k + 1) := by
  obtain ⟨q1, -, -⟩ := passes_frame env k (start a task context)
  have hs : (start a task context).state.iterations = 0 := rfl
  have hp2 : env.getNextAction ((passes env k (start a task context)).state.iterations + 1)
      = .ok action := by
    rw [q1, hs]; simpa using hp
  have hx := executeAction_undefined env (beginPass (passes env k (start a task context)))
    action hc hunknown
  have hit := iteration_executeThrew env _ action _ hp2 hc (by rw [hx])
  rw [hx] at hit
  exact run_pass_threw env a task context k _ hk hbefore (by rw [hit]) (by rw [hit]; rfl)

/-- The spec's scenario for C5 in the code: the first proposal is `send_email`. -/
theorem run_unknown_tool_ends_run_witness :
    (run (proposingEnv "send_email") (new ⟨none, none⟩) "task" []).returned =
      ⟨false, some ("Tool not found: " ++ "send_email"), "task", 0 + 1, [], none⟩ :=
  (run_unknown_tool_ends_run (proposingEnv "send_email") (new ⟨none, none⟩) "task" [] 0
    (toolCall "send_email" []) (by decide) (fun i h1 h2 => by omega) rfl (by decide)
    (by decide)).2.1

/-- C5 (as stated) fails: with the default limit of 10, a first proposal of
`send_email` (or of a name that is neither a key nor a `name` of any tool)
ends the run after one pass with `success: false`; no failed step is recorded
and no second pass is made. -/
theorem run_unknown_tool_is_fatal :
    lookupTool (some "send_email") = .undefined ∧
    (run (proposingEnv "send_email") (new ⟨none, none⟩) "task" []).returned =
      ⟨false, some "Tool not found: send_email", "task", 1, [], none⟩ ∧
    (run (proposingEnv "send_email") (new ⟨none, none⟩) "task" []).agent.ghost.plannerCalls
      = 1 ∧
    lookupTool (some "archive_catalog") = .undefined ∧
    (run (proposingEnv "archive_catalog") (new ⟨none, none⟩) "task" []).returned =
      ⟨false, some "Tool not found: archive_catalog", "task", 1, [], none⟩ ∧
    (run (proposingEnv "archive_catalog") (new ⟨none, none⟩) "task" []).agent.ghost.plannerCalls
      = 1 := by
  refine ⟨by decide, by decide, by decide, by decide, by decide, by decide⟩

/-- C6 (amended). A failure of a single planner call (after `k` passes that
went all the way round, `k` below the limit) ends the run at once: nothing is
recorded for that pass, no further planner call is made, and `run` returns
`success: false` with the error's message, the iteration count including the
failed pass, and the results recorded before it. There is no count of
consecutive failures. -/
theorem run_planner_failure_ends_run (env : Env) (a : Agent) (task : String)
    (context : JObject) (k : Nat) (m : String)
    (hk : k < a.config.maxIterations)
    (hbefore : ∀ i, 1 ≤ i → i ≤ k → Proceeds env (fun _ => True) i)
    (hp : env.getNextAction (k + 1) = .threw m) :
    (run env a task context).ending = .threw m ∧
    (run env a task context).returned =
      ⟨false, some m, task, k + 1, (passes env k (start a task context)).state.results,
       none⟩ ∧
    (run env a task context).returned.results.length = k ∧
    (run env a task context).agent.ghost.plannerCalls = a.ghost.plannerCalls + (k + 1) := by
  obtain ⟨q1, -, -⟩ := passes_frame env k (start a task context)
  have hs : (start a task context).state.iterations = 0 := rfl
  have hp2 : env.getNextAction ((passes env k (start a task context)).state.iterations + 1)
      = .threw m := by
    rw [q1, hs]; simpa using hp
  have hit := iteration_plannerThrew env _ m hp2
  exact run_pass_threw env a task context k m hk hbefore (by rw [hit]) (by rw [hit]; rfl)

/-- A first planner call that fails, on a new agent with the default limit. -/
theorem run_planner_failure_ends_run_witness :
    (run flakyEnv (new ⟨none, none⟩) "task" []).returned =
      ⟨false, some "Service unavailable", "task", 0 + 1, [], none⟩ :=
  (run_planner_failure_ends_run flakyEnv (new ⟨none, none⟩) "task" [] 0
    "Service unavailable" (by decide) (fun i h1 h2 => by omega) rfl).2.1

/-- C6 (as stated) fails: with the default limit of 10, one failed planner
call (the next would have succeeded) ends the run: `success: false` after a
single planner call, with no step recorded. -/
theorem run_single_planner_failure_is_fatal :
    flakyEnv.getNextAction 1 = .threw "Service unavailable" ∧
    flakyEnv.getNextAction 2 = .ok (toolCall "sendEmail" []) ∧
    (run flakyEnv (new ⟨none, none⟩) "task" []).returned =
      ⟨false, some "Service unavailable", "task", 1, [], none⟩ ∧
    (run flakyEnv (new ⟨none, none⟩) "task" []).agent.ghost.plannerCalls = 1 := by
  refine ⟨by decide, by decide, by decide, by decide⟩

/-- What `executeAction` does with an action naming an own key of the
registry: it calls the tool once with the parameters as given, and turns a
thrown error into a failed result. -/
theorem executeAction_own (env : Env) (a : Agent) (action : Action) (key : String)
    (tool : Tool) (hc : action.type ≠ some "complete")
    (hl : lookupTool action.tool = .own key tool) :
    (executeAction env a action).1 =
      { a with ghost.executeCalls := a.ghost.executeCalls ++ [(key, action.parameters)] } ∧
    (executeAction env a action).2 =
      match env.execute key action.parameters a.state.iterations with
      | .ok result => .ok result
      | .threw message => .ok ⟨false, some message, none, none⟩ := by
  cases hx : env.execute key action.parameters a.state.iterations <;>
    simp [executeAction, hc, hl, hx]

/-- C7. For every registered tool and every parameter object, if the tool's
implementation throws an error with message `m` in some pass, then
`executeAction` does not throw but returns `{success: false, error: m}`; the
pass of `run` appends that result, makes the completion check, and ends as
the check decides: an error of the pass can only come from the check, and
when the check answers false the loop goes on from the agent holding the
recorded failure. -/
theorem failing_tool_is_recorded (env : Env) (b : Agent) (action : Action) (key : String)
    (tool : Tool) (m : String)
    (hp : env.getNextAction (b.state.iterations + 1) = .ok action)
    (hc : action.type ≠ some "complete")
    (hl : lookupTool action.tool = .own key tool)
    (hthrow : env.execute key action.parameters (b.state.iterations + 1) = .threw m) :
    (∀ a : Agent, a.state.iterations = b.state.iterations + 1 →
      (executeAction env a action).2 = .ok ⟨false, some m, none, none⟩) ∧
    (iteration env b).agent.state.results = b.state.results ++ [⟨false, some m, none, none⟩] ∧
    (∀ e, (iteration env b).control = .threw e →
      env.isTaskComplete (b.state.iterations + 1) = .threw e) ∧
    (env.isTaskComplete (b.state.iterations + 1) = .ok true →
      (iteration env b).control = .satisfied) ∧
    (env.isTaskComplete (b.state.iterations + 1) = .ok false →
      (iteration env b).control = .next ∧
      ∀ fuel, b.state.iterations < b.config.maxIterations →
        (runLoop env (fuel + 1) b).agent = (runLoop env fuel (iteration env b).agent).agent ∧
        (runLoop env (fuel + 1) b).ending
          = (runLoop env fuel (iteration env b).agent).ending) := by
  have hex : ∀ a : Agent, a.state.iterations = b.state.iterations + 1 →
      (executeAction env a action).2 = .ok ⟨false, some m, none, none⟩ := by
    intro a ha
    rw [(executeAction_own env a action key tool hc hl).2, ha, hthrow]
  have he := hex (beginPass b) rfl
  have e1 := (executeAction_state env (beginPass b) action).1
  refine ⟨hex, ?_, ?_, ?_, ?_⟩
  · cases hj : env.isTaskComplete (b.state.iterations + 1) with
    | threw e =>
      simp [iteration_checkThrew env b action _ e hp hc he hj, updateMemory, pushResult, e1]
    | ok answer =>
      simp [iteration_checked env b action _ answer hp hc he hj, updateMemory, pushResult,
        noteCheck, e1]
  · intro e hctl
    cases hj : env.isTaskComplete (b.state.iterations + 1) with
    | threw e2 =>
      rw [iteration_checkThrew env b action _ e2 hp hc he hj] at hctl
      simp only [Control.threw.injEq] at hctl
      rw [hctl]
    | ok answer =>
      rw [iteration_checked env b action _ answer hp hc he hj] at hctl
      cases answer <;> simp at hctl
  · intro hj
    rw [iteration_checked env b action _ true hp hc he hj]
    simp
  · intro hj
    have hctl : (iteration env b).control = .next := by
      rw [iteration_checked env b action _ false hp hc he hj]
      simp
    refine ⟨hctl, fun fuel hlt => ?_⟩
    rw [runLoop_next env fuel b hlt hctl]
    exact ⟨rfl, rfl⟩

/-- A tool that throws in the first pass of a run with limit 3. -/
theorem failing_tool_is_recorded_witness :
    (iteration failingEnv (start (new ⟨none, some 3⟩) "task" [])).agent.state.results
      = [] ++ [⟨false, some "Payment validation failed", none, none⟩] ∧
    (run failingEnv (new ⟨none, some 3⟩) "task" []).returned.success = true ∧
    (run failingEnv (new ⟨none, some 3⟩) "task" []).returned.iterations = 3 :=
  ⟨(failing_tool_is_recorded failingEnv (start (new ⟨none, some 3⟩) "task" [])
      (toolCall "processPayment" []) "processPayment"
      ((initializeTools.lookup "processPayment").getD ⟨"", "", ⟨"", [], []⟩, ""⟩)
      "Payment validation failed" rfl (by decide) (by decide) rfl).2.1,
   by decide, by decide⟩

/-- C8 (amended). `executeAction` does not check the parameters against the
tool's schema: for every registered tool and every parameter object that lacks
a field listed in the tool's `required`, the tool's `execute` function is
called once with that object, and `executeAction` gives back what the
implementation gives (its result, or `{success: false, error}` with the
message of the error it throws). -/
theorem executeAction_calls_without_validation (env : Env) (a : Agent) (action : Action)
    (key : String) (tool : Tool) (field : String)
    (hc : action.type ≠ some "complete")
    (hl : lookupTool action.tool = .own key tool)
    (_hreq : field ∈ tool.parameters.required)
    (_hmiss : missingField action.parameters field = true) :
    (executeAction env a action).1.ghost.executeCalls
      = a.ghost.executeCalls ++ [(key, action.parameters)] ∧
    (executeAction env a action).2 =
      match env.execute key action.parameters a.state.iterations with
      | .ok result => .ok result
      | .threw message => .ok ⟨false, some message, none, none⟩ := by
  obtain ⟨h1, h2⟩ := executeAction_own env a action key tool hc hl
  rw [h1, h2]
  exact ⟨rfl, rfl⟩

/-- The tool `sendEmail` called with an empty parameter object. -/
theorem executeAction_calls_without_validation_witness :
    (executeAction (emailEnv (.ok "Done")) (new ⟨none, none⟩)
        (toolCall "sendEmail" [])).1.ghost.executeCalls
      = (new ⟨none, none⟩).ghost.executeCalls ++ [("sendEmail", some [])] :=
  (executeAction_calls_without_validation (emailEnv (.ok "Done")) (new ⟨none, none⟩)
    (toolCall "sendEmail" []) "sendEmail"
    ((initializeTools.lookup "sendEmail").getD ⟨"", "", ⟨"", [], []⟩, ""⟩) "to"
    (by decide) (by decide) (by decide) (by decide)).1

/-- C8 (as stated) fails: `sendEmail` requires `to`, `subject` and `body`;
invoked with an empty parameter object, its implementation is called and
`executeAction` returns its `{success: true, message: 'Email sent'}`. -/
theorem executeAction_runs_tool_on_missing_fields :
    (∃ tool, lookupTool (some "sendEmail") = .own "sendEmail" tool ∧
      tool.parameters.required = ["to", "subject", "body"]) ∧
    missingField (toolCall "sendEmail" []).parameters "to" = true ∧
    executeAction (emailEnv (.ok "Done")) (new ⟨none, none⟩) (toolCall "sendEmail" []) =
      ({ new ⟨none, none⟩ with ghost.executeCalls := [("sendEmail", some [])] },
       .ok ⟨true, none, some "Email sent", none⟩) := by
  refine ⟨⟨_, rfl, rfl⟩, by decide, by decide⟩

/-- Every entry of the registry is found under its own key. -/
theorem lookup_of_mem :
    ∀ kt ∈ initializeTools, initializeTools.lookup kt.1 = some kt.2 := by
  decide

/-- The registry lookup gives `undefined` exactly for a key that is neither
an own key of the registry nor a property inherited from `Object.prototype`. -/
theorem lookupTool_undefined_iff (tool : Option String) :
    lookupTool tool = .undefined ↔
      toolKey tool ∉ availableTools ∧ toolKey tool ∉ objectPrototypeKeys := by
  unfold lookupTool
  cases h : initializeTools.lookup (toolKey tool) with
  | some t =>
    have hmem : toolKey tool ∈ availableTools := by
      have h2 : (initializeTools.lookup (toolKey tool)).isSome = true := by rw [h]; rfl
      rw [List.lookup_isSome_iff] at h2
      obtain ⟨p, hp, hk⟩ := h2
      have hk2 : toolKey tool = p.1 := by simpa using hk
      rw [hk2]
      exact List.mem_map.2 ⟨p, hp, rfl⟩
    simp [hmem]
  | none =>
    have hnot : toolKey tool ∉ availableTools := by
      intro hmem
      obtain ⟨p, hp, hk⟩ := List.mem_map.1 hmem
      rw [List.lookup_eq_none_iff] at h
      have := h p hp
      simp [hk] at this
    by_cases hproto : objectPrototypeKeys.contains (toolKey tool) = true
    · have : toolKey tool ∈ objectPrototypeKeys := by simpa using hproto
      simp [hproto, this]
    · have : toolKey tool ∉ objectPrototypeKeys := by simpa using hproto
      simp [hproto, this, hnot]

/-- C9 (amended). An action that names a capability by its registry key (the
identifier the planner is told in `getNextAction`, for example
`processPayment`) is resolved by `executeAction` to that capability, whose
`execute` is called and whose outcome is returned. The `name` field listed by
`GET /capabilities` (for example `process_payment`) is not a key: for every
listed name the lookup gives `undefined`. `executeAction` throws, with
`Tool not found: <key>`, exactly for an action other than `complete` whose key
is neither a registry key nor a property inherited from `Object.prototype`. -/
theorem executeAction_resolves_registry_keys (env : Env) (a : Agent) (action : Action)
    (key : String) (tool : Tool)
    (hmem : (key, tool) ∈ initializeTools)
    (ht : action.tool = some key)
    (hc : action.type ≠ some "complete") :
    key ∈ availableTools ∧
    lookupTool action.tool = .own key tool ∧
    (executeAction env a action).1.ghost.executeCalls
      = a.ghost.executeCalls ++ [(key, action.parameters)] ∧
    (∃ r, (executeAction env a action).2 = .ok r) ∧
    (∀ c ∈ capabilities, lookupTool (some c.name) = .undefined) ∧
    (∀ other : Action, ∀ m, (executeAction env a other).2 = .threw m ↔
      (other.type ≠ some "complete" ∧ toolKey other.tool ∉ availableTools ∧
        toolKey other.tool ∉ objectPrototypeKeys ∧
        m = "Tool not found: " ++ toolKey other.tool)) := by
  have hl : lookupTool action.tool = .own key tool := by
    have h := lookup_of_mem (key, tool) hmem
    simp only at h
    simp [lookupTool, ht, toolKey, h]
  obtain ⟨h1, h2⟩ := executeAction_own env a action key tool hc hl
  refine ⟨List.mem_map.2 ⟨(key, tool), hmem, rfl⟩, hl, by rw [h1], ?_, by decide, ?_⟩
  · rw [h2]
    cases env.execute key action.parameters a.state.iterations <;> simp
  · intro other m
    by_cases hco : other.type = some "complete"
    · simp [executeAction, hco]
    · cases hlo : lookupTool other.tool with
      | undefined =>
        have hu := (lookupTool_undefined_iff other.tool).1 hlo
        rw [executeAction_undefined env a other hco hlo]
        simp only [Outcome.threw.injEq]
        constructor
        · intro hm
          exact ⟨hco, hu.1, hu.2, hm.symm⟩
        · intro hm
          exact hm.2.2.2.symm
      | inherited k =>
        have hu : ¬ (toolKey other.tool ∉ availableTools ∧
            toolKey other.tool ∉ objectPrototypeKeys) := by
          rw [← lookupTool_undefined_iff, hlo]
          simp
        simp only [executeAction, hco, hlo, if_false]
        constructor
        · intro hm
          cases hm
        · intro hm
          exact absurd ⟨hm.2.1, hm.2.2.1⟩ hu
      | own k t =>
        have hu : ¬ (toolKey other.tool ∉ availableTools ∧
            toolKey other.tool ∉ objectPrototypeKeys) := by
          rw [← lookupTool_undefined_iff, hlo]
          simp
        rw [(executeAction_own env a other k t hco hlo).2]
        constructor
        · intro hm
          cases hx : env.execute k other.parameters a.state.iterations <;>
            rw [hx] at hm <;> cases hm
        · intro hm
          exact absurd ⟨hm.2.1, hm.2.2.1⟩ hu

/-- The key `processPayment` resolves to the tool named `process_payment`. -/
theorem executeAction_resolves_registry_keys_witness :
    lookupTool (toolCall "processPayment" []).tool =
      .own "processPayment"
        ((initializeTools.lookup "processPayment").getD ⟨"", "", ⟨"", [], []⟩, ""⟩) :=
  (executeAction_resolves_registry_keys paymentEnv (new ⟨none, none⟩)
    (toolCall "processPayment" []) "processPayment"
    ((initializeTools.lookup "processPayment").getD ⟨"", "", ⟨"", [], []⟩, ""⟩)
    (by decide) rfl (by decide)).2.1

/-- C9 (as stated) fails: `process_payment` is the name `GET /capabilities`
lists for a registered capability, yet an action naming it is not resolved:
`executeAction` throws `Tool not found: process_payment` and calls nothing. -/
theorem executeAction_rejects_advertised_name :
    "process_payment" ∈ capabilities.map (fun c => c.name) ∧
    executeAction paymentEnv (new ⟨none, none⟩)
        (toolCall "process_payment"
          [("artistId", .str "artist-1"), ("amount", .num 100), ("method", .str "paypal")]) =
      (new ⟨none, none⟩, .threw "Tool not found: process_payment") := by
  refine ⟨by decide, by decide⟩

/-- Clearing `isRunning` changes nothing in what `executeAction` does. -/
theorem executeAction_stopAgent (env : Env) (a : Agent) (action : Action) :
    executeAction env (stopAgent a) action =
      (stopAgent (executeAction env a action).1, (executeAction env a action).2) := by
  unfold executeAction
  split
  · rfl
  · split
    · rfl
    · rfl
    · show (match env.execute _ action.parameters a.state.iterations with
        | .ok result => _
        | .threw message => _) = _
      split <;> rfl

/-- The loop body never reads `isRunning`: a pass started with the flag
cleared does what it does with the flag set. -/
theorem iteration_stopAgent (env : Env) (a : Agent) :
    (iteration env (stopAgent a)).agent = stopAgent (iteration env a).agent ∧
    (iteration env (stopAgent a)).control = (iteration env a).control := by
  cases hp : env.getNextAction (a.state.iterations + 1) with
  | threw m =>
    rw [iteration_plannerThrew env a m hp, iteration_plannerThrew env (stopAgent a) m hp]
    exact ⟨rfl, rfl⟩
  | ok action =>
    by_cases hc : action.type = some "complete"
    · rw [iteration_plannerComplete env a action hp hc,
        iteration_plannerComplete env (stopAgent a) action hp hc]
      exact ⟨rfl, rfl⟩
    · have hx : executeAction env (beginPass (stopAgent a)) action =
          (stopAgent (executeAction env (beginPass a) action).1,
           (executeAction env (beginPass a) action).2) :=
        executeAction_stopAgent env (beginPass a) action
      cases he : (executeAction env (beginPass a) action).2 with
      | threw m =>
        have he2 : (executeAction env (beginPass (stopAgent a)) action).2 = .threw m := by
          rw [hx]; exact he
        rw [iteration_executeThrew env a action m hp hc he,
          iteration_executeThrew env (stopAgent a) action m hp hc he2, hx]
        exact ⟨rfl, rfl⟩
      | ok result =>
        have he2 : (executeAction env (beginPass (stopAgent a)) action).2 = .ok result := by
          rw [hx]; exact he
        cases hj : env.isTaskComplete (a.state.iterations + 1) with
        | threw m =>
          rw [iteration_checkThrew env a action result m hp hc he hj,
            iteration_checkThrew env (stopAgent a) action result m hp hc he2 hj, hx]
          exact ⟨rfl, rfl⟩
        | ok answer =>
          rw [iteration_checked env a action result answer hp hc he hj,
            iteration_checked env (stopAgent a) action result answer hp hc he2 hj, hx]
          exact ⟨rfl, rfl⟩

/-- The loop never reads `isRunning`: continued after the flag was cleared,
it makes the passes, records the results and ends the way it would have
without the stop request. -/
theorem runLoop_stopAgent (env : Env) (fuel : Nat) :
    ∀ a : Agent,
      (runLoop env fuel (stopAgent a)).agent = stopAgent (runLoop env fuel a).agent ∧
      (runLoop env fuel (stopAgent a)).ending = (runLoop env fuel a).ending := by
  induction fuel with
  | zero =>
    intro a
    by_cases hlt : a.state.iterations < a.config.maxIterations
    · have hlt2 : (stopAgent a).state.iterations < (stopAgent a).config.maxIterations := hlt
      simp [runLoop, hlt, hlt2]
    · rw [runLoop_exhausted env 0 a hlt, runLoop_exhausted env 0 (stopAgent a) hlt]
      exact ⟨rfl, rfl⟩
  | succ n ih =>
    intro a
    obtain ⟨s1, s2⟩ := iteration_stopAgent env a
    by_cases hlt : a.state.iterations < a.config.maxIterations
    · have hlt2 : (stopAgent a).state.iterations < (stopAgent a).config.maxIterations := hlt
      cases hc : (iteration env a).control with
      | next =>
        rw [runLoop_next env n a hlt hc, runLoop_next env n (stopAgent a) hlt2 (by rw [s2, hc]),
          s1]
        exact ih (iteration env a).agent
      | plannerComplete =>
        rw [runLoop_plannerComplete env n a hlt hc,
          runLoop_plannerComplete env n (stopAgent a) hlt2 (by rw [s2, hc]), s1]
        exact ⟨rfl, rfl⟩
      | satisfied =>
        rw [runLoop_satisfied env n a hlt hc,
          runLoop_satisfied env n (stopAgent a) hlt2 (by rw [s2, hc]), s1]
        exact ⟨rfl, rfl⟩
      | threw m =>
        rw [runLoop_threw env n a m hlt hc,
          runLoop_threw env n (stopAgent a) m hlt2 (by rw [s2, hc]), s1]
        exact ⟨rfl, rfl⟩
    · rw [runLoop_exhausted env _ a hlt, runLoop_exhausted env _ (stopAgent a) hlt]
      exact ⟨rfl, rfl⟩

/-- C10, the code at the failing input: limit 3, a planner that always asks
for `sendEmail`, and a stop request after the first pass. The flag is cleared
with one result recorded, yet the loop makes the two remaining passes and
appends two more results. -/
theorem stop_is_not_observed :
    (iteration (emailEnv (.ok "Done")) (start (new ⟨none, some 3⟩) "task" [])).control
      = .next ∧
    (stopAgent (iteration (emailEnv (.ok "Done"))
      (start (new ⟨none, some 3⟩) "task" [])).agent).state.isRunning = false ∧
    (stopAgent (iteration (emailEnv (.ok "Done"))
      (start (new ⟨none, some 3⟩) "task" [])).agent).state.results.length = 1 ∧
    (runLoop (emailEnv (.ok "Done")) 2 (stopAgent (iteration (emailEnv (.ok "Done"))
      (start (new ⟨none, some 3⟩) "task" [])).agent)).ending = .exhausted ∧
    (runLoop (emailEnv (.ok "Done")) 2 (stopAgent (iteration (emailEnv (.ok "Done"))
      (start (new ⟨none, some 3⟩) "task" [])).agent)).agent.state.iterations = 3 ∧
    (runLoop (emailEnv (.ok "Done")) 2 (stopAgent (iteration (emailEnv (.ok "Done"))
      (start (new ⟨none, some 3⟩) "task" [])).agent)).agent.ghost.plannerCalls = 3 ∧
    (runLoop (emailEnv (.ok "Done")) 2 (stopAgent (iteration (emailEnv (.ok "Done"))
      (start (new ⟨none, some 3⟩) "task" [])).agent)).agent.state.results.length = 3 := by
  refine ⟨by decide, by decide, by decide, by decide, by decide, by decide, by decide⟩

/-! ## Short-term memory and the step history -/

/-- What one `updateMemory` call leaves in `memory.shortTerm`. -/
theorem updateMemory_shortTerm (a : Agent) (action : Action) (result : Result) (t : Nat) :
    (updateMemory a action result t).memory.shortTerm =
      if (a.memory.shortTerm ++ [MemoryEntry.mk action result t]).length > 10
      then (a.memory.shortTerm ++ [MemoryEntry.mk action result t]).tail
      else a.memory.shortTerm ++ [MemoryEntry.mk action result t] := by
  simp [updateMemory]

/-- Started with at most 10 entries, `memory.shortTerm` holds the last 10 (or
all, when fewer) of the entries it had followed by those pushed since. -/
theorem remember_shortTerm (steps : List MemoryEntry) :
    ∀ a : Agent, a.memory.shortTerm.length ≤ 10 →
      (remember a steps).memory.shortTerm =
        (a.memory.shortTerm ++ steps).drop ((a.memory.shortTerm ++ steps).length - 10) := by
  induction steps with
  | nil =>
    intro a h
    have h0 : a.memory.shortTerm.length - 10 = 0 := by omega
    simp [remember, h0]
  | cons e rest ih =>
    intro a h
    have hstep : remember a (e :: rest)
        = remember (updateMemory a e.action e.result e.timestamp) rest := rfl
    have hs := updateMemory_shortTerm a e.action e.result e.timestamp
    have heta : MemoryEntry.mk e.action e.result e.timestamp = e := rfl
    rw [heta] at hs
    rw [hstep]
    by_cases hfull : a.memory.shortTerm.length = 10
    · have hgt : (a.memory.shortTerm ++ [e]).length > 10 := by simp [hfull]
      rw [if_pos hgt] at hs
      have hlen : (updateMemory a e.action e.result e.timestamp).memory.shortTerm.length
          ≤ 10 := by
        rw [hs]; simp [hfull]
      rw [ih _ hlen, hs, ← List.drop_one, ← List.drop_append_of_le_length (by simp),
        List.drop_drop]
      have hassoc : a.memory.shortTerm ++ [e] ++ rest = a.memory.shortTerm ++ e :: rest := by
        simp
      rw [hassoc]
      congr 1
      simp only [List.length_drop, List.length_append, List.length_cons, hfull]
      omega
    · have hle : ¬ (a.memory.shortTerm ++ [e]).length > 10 := by
        simp only [List.length_append, List.length_singleton]; omega
      rw [if_neg hle] at hs
      have hlen : (updateMemory a e.action e.result e.timestamp).memory.shortTerm.length
          ≤ 10 := by
        rw [hs]; simp only [List.length_append, List.length_singleton]; omega
      rw [ih _ hlen, hs]
      simp

/-- C11. After any sequence of `n` `updateMemory` calls on a newly
constructed agent, `memory.shortTerm` is exactly the last `min n 10` entries
pushed, in the order they were pushed: its length is `min n 10`, never more
than 10, and every entry dropped is older than every entry kept. -/
theorem shortTerm_keeps_last_ten (config : ConfigInput) (steps : List MemoryEntry) :
    (remember (new config) steps).memory.shortTerm = steps.drop (steps.length - 10) ∧
    (remember (new config) steps).memory.shortTerm.length = min steps.length 10 ∧
    (remember (new config) steps).memory.shortTerm.length ≤ 10 ∧
    steps = steps.take (steps.length - 10) ++ (remember (new config) steps).memory.shortTerm := by
  have h := remember_shortTerm steps (new config) (by simp [new])
  have hnil : (new config).memory.shortTerm = [] := rfl
  rw [hnil, List.nil_append] at h
  rw [h]
  refine ⟨rfl, ?_, ?_, ?_⟩
  · simp only [List.length_drop]; omega
  · simp only [List.length_drop]; omega
  · exact (List.take_append_drop _ _).symm

/-- Every point of a pass holds the results the pass started with as a
prefix, and its results are a prefix of those the pass ends with. -/
theorem iteration_points_prefix (env : Env) (a : Agent) :
    ∀ q ∈ (iteration env a).points,
      a.state.results <+: q.state.results ∧
      q.state.results <+: (iteration env a).agent.state.results := by
  cases hp : env.getNextAction (a.state.iterations + 1) with
  | threw m => simp [iteration_plannerThrew env a m hp]
  | ok action =>
    have e1 := (executeAction_state env (beginPass a) action).1
    by_cases hc : action.type = some "complete"
    · simp [iteration_plannerComplete env a action hp hc]
    · cases he : (executeAction env (beginPass a) action).2 with
      | threw m =>
        simp [iteration_executeThrew env a action m hp hc he, e1]
      | ok result =>
        cases hj : env.isTaskComplete (a.state.iterations + 1) with
        | threw m =>
          simp [iteration_checkThrew env a action result m hp hc he hj, e1,
            updateMemory, pushResult]
        | ok answer =>
          simp [iteration_checked env a action result answer hp hc he hj, e1,
            updateMemory, pushResult, noteCheck]

/-- The loop only ever appends to the results: the agent it leaves, and the
agent at every point on the way, hold the results it started with as a
prefix, and the results at every point are a prefix of the final ones. -/
theorem runLoop_prefix (env : Env) (fuel : Nat) :
    ∀ a : Agent,
      a.state.results <+: (runLoop env fuel a).agent.state.results ∧
      (∀ q ∈ (runLoop env fuel a).points, a.state.results <+: q.state.results) ∧
      (∀ q ∈ (runLoop env fuel a).points,
        q.state.results <+: (runLoop env fuel a).agent.state.results) := by
  have hpass : ∀ a : Agent, a.state.results <+: (iteration env a).agent.state.results := by
    intro a
    rcases iteration_results env a with h | ⟨r, h⟩
    · rw [h]
    · rw [h]
      exact List.prefix_append _ _
  induction fuel with
  | zero =>
    intro a
    unfold runLoop
    split <;> simp
  | succ n ih =>
    intro a
    have hpts := iteration_points_prefix env a
    by_cases hlt : a.state.iterations < a.config.maxIterations
    · cases hc : (iteration env a).control with
      | next =>
        rw [runLoop_next env n a hlt hc]
        obtain ⟨i1, i2, i3⟩ := ih (iteration env a).agent
        refine ⟨(hpass a).trans i1, ?_, ?_⟩
        · intro q hq
          simp only [List.mem_append] at hq
          rcases hq with hq | hq
          · exact (hpts q hq).1
          · exact (hpass a).trans (i2 q hq)
        · intro q hq
          simp only [List.mem_append] at hq
          rcases hq with hq | hq
          · exact (hpts q hq).2.trans i1
          · exact i3 q hq
      | plannerComplete =>
        rw [runLoop_plannerComplete env n a hlt hc]
        exact ⟨hpass a, fun q hq => (hpts q hq).1, fun q hq => (hpts q hq).2⟩
      | satisfied =>
        rw [runLoop_satisfied env n a hlt hc]
        exact ⟨hpass a, fun q hq => (hpts q hq).1, fun q hq => (hpts q hq).2⟩
      | threw m =>
        rw [runLoop_threw env n a m hlt hc]
        exact ⟨hpass a, fun q hq => (hpts q hq).1, fun q hq => (hpts q hq).2⟩
    · rw [runLoop_exhausted env _ a hlt]
      simp

/-- C12. Within a run the step history `state.results` is append-only: for
every agent state a pass can start from and every behaviour of the planner,
the tool and the completion check, the results before the pass are a prefix
of the results after it, which are at most one entry longer; the same holds
at every statement inside the pass, and over any number of passes of the
loop the results at each point are a prefix of those at the end. -/
theorem results_append_only (env : Env) (a : Agent) (fuel : Nat) :
    a.state.results <+: (iteration env a).agent.state.results ∧
    (iteration env a).agent.state.results.length ≤ a.state.results.length + 1 ∧
    (∀ q ∈ (iteration env a).points,
      a.state.results <+: q.state.results ∧
      q.state.results <+: (iteration env a).agent.state.results) ∧
    a.state.results <+: (runLoop env fuel a).agent.state.results ∧
    (∀ q ∈ (runLoop env fuel a).points,
      a.state.results <+: q.state.results ∧
      q.state.results <+: (runLoop env fuel a).agent.state.results) := by
  obtain ⟨l1, l2, l3⟩ := runLoop_prefix env fuel a
  refine ⟨?_, ?_, iteration_points_prefix env a, l1, fun q hq => ⟨l2 q hq, l3 q hq⟩⟩
  · rcases iteration_results env a with h | ⟨r, h⟩
    · rw [h]
    · rw [h]
      exact List.prefix_append _ _
  · rcases iteration_results env a with h | ⟨r, h⟩ <;> rw [h] <;> simp

/-- C14. When `run` returns a failure, whether the error was raised inside
the loop or by the closing summary call, the returned object has
`success: false`, the message of that error, no summary, the iteration count
reached and exactly the results recorded when the error was raised: the list
the agent holds, of which the results at every earlier point of the run are
a prefix. -/
theorem run_failure_keeps_results (env : Env) (a : Agent) (task : String) (context : JObject)
    (h : (run env a task context).returned.success = false) :
    (∃ m, (run env a task context).returned.error = some m ∧
      ((run env a task context).ending = .threw m ∨
        ((∀ e, (run env a task context).ending ≠ .threw e) ∧
          env.generateSummary = .threw m))) ∧
    (run env a task context).returned.summary = none ∧
    (run env a task context).returned.task = task ∧
    (run env a task context).returned.iterations
      = (run env a task context).agent.state.iterations ∧
    (run env a task context).returned.results
      = (run env a task context).agent.state.results ∧
    (∀ q ∈ (runLoop env a.config.maxIterations (start a task context)).points,
      q.state.results <+: (run env a task context).returned.results) := by
  obtain ⟨-, p2, p3, p4, p5, p6⟩ := run_parts env a task context
  obtain ⟨-, -, l3⟩ := runLoop_prefix env a.config.maxIterations (start a task context)
  have hfin : ∀ b : Agent, (finish b).state.iterations = b.state.iterations ∧
      (finish b).state.results = b.state.results := fun b => ⟨rfl, rfl⟩
  refine ⟨?_, ?_, p6, by rw [p4, p2, (hfin _).1], by rw [p5, p2, (hfin _).2], ?_⟩
  · cases hE : (runLoop env a.config.maxIterations (start a task context)).ending with
    | threw m =>
      refine ⟨m, ?_, Or.inl (by rw [p3, hE])⟩
      rw [run_returned_threw env a task context m hE]
    | exhausted =>
      cases hs : env.generateSummary with
      | ok s =>
        rw [run_returned_success env a task context s (by rw [hE]; simp) hs] at h
        simp at h
      | threw m =>
        refine ⟨m, by simp [run, hE, hs], Or.inr ⟨by rw [p3, hE]; simp, rfl⟩⟩
    | plannerComplete =>
      cases hs : env.generateSummary with
      | ok s =>
        rw [run_returned_success env a task context s (by rw [hE]; simp) hs] at h
        simp at h
      | threw m =>
        refine ⟨m, by simp [run, hE, hs], Or.inr ⟨by rw [p3, hE]; simp, rfl⟩⟩
    | satisfied =>
      cases hs : env.generateSummary with
      | ok s =>
        rw [run_returned_success env a task context s (by rw [hE]; simp) hs] at h
        simp at h
      | threw m =>
        refine ⟨m, by simp [run, hE, hs], Or.inr ⟨by rw [p3, hE]; simp, rfl⟩⟩
    | outOfFuel =>
      cases hs : env.generateSummary with
      | ok s =>
        rw [run_returned_success env a task context s (by rw [hE]; simp) hs] at h
        simp at h
      | threw m =>
        refine ⟨m, by simp [run, hE, hs], Or.inr ⟨by rw [p3, hE]; simp, rfl⟩⟩
  · cases hE : (runLoop env a.config.maxIterations (start a task context)).ending with
    | threw m => rw [run_returned_threw env a task context m hE]
    | exhausted =>
      cases hs : env.generateSummary with
      | ok s =>
        rw [run_returned_success env a task context s (by rw [hE]; simp) hs] at h
        simp at h
      | threw m => simp [run, hE, hs]
    | plannerComplete =>
      cases hs : env.generateSummary with
      | ok s =>
        rw [run_returned_success env a task context s (by rw [hE]; simp) hs] at h
        simp at h
      | threw m => simp [run, hE, hs]
    | satisfied =>
      cases hs : env.generateSummary with
      | ok s =>
        rw [run_returned_success env a task context s (by rw [hE]; simp) hs] at h
        simp at h
      | threw m => simp [run, hE, hs]
    | outOfFuel =>
      cases hs : env.generateSummary with
      | ok s =>
        rw [run_returned_success env a task context s (by rw [hE]; simp) hs] at h
        simp at h
      | threw m => simp [run, hE, hs]
  · intro q hq
    rw [p5]
    exact l3 q hq

/-- A run that fails in its third pass, after two results were recorded. -/
theorem run_failure_keeps_results_witness :
    (run lateFailureEnv (new ⟨none, none⟩) "task" []).returned.error
        = some "Service unavailable" ∧
    (run lateFailureEnv (new ⟨none, none⟩) "task" []).returned.iterations = 3 ∧
    (run lateFailureEnv (new ⟨none, none⟩) "task" []).returned.results.length = 2 ∧
    (run lateFailureEnv (new ⟨none, none⟩) "task" []).returned.results
      = (run lateFailureEnv (new ⟨none, none⟩) "task" []).agent.state.results :=
  ⟨by decide, by decide, by decide,
   (run_failure_keeps_results lateFailureEnv (new ⟨none, none⟩) "task" []
      (by decide)).2.2.2.2.1⟩

end AutonomousAgent

/-! ## The running flag -/

namespace AutonomousAgent

theorem beginPass_isRunning (a : Agent) :
    (beginPass a).state.isRunning = a.state.isRunning := rfl

/-- A pass never writes `isRunning`. -/
theorem iteration_isRunning (env : Env) (a : Agent) :
    (iteration env a).agent.state.isRunning = a.state.isRunning ∧
    ∀ q ∈ (iteration env a).points, q.state.isRunning = a.state.isRunning := by
  have hb := beginPass_isRunning a
  cases hp : env.getNextAction (a.state.iterations + 1) with
  | threw m => simp [iteration_plannerThrew env a m hp, hb]
  | ok action =>
    have e1 := (executeAction_state env (beginPass a) action).1
    by_cases hc : action.type = some "complete"
    · simp [iteration_plannerComplete env a action hp hc, hb]
    · cases he : (executeAction env (beginPass a) action).2 with
      | threw m =>
        simp [iteration_executeThrew env a action m hp hc he, e1, hb]
      | ok result =>
        cases hj : env.isTaskComplete (a.state.iterations + 1) with
        | threw m =>
          simp [iteration_checkThrew env a action result m hp hc he hj, e1,
            updateMemory, pushResult, hb]
        | ok answer =>
          simp [iteration_checked env a action result answer hp hc he hj, e1,
            updateMemory, pushResult, noteCheck, hb]

/-- The loop never writes `isRunning`. -/
theorem runLoop_isRunning (env : Env) (fuel : Nat) :
    ∀ a : Agent,
      (runLoop env fuel a).agent.state.isRunning = a.state.isRunning ∧
      ∀ q ∈ (runLoop env fuel a).points, q.state.isRunning = a.state.isRunning := by
  induction fuel with
  | zero =>
    intro a
    unfold runLoop
    split <;> simp
  | succ n ih =>
    intro a
    obtain ⟨f1, f2⟩ := iteration_isRunning env a
    by_cases hlt : a.state.iterations < a.config.maxIterations
    · cases hc : (iteration env a).control with
      | next =>
        rw [runLoop_next env n a hlt hc]
        obtain ⟨i1, i2⟩ := ih (iteration env a).agent
        refine ⟨by rw [← f1]; exact i1, ?_⟩
        intro q hq
        simp only [List.mem_append] at hq
        rcases hq with hq | hq
        · exact f2 q hq
        · rw [← f1]; exact i2 q hq
      | plannerComplete =>
        rw [runLoop_plannerComplete env n a hlt hc]
        exact ⟨f1, f2⟩
      | satisfied =>
        rw [runLoop_satisfied env n a hlt hc]
        exact ⟨f1, f2⟩
      | threw m =>
        rw [runLoop_threw env n a m hlt hc]
        exact ⟨f1, f2⟩
    · rw [runLoop_exhausted env _ a hlt]
      simp

/-- In a call of `run` that nothing else interleaves with, the agent is
running at every point but the last, and not running once `run` has
returned. -/
theorem run_isRunning (env : Env) (a : Agent) (task : String) (context : JObject) :
    (∀ q ∈ (run env a task context).points.dropLast, q.state.isRunning = true) ∧
    (run env a task context).points.head? = some { a with state.isRunning := true } ∧
    (run env a task context).points.getLast? = some (run env a task context).agent ∧
    (run env a task context).agent.state.isRunning = false := by
  obtain ⟨p1, p2, -, -, -, -⟩ := run_parts env a task context
  obtain ⟨-, l2⟩ := runLoop_isRunning env a.config.maxIterations (start a task context)
  refine ⟨?_, ?_, ?_, ?_⟩
  · intro q hq
    rw [p1, List.dropLast_concat] at hq
    simp only [List.mem_append] at hq
    rcases hq with hq | hq
    · simp only [startPoints, List.mem_cons, List.mem_singleton, List.not_mem_nil,
        or_false] at hq
      rcases hq with rfl | rfl | rfl | rfl | rfl <;> rfl
    · exact l2 q hq
  · rw [p1]
    simp [startPoints]
  · rw [p1, p2]
    simp
  · rw [p2]
    rfl

end AutonomousAgent

/-! ## The session registry -/

theorem mapGet_mapDelete_self (reg : Registry) (key : String) :
    mapGet (mapDelete reg key) key = none := by
  unfold mapGet mapDelete
  induction reg with
  | nil => rfl
  | cons kv rest ih =>
    obtain ⟨k, v⟩ := kv
    by_cases h : k = key
    · have hb : (k != key) = false := by simp [h]
      rw [List.filter_cons, hb]
      exact ih
    · have hb : (k != key) = true := by simp [h]
      have h2 : (key == k) = false := by
        simp only [beq_eq_false_iff_ne, ne_eq]
        exact fun e => h e.symm
      rw [List.filter_cons, hb]
      simp only [if_true, List.lookup, h2]
      exact ih

theorem mapGet_mapDelete_other (reg : Registry) (key other : String) (hne : other ≠ key) :
    mapGet (mapDelete reg key) other = mapGet reg other := by
  unfold mapGet mapDelete
  induction reg with
  | nil => rfl
  | cons kv rest ih =>
    obtain ⟨k, v⟩ := kv
    by_cases h : k = key
    · have hb : (k != key) = false := by simp [h]
      have h2 : (other == k) = false := by
        simp only [beq_eq_false_iff_ne, ne_eq]
        exact fun e => hne (e.trans h)
      rw [List.filter_cons, hb]
      simp only [List.lookup, h2]
      exact ih
    · have hb : (k != key) = true := by simp [h]
      rw [List.filter_cons, hb]
      simp only [if_true, List.lookup]
      cases (other == k)
      · exact ih
      · rfl

theorem mapDelete_subset (reg : Registry) (key : String) :
    ∀ kv ∈ mapDelete reg key, kv ∈ reg := by
  intro kv hkv
  exact (List.mem_filter.1 hkv).1

/-- C13 (amended). A call of `run` sets `isRunning` to true at its first
statement whatever state the agent was in, so also on an agent that has
finished a run; a call that returns has set the flag to false in its
`finally` block. The chat route calls `run` on the agent the registry holds
under the conversation id it is given, and so puts a finished agent back into
the running state. The stop route sets the flag of the agent it finds to
false and only removes entries, and the submission routes always start a
newly constructed agent. -/
theorem run_sets_running_again (env : Env) (a : Agent) (task : String) (context : JObject) :
    (AutonomousAgent.run env a task context).points.head?
      = some { a with state.isRunning := true } ∧
    (AutonomousAgent.run env a task context).points.getLast?
      = some (AutonomousAgent.run env a task context).agent ∧
    (AutonomousAgent.run env a task context).agent.state.isRunning = false ∧
    (∀ (reg : Registry) (user : User) (message key : String) (stored answered : Nat),
      message ≠ "" → mapGet reg key = some (.agent a) →
      (chatRoute reg env user ⟨some message, some key⟩ stored answered).ran
        = some (AutonomousAgent.run env a (chatTask message) (chatContext user (some key)))) ∧
    (∀ (reg : Registry) (id : String), ∀ kv ∈ (stopRoute reg id).registry, kv ∈ reg) ∧
    (∀ (reg : Registry) (id : String),
      ∀ stopped, (stopRoute reg id).agent = some stopped → stopped.state.isRunning = false) ∧
    (∀ (reg : Registry) (user : User) (req : ExecuteRequest) (now : Nat) (random : String),
      ∀ s, (executeRoute reg user req now random).started = some s →
        s.agent = AutonomousAgent.new (executeConfig req)) ∧
    (∀ (reg : Registry) (user : User) (taskName : String) (parameters : Option JVal)
        (insightsFor : String) (now : Nat),
      ∀ s, (tasksRoute reg user taskName parameters insightsFor now).started = some s →
        s.agent = AutonomousAgent.new ⟨none, none⟩) := by
  obtain ⟨-, r2, r3, r4⟩ := AutonomousAgent.run_isRunning env a task context
  refine ⟨r2, r3, r4, ?_, ?_, ?_, ?_, ?_⟩
  · intro reg user message key stored answered hm hget
    simp [chatRoute, hm, hget]
  · intro reg id kv hkv
    unfold stopRoute at hkv
    split at hkv
    · exact hkv
    · exact mapDelete_subset reg id kv hkv
    · exact hkv
  · intro reg id stopped hs
    unfold stopRoute at hs
    split at hs
    · cases hs
    · simp only [Option.some.injEq] at hs
      rw [← hs]
      rfl
    · cases hs
  · intro reg user req now random s hs
    unfold executeRoute at hs
    split at hs
    · cases hs
    · simp only [Option.some.injEq] at hs
      rw [← hs]
  · intro reg user taskName parameters insightsFor now s hs
    unfold tasksRoute at hs
    split at hs
    · cases hs
    · simp only [Option.some.injEq] at hs
      rw [← hs]

/-- C13 (as stated) fails: the agent a first chat message leaves in the
registry under `conv-1` has finished its run (it was running, made one pass,
and `isRunning` is false); a second message under the same id calls `run` on
that agent, which is running again from the first statement on. -/
theorem chat_reruns_finished_agent :
    ((AutonomousAgent.run satisfiedEnv (AutonomousAgent.new ⟨none, none⟩) (chatTask "hello")
      (chatContext adminUser (some "conv-1"))).points.head?).map
        (fun q => q.state.isRunning) = some true ∧
    mapGet registryAfterChat "conv-1" = some (.agent agentAfterChat) ∧
    agentAfterChat.state.isRunning = false ∧
    agentAfterChat.state.iterations = 1 ∧
    (chatRoute registryAfterChat satisfiedEnv adminUser (chatRequest "again") 7 8).ran
      = some (AutonomousAgent.run satisfiedEnv agentAfterChat (chatTask "again")
          (chatContext adminUser (some "conv-1"))) ∧
    ((AutonomousAgent.run satisfiedEnv agentAfterChat (chatTask "again")
      (chatContext adminUser (some "conv-1"))).points.head?).map
        (fun q => q.state.isRunning) = some true := by
  refine ⟨by decide, by decide, by decide, by decide, by decide, by decide⟩

theorem append_result_ne (id : String) : id ++ "-result" ≠ id := by
  intro h
  have hl := congrArg String.length h
  rw [String.length_append] at hl
  have h7 : "-result".length = 7 := by decide
  omega

/-- C15 (amended). `status(id)` fails with `Agent not found` (404) exactly
when the registry holds neither the key `id` nor the key `id-result`.
Whenever something is stored under `id-result` it answers
`{ status: 'completed', result }` with that object, whether or not the key
`id` is still there; the stop route removes only the key `id` and leaves
`id-result` alone. For an agent stored under `id` with nothing under
`id-result` it answers a snapshot: `running` or `idle`, the current task, the
iteration count and the results. -/
theorem status_not_found_iff (reg : Registry) (id : String) :
    (statusRoute reg id = .error 404 "Agent not found" ↔
      (mapGet reg id = none ∧ mapGet reg (id ++ "-result") = none)) ∧
    (∀ r, mapGet reg (id ++ "-result") = some r →
      statusRoute reg id = .json 200 (.completed id r)) ∧
    (∀ a, mapGet reg id = some (.agent a) → mapGet reg (id ++ "-result") = none →
      statusRoute reg id = .json 200
        (.snapshot id (if a.state.isRunning then "running" else "idle") a.state.currentTask
          a.state.iterations a.state.results)) ∧
    mapGet (stopRoute reg id).registry (id ++ "-result") = mapGet reg (id ++ "-result") := by
  refine ⟨?_, ?_, ?_, ?_⟩
  · cases h1 : mapGet reg id with
    | none =>
      cases h2 : mapGet reg (id ++ "-result") with
      | none => simp [statusRoute, h1, h2]
      | some r => simp [statusRoute, h1, h2]
    | some e =>
      cases h2 : mapGet reg (id ++ "-result") with
      | none => cases e <;> simp [statusRoute, h1, h2]
      | some r => simp [statusRoute, h1, h2]
  · intro r h2
    cases h1 : mapGet reg id <;> simp [statusRoute, h1, h2]
  · intro a h1 h2
    simp [statusRoute, h1, h2]
  · unfold stopRoute
    split
    · rfl
    · exact mapGet_mapDelete_other reg id _ (append_result_ne id)
    · rfl

/-- C15 (as stated) fails: a session is submitted, its run ends and its
result is stored; the stop route then removes the session from the registry
and answers `stopped`, yet `status` for that id does not fail: it answers
`completed` with the stored result. -/
theorem status_after_stop_is_completed :
    (executeRoute [] adminUser paymentsRequest 1700000000000 "k3j9x0q1z").started
      = some paymentsSession ∧
    (stopRoute registryAfterRun "agent-1700000000000-k3j9x0q1z").response
      = .json 200 ⟨"agent-1700000000000-k3j9x0q1z", "stopped"⟩ ∧
    mapGet (stopRoute registryAfterRun "agent-1700000000000-k3j9x0q1z").registry
      "agent-1700000000000-k3j9x0q1z" = none ∧
    statusRoute (stopRoute registryAfterRun "agent-1700000000000-k3j9x0q1z").registry
      "agent-1700000000000-k3j9x0q1z"
      = .json 200 (.completed "agent-1700000000000-k3j9x0q1z"
          (.result (AutonomousAgent.run (emailEnv (.ok "Done")) paymentsSession.agent
            paymentsSession.task paymentsSession.context).returned)) := by
  refine ⟨by decide, by decide, by decide, by decide⟩

/-- What the loop of `GET /list` collects: exactly the agents stored under a
key that does not contain `-result`, each with the status its flag gives. -/
theorem listAgents_spec (reg : Registry) :
    ∀ items, listAgents reg = some items →
      (∀ item ∈ items, ∃ a, (item.agentId, Entry.agent a) ∈ reg ∧
        includes item.agentId "-result" = false ∧
        item = ⟨item.agentId, if a.state.isRunning then "running" else "idle",
          a.state.currentTask, a.state.iterations⟩) ∧
      (∀ key a, (key, Entry.agent a) ∈ reg → includes key "-result" = false →
        (⟨key, if a.state.isRunning then "running" else "idle", a.state.currentTask,
          a.state.iterations⟩ : ListedAgent) ∈ items) := by
  induction reg with
  | nil =>
    intro items h
    simp only [listAgents, Option.some.injEq] at h
    subst h
    simp
  | cons kv rest ih =>
    obtain ⟨k, e⟩ := kv
    intro items h
    by_cases hinc : includes k "-result" = true
    · simp only [listAgents, hinc, if_true] at h
      obtain ⟨i1, i2⟩ := ih items h
      refine ⟨?_, ?_⟩
      · intro item hitem
        obtain ⟨a, ha, hrest⟩ := i1 item hitem
        exact ⟨a, List.mem_cons_of_mem _ ha, hrest⟩
      · intro key a hmem hkey
        simp only [List.mem_cons, Prod.mk.injEq] at hmem
        rcases hmem with ⟨rfl, -⟩ | hmem
        · rw [hinc] at hkey
          cases hkey
        · exact i2 key a hmem hkey
    · have hinc2 : includes k "-result" = false := by simpa using hinc
      cases e with
      | agent a0 =>
        simp only [listAgents, hinc2, Bool.false_eq_true, if_false] at h
        cases hr : listAgents rest with
        | none => rw [hr] at h; cases h
        | some tailItems =>
          rw [hr] at h
          simp only [Option.map_some', Option.some.injEq] at h
          subst h
          obtain ⟨i1, i2⟩ := ih tailItems hr
          refine ⟨?_, ?_⟩
          · intro item hitem
            simp only [List.mem_cons] at hitem
            rcases hitem with rfl | hitem
            · exact ⟨a0, List.mem_cons_self _ _, hinc2, rfl⟩
            · obtain ⟨a, ha, hrest⟩ := i1 item hitem
              exact ⟨a, List.mem_cons_of_mem _ ha, hrest⟩
          · intro key a hmem hkey
            simp only [List.mem_cons, Prod.mk.injEq, Entry.agent.injEq] at hmem
            rcases hmem with ⟨rfl, rfl⟩ | hmem
            · exact List.mem_cons_self _ _
            · exact List.mem_cons_of_mem _ (i2 key a hmem hkey)
      | result r =>
        simp [listAgents, hinc2] at h
      | failure m =>
        simp [listAgents, hinc2] at h

/-- C16 (amended). When `list` answers, it lists every agent stored under a
key that does not contain `-result`, whether or not its run has ended: each
item carries the status `running` when the agent's `isRunning` flag is true
and `idle` when it is false, with the agent's current task and iteration
count; nothing else is listed, and `count` is the number of items. -/
theorem list_shows_every_agent (reg : Registry) (body : ListBody)
    (h : listRoute reg = .json 200 body) :
    body.count = body.agents.length ∧
    (∀ item ∈ body.agents, ∃ a, (item.agentId, Entry.agent a) ∈ reg ∧
      includes item.agentId "-result" = false ∧
      item = ⟨item.agentId, if a.state.isRunning then "running" else "idle",
        a.state.currentTask, a.state.iterations⟩) ∧
    (∀ key a, (key, Entry.agent a) ∈ reg → includes key "-result" = false →
      (⟨key, if a.state.isRunning then "running" else "idle", a.state.currentTask,
        a.state.iterations⟩ : ListedAgent) ∈ body.agents) := by
  unfold listRoute at h
  cases hl : listAgents reg with
  | none => rw [hl] at h; cases h
  | some items =>
    rw [hl] at h
    simp only [Response.json.injEq, true_and] at h
    subst h
    exact ⟨rfl, listAgents_spec reg items hl⟩

/-- The list after the run of the submitted session has ended: the session
is listed, as `idle`, and counted. -/
theorem list_shows_every_agent_witness :
    listRoute registryAfterRun = .json 200
      ⟨[⟨"agent-1700000000000-k3j9x0q1z", "idle", some "process pending payments", 3⟩], 1⟩ ∧
    (⟨[⟨"agent-1700000000000-k3j9x0q1z", "idle", some "process pending payments", 3⟩], 1⟩
      : ListBody).count
      = (⟨[⟨"agent-1700000000000-k3j9x0q1z", "idle", some "process pending payments", 3⟩], 1⟩
        : ListBody).agents.length :=
  ⟨by decide,
   (list_shows_every_agent registryAfterRun
      ⟨[⟨"agent-1700000000000-k3j9x0q1z", "idle", some "process pending payments", 3⟩], 1⟩
      (by decide)).1⟩

/-- C16 (as stated) fails: the run of the submitted session has ended (its
result is stored and its `isRunning` flag is false), and `list` still
returns the session, with status `idle`. -/
theorem list_returns_finished_session :
    mapGet registryAfterRun "agent-1700000000000-k3j9x0q1z"
      = some (.agent (AutonomousAgent.run (emailEnv (.ok "Done")) paymentsSession.agent
          paymentsSession.task paymentsSession.context).agent) ∧
    (AutonomousAgent.run (emailEnv (.ok "Done")) paymentsSession.agent
      paymentsSession.task paymentsSession.context).agent.state.isRunning = false ∧
    mapGet registryAfterRun "agent-1700000000000-k3j9x0q1z-result"
      = some (.result (AutonomousAgent.run (emailEnv (.ok "Done")) paymentsSession.agent
          paymentsSession.task paymentsSession.context).returned) ∧
    listRoute registryAfterRun = .json 200
      ⟨[⟨"agent-1700000000000-k3j9x0q1z", "idle", some "process pending payments", 3⟩], 1⟩ := by
  refine ⟨by decide, by decide, by decide, by decide⟩

/-- C17, the code at the failing input: two `POST /tasks/monthly-close`
requests handled within the same millisecond get the same session id, and
the second registration replaces the entry of the first: the registry holds
one entry, the agent started for the second caller. -/
theorem task_ids_collide :
    firstMonthlyClose.response = .json 202
      ⟨"agent-monthly-close-1700000000000", some "monthly-close",
       "Execute the monthly close process: calculate all royalties, generate reports, and prepare payments for all artists",
       "running"⟩ ∧
    secondMonthlyClose.response = firstMonthlyClose.response ∧
    firstMonthlyClose.registry.length = 1 ∧
    secondMonthlyClose.registry.length = 1 ∧
    mapGet secondMonthlyClose.registry "agent-monthly-close-1700000000000"
      ≠ mapGet firstMonthlyClose.registry "agent-monthly-close-1700000000000" ∧
    mapGet secondMonthlyClose.registry "agent-monthly-close-1700000000000"
      = some (.agent (AutonomousAgent.launch (AutonomousAgent.new ⟨none, none⟩)
          "Execute the monthly close process: calculate all royalties, generate reports, and prepare payments for all artists"
          (tasksContext "monthly-close" none managerUser))) ∧
    objectGet (tasksContext "monthly-close" none managerUser) "userId"
      = some managerUser.id := by
  refine ⟨by decide, by decide, by decide, by decide, by decide, by decide, by decide⟩

/-- C18 (amended). The stop route removes the registry entry of whatever
agent it finds under the id, whether that agent is still running or not: it
clears the agent's `isRunning` flag, deletes the key, leaves every other key
as it was and answers `stopped`. It answers `Agent not found` (404) exactly
when nothing is stored under the id, and then changes nothing. -/
theorem stop_removes_any_agent (reg : Registry) (id : String) :
    (∀ a, mapGet reg id = some (.agent a) →
      (stopRoute reg id).response = .json 200 ⟨id, "stopped"⟩ ∧
      (stopRoute reg id).agent = some (stopAgent a) ∧
      mapGet (stopRoute reg id).registry id = none ∧
      ∀ other, other ≠ id → mapGet (stopRoute reg id).registry other = mapGet reg other) ∧
    ((stopRoute reg id).response = .error 404 "Agent not found" ↔ mapGet reg id = none) ∧
    (mapGet reg id = none → (stopRoute reg id).registry = reg) := by
  refine ⟨?_, ?_, ?_⟩
  · intro a h
    have e : stopRoute reg id
        = ⟨mapDelete reg id, .json 200 ⟨id, "stopped"⟩, some (stopAgent a)⟩ := by
      simp [stopRoute, h]
    rw [e]
    exact ⟨rfl, rfl, mapGet_mapDelete_self reg id,
      fun other hne => mapGet_mapDelete_other reg id other hne⟩
  · cases h : mapGet reg id with
    | none => simp [stopRoute, h]
    | some e => cases e <;> simp [stopRoute, h]
  · intro h
    simp [stopRoute, h]

/-- C18 (as stated) fails: right after its submission the session is
running (its run has not ended and no result is stored), and the stop route
removes it from the registry and answers `stopped`. -/
theorem stop_removes_running_session :
    mapGet registryAfterSubmit "agent-1700000000000-k3j9x0q1z"
      = some (.agent (AutonomousAgent.launch paymentsSession.agent paymentsSession.task
          paymentsSession.context)) ∧
    (AutonomousAgent.launch paymentsSession.agent paymentsSession.task
      paymentsSession.context).state.isRunning = true ∧
    mapGet registryAfterSubmit "agent-1700000000000-k3j9x0q1z-result" = none ∧
    (stopRoute registryAfterSubmit "agent-1700000000000-k3j9x0q1z").response
      = .json 200 ⟨"agent-1700000000000-k3j9x0q1z", "stopped"⟩ ∧
    (stopRoute registryAfterSubmit "agent-1700000000000-k3j9x0q1z").registry = [] := by
  refine ⟨by decide, by decide, by decide, by decide, by decide⟩

/-! ## The context of a session -/

theorem lookup_replace_self (o : JObject) (key : String) (value : JVal)
    (h : o.any (fun kv => kv.1 == key) = true) :
    (o.map (fun kv => if kv.1 == key then (kv.1, value) else kv)).lookup key = some value := by
  induction o with
  | nil => simp at h
  | cons kv rest ih =>
    obtain ⟨k, v⟩ := kv
    by_cases hk : k = key
    · subst hk
      simp only [List.map_cons, beq_self_eq_true, if_true, List.lookup_cons]
    · have h1 : (k == key) = false := by simpa using hk
      have h2 : (key == k) = false := by
        simp only [beq_eq_false_iff_ne, ne_eq]
        exact fun e => hk e.symm
      have hrest : rest.any (fun kv => kv.1 == key) = true := by
        simpa [List.any_cons, h1] using h
      have hf : (if (k == key) = true then (k, value) else (k, v)) = (k, v) := by simp [h1]
      simp only [List.map_cons, hf, List.lookup_cons, h2]
      exact ih hrest

theorem lookup_append_self (o : JObject) (key : String) (value : JVal)
    (h : o.any (fun kv => kv.1 == key) = false) :
    (o ++ [(key, value)]).lookup key = some value := by
  induction o with
  | nil => simp [List.lookup_cons]
  | cons kv rest ih =>
    obtain ⟨k, v⟩ := kv
    have hk : (k == key) = false ∧ rest.any (fun kv => kv.1 == key) = false := by
      simpa [List.any_cons] using h
    have h2 : (key == k) = false := by
      simp only [beq_eq_false_iff_ne, ne_eq]
      intro e
      have := hk.1
      simp [e] at this
    simp only [List.cons_append, List.lookup_cons, h2]
    exact ih hk.2

theorem lookup_replace_other (o : JObject) (key other : String) (value : JVal)
    (hne : other ≠ key) :
    (o.map (fun kv => if kv.1 == key then (kv.1, value) else kv)).lookup other
      = o.lookup other := by
  induction o with
  | nil => rfl
  | cons kv rest ih =>
    obtain ⟨k, v⟩ := kv
    by_cases hk : k = key
    · subst hk
      have h2 : (other == k) = false := by simpa using hne
      simp only [List.map_cons, beq_self_eq_true, if_true, List.lookup_cons, h2]
      exact ih
    · have h1 : (k == key) = false := by simpa using hk
      have hf : (if (k == key) = true then (k, value) else (k, v)) = (k, v) := by simp [h1]
      simp only [List.map_cons, hf, List.lookup_cons]
      cases (other == k)
      · exact ih
      · rfl

theorem lookup_append_other (o : JObject) (key other : String) (value : JVal)
    (hne : other ≠ key) :
    (o ++ [(key, value)]).lookup other = o.lookup other := by
  induction o with
  | nil =>
    have h2 : (other == key) = false := by simpa using hne
    simp [List.lookup_cons, h2]
  | cons kv rest ih =>
    obtain ⟨k, v⟩ := kv
    simp only [List.cons_append, List.lookup_cons]
    cases (other == k)
    · exact ih
    · rfl

/-- A property just assigned reads back as the value assigned. -/
theorem objectGet_objectSet_self (o : JObject) (key : String) (value : JVal) :
    objectGet (objectSet o key value) key = some value := by
  unfold objectGet objectSet JObject.hasField
  cases h : o.any (fun kv => kv.1 == key) with
  | true => simpa using lookup_replace_self o key value h
  | false => simpa using lookup_append_self o key value h

/-- Assigning a property leaves every other property as it was. -/
theorem objectGet_objectSet_other (o : JObject) (key other : String) (value : JVal)
    (hne : other ≠ key) :
    objectGet (objectSet o key value) other = objectGet o other := by
  unfold objectGet objectSet JObject.hasField
  cases h : o.any (fun kv => kv.1 == key) with
  | true => simpa using lookup_replace_other o key other value hne
  | false => simpa using lookup_append_other o key other value hne

/-- C19 (amended). Context merging in `POST /execute` is shallow and the
engine's keys win: in the context passed to `run`, and stored as the
session's `memory.context`, `userId` and `userRole` are those of the
authenticated user even when the caller supplied these keys, and every other
caller-supplied key keeps the caller's value. -/
theorem execute_context_engine_keys_win (context : Option JObject) (user : User) :
    objectGet (executeContext context user) "userId" = some user.id ∧
    objectGet (executeContext context user) "userRole" = some user.role ∧
    (∀ key, key ≠ "userId" → key ≠ "userRole" →
      objectGet (executeContext context user) key = objectGet (context.getD []) key) ∧
    (∀ (reg : Registry) (task : String) (model : Option String) (limit : Option Nat)
        (now : Nat) (random : String) (s : Started),
      (executeRoute reg user ⟨some task, context, model, limit⟩ now random).started = some s →
        s.context = executeContext context user ∧
        (AutonomousAgent.start s.agent s.task s.context).memory.context
          = executeContext context user ∧
        (AutonomousAgent.launch s.agent s.task s.context).memory.context
          = executeContext context user) := by
  refine ⟨?_, ?_, ?_, ?_⟩
  · unfold executeContext
    rw [objectGet_objectSet_other _ _ _ _ (by decide), objectGet_objectSet_self]
  · unfold executeContext
    rw [objectGet_objectSet_self]
  · intro key h1 h2
    unfold executeContext
    rw [objectGet_objectSet_other _ _ _ _ h2, objectGet_objectSet_other _ _ _ _ h1]
  · intro reg task model limit now random s hs
    unfold executeRoute at hs
    split at hs
    · cases hs
    · simp only [Option.some.injEq] at hs
      subst hs
      refine ⟨rfl, rfl, ?_⟩
      unfold AutonomousAgent.launch
      split <;> rfl

/-- C19 (as stated) fails: the caller of `POST /execute` supplies a context
with `userId: 'intruder'`; the context of the session has the authenticated
user's id under `userId`, not the caller's value (the caller's other key is
kept). -/
theorem execute_context_overrides_caller :
    objectGet spoofedContext "userId" = some (.str "intruder") ∧
    (executeRoute [] adminUser ⟨some "process pending payments", some spoofedContext, none,
        none⟩ 1700000000000 "k3j9x0q1z").started.map (fun s => s.context)
      = some [("userId", .str "user-1"), ("note", .str "urgent"), ("userRole", .str "admin")] ∧
    objectGet (executeContext (some spoofedContext) adminUser) "userId"
      ≠ objectGet spoofedContext "userId" := by
  refine ⟨by decide, by decide, by decide⟩

/-! ## The capability implementations -/

namespace HostingerTools

theorem contained_rejected (h : Hosting) (message : String) :
    Contained h (rejected message) :=
  ⟨caught message, rfl, fun c hc => by simp [rejected] at hc⟩

theorem contained_awaited (h : Hosting) (call : ServiceCall) :
    Contained h (awaited h call) := by
  cases hr : h.respond call with
  | ok result =>
    refine ⟨result, by simp [awaited, hr], ?_⟩
    intro c hc m hm
    simp only [awaited, hr, List.mem_singleton] at hc
    subst hc
    rw [hr] at hm
    cases hm
  | threw message =>
    refine ⟨caught message, by simp [awaited, hr], ?_⟩
    intro c _ m _
    exact ⟨rfl, message, rfl⟩

theorem firstError_none (outcomes : List (Outcome Result)) (h : firstError outcomes = none) :
    ∀ o ∈ outcomes, ∀ m, o ≠ .threw m := by
  induction outcomes with
  | nil => intro o ho; cases ho
  | cons head rest ih =>
    cases head with
    | threw m => simp [firstError] at h
    | ok r =>
      intro o ho m
      simp only [List.mem_cons] at ho
      rcases ho with rfl | ho
      · simp
      · exact ih (by simpa [firstError] using h) o ho m

theorem contained_manageDomain (h : Hosting) (params : Option JObject) :
    Contained h (manageDomain h params) := by
  unfold manageDomain
  split
  · exact contained_rejected h _
  · dsimp only
    split <;> (try split) <;>
      first
        | exact contained_rejected h _
        | exact contained_awaited h _

theorem contained_manageSSL (h : Hosting) (params : Option JObject) :
    Contained h (manageSSL h params) := by
  unfold manageSSL
  split
  · exact contained_rejected h _
  · dsimp only
    split <;> (try split) <;>
      first
        | exact contained_rejected h _
        | exact contained_awaited h _

theorem contained_manageEmail (h : Hosting) (params : Option JObject) :
    Contained h (manageEmail h params) := by
  unfold manageEmail
  split
  · exact contained_rejected h _
  · dsimp only
    split <;> (try split) <;>
      first
        | exact contained_rejected h _
        | exact contained_awaited h _

theorem contained_manageDatabase (h : Hosting) (params : Option JObject) :
    Contained h (manageDatabase h params) := by
  unfold manageDatabase
  split
  · exact contained_rejected h _
  · dsimp only
    split <;> (try split) <;>
      first
        | exact contained_rejected h _
        | exact contained_awaited h _

theorem contained_manageFTP (h : Hosting) (params : Option JObject) :
    Contained h (manageFTP h params) := by
  unfold manageFTP
  split
  · exact contained_rejected h _
  · dsimp only
    split <;> (try split) <;>
      first
        | exact contained_rejected h _
        | exact contained_awaited h _

theorem contained_checkDomainAvailability (h : Hosting) (params : Option JObject) :
    Contained h (checkDomainAvailability h params) := by
  unfold checkDomainAvailability
  split
  · exact contained_rejected h _
  · exact contained_awaited h _

theorem contained_getAccountInfo (h : Hosting) (params : Option JObject) :
    Contained h (getAccountInfo h params) :=
  contained_awaited h _

theorem contained_getHostingStats (h : Hosting) (params : Option JObject) :
    Contained h (getHostingStats h params) := by
  unfold getHostingStats
  split
  · exact contained_rejected h _
  · dsimp only
    split
    · exact contained_awaited h _
    · exact contained_awaited h _
    · exact contained_awaited h _
    · split
      · rename_i message hfirst
        exact ⟨caught message, rfl, fun c _ m _ => ⟨rfl, message, rfl⟩⟩
      · rename_i hfirst
        refine ⟨_, rfl, ?_⟩
        intro c hc m hm
        exact absurd hm (firstError_none _ hfirst (h.respond c) (List.mem_map_of_mem _ hc) m)
    · exact contained_rejected h _

/-- Every tool of `getTools()` keeps its errors inside, for every parameter
object (absent or not) and every behaviour of the hosting service. -/
theorem contained_execute (h : Hosting) (name : String) (params : Option JObject)
    (hname : name ∈ toolNames) :
    ∃ run, execute h name params = some run ∧ Contained h run := by
  simp only [toolNames, List.mem_cons, List.mem_singleton, List.not_mem_nil, or_false] at hname
  rcases hname with rfl | rfl | rfl | rfl | rfl | rfl | rfl | rfl
  · exact ⟨_, rfl, contained_manageDomain h params⟩
  · exact ⟨_, rfl, contained_manageSSL h params⟩
  · exact ⟨_, rfl, contained_manageEmail h params⟩
  · exact ⟨_, rfl, contained_getHostingStats h params⟩
  · exact ⟨_, rfl, contained_manageDatabase h params⟩
  · exact ⟨_, rfl, contained_manageFTP h params⟩
  · exact ⟨_, rfl, contained_checkDomainAvailability h params⟩
  · exact ⟨_, rfl, contained_getAccountInfo h params⟩

end HostingerTools

theorem builtinMethods_eq :
    builtinMethods =
      ["executeAnalyzeRoyalties", "executeProcessPayment", "executeGenerateReport",
       "executeSendEmail", "executeQueryDatabase", "executeCalculateRoyalties",
       "executeSearchWeb", "executeAnalyzeContract", "executePredictRevenue",
       "executeOptimizePayments", "executeSendNotification", "executeExportData",
       "executeSyncPlatformData", "executeCheckCompliance", "executeWorkflow"] := by
  decide

theorem interpolate_of_convertible (c : Conversion) (v : Option JVal)
    (h : unconvertible c v = false) : ∃ text, interpolate c v = .ok text := by
  match v with
  | none => exact ⟨_, rfl⟩
  | some .null => exact ⟨_, rfl⟩
  | some (.bool b) => exact ⟨_, rfl⟩
  | some (.num n) => exact ⟨_, rfl⟩
  | some (.str s) => exact ⟨_, rfl⟩
  | some (.json text) =>
    cases hc : c.compound text with
    | ok t => exact ⟨t, by simp [interpolate, hc]⟩
    | threw m => simp [unconvertible, hc] at h

theorem interpolate_of_unconvertible (c : Conversion) (v : Option JVal)
    (h : unconvertible c v = true) : ∃ m, interpolate c v = .threw m := by
  match v with
  | none => simp [unconvertible] at h
  | some .null => simp [unconvertible] at h
  | some (.bool b) => simp [unconvertible] at h
  | some (.num n) => simp [unconvertible] at h
  | some (.str s) => simp [unconvertible] at h
  | some (.json text) =>
    cases hc : c.compound text with
    | ok t => simp [unconvertible, hc] at h
    | threw m => exact ⟨m, by simp [interpolate, hc]⟩

theorem toNumber_of_convertible (c : Conversion) (v : Option JVal)
    (h : unconvertible c v = false) : toNumber c v = .ok () := by
  match v with
  | none => rfl
  | some .null => rfl
  | some (.bool b) => rfl
  | some (.num n) => rfl
  | some (.str s) => rfl
  | some (.json text) =>
    cases hc : c.compound text with
    | ok t => simp [toNumber, hc]
    | threw m => simp [unconvertible, hc] at h

theorem toNumber_of_unconvertible (c : Conversion) (v : Option JVal)
    (h : unconvertible c v = true) : ∃ m, toNumber c v = .threw m := by
  match v with
  | none => simp [unconvertible] at h
  | some .null => simp [unconvertible] at h
  | some (.bool b) => simp [unconvertible] at h
  | some (.num n) => simp [unconvertible] at h
  | some (.str s) => simp [unconvertible] at h
  | some (.json text) =>
    cases hc : c.compound text with
    | ok t => simp [unconvertible, hc] at h
    | threw m => exact ⟨m, by simp [toNumber, hc]⟩

/-- A template and a product throw for the same values, with the same error. -/
theorem toNumber_threw_iff (c : Conversion) (v : Option JVal) (m : String) :
    toNumber c v = .threw m ↔ interpolate c v = .threw m := by
  match v with
  | none => simp [toNumber, interpolate]
  | some .null => simp [toNumber, interpolate]
  | some (.bool b) => simp [toNumber, interpolate]
  | some (.num n) => simp [toNumber, interpolate]
  | some (.str s) => simp [toNumber, interpolate]
  | some (.json text) =>
    cases hc : c.compound text with
    | ok t => simp [toNumber, interpolate, hc]
    | threw e => simp [toNumber, interpolate, hc]

/-- A built-in method that makes no call outside the agent returns a result
with `success: true` for a parameter object all of whose converted values
convert. -/
theorem local_builtin_succeeds (w : Builtins) (context : JObject) (method : String)
    (p : JObject) (hm : method ∈ builtinMethods) (hlocal : method ∉ callingMethods)
    (hconv : ∀ field ∈ convertedFields method,
      unconvertible w.conversion (objectGet p field) = false) :
    ∃ r, builtinMethod w context method (some p) = some (.ok r) ∧ r.success = true := by
  rw [builtinMethods_eq] at hm
  simp only [List.mem_cons, List.mem_singleton, List.not_mem_nil, or_false] at hm
  rcases hm with rfl | rfl | rfl | rfl | rfl | rfl | rfl | rfl | rfl | rfl | rfl | rfl | rfl
    | rfl | rfl
  · exact absurd (by decide) hlocal
  · exact absurd (by decide) hlocal
  · obtain ⟨t1, h1⟩ := interpolate_of_convertible w.conversion (objectGet p "reportType")
      (hconv "reportType" (by decide))
    obtain ⟨t2, h2⟩ := interpolate_of_convertible w.conversion (objectGet p "format")
      (hconv "format" (by decide))
    have hx : builtinMethod w context "executeGenerateReport" (some p)
        = some (executeGenerateReport w (some p)) := rfl
    have e : executeGenerateReport w (some p) = .ok ⟨true, none, some "Report generated",
        some ("/reports/" ++ t1 ++ "-" ++ toString w.dateNow ++ "." ++ t2)⟩ := by
      simp only [executeGenerateReport, h1, h2]
    exact ⟨_, by rw [hx, e], rfl⟩
  · exact ⟨_, rfl, rfl⟩
  · exact absurd (by decide) hlocal
  · have h1 := toNumber_of_convertible w.conversion (objectGet p "streams")
      (hconv "streams" (by decide))
    have hx : builtinMethod w context "executeCalculateRoyalties" (some p)
        = some (executeCalculateRoyalties w (some p)) := rfl
    have e : executeCalculateRoyalties w (some p)
        = .ok ⟨true, none, none, some "amount, streams, rate"⟩ := by
      simp only [executeCalculateRoyalties, h1]
    exact ⟨_, by rw [hx, e], rfl⟩
  · exact ⟨_, rfl, rfl⟩
  · exact absurd (by decide) hlocal
  · exact ⟨_, rfl, rfl⟩
  · exact ⟨_, rfl, rfl⟩
  · exact ⟨_, rfl, rfl⟩
  · obtain ⟨t1, h1⟩ := interpolate_of_convertible w.conversion (objectGet p "dataType")
      (hconv "dataType" (by decide))
    obtain ⟨t2, h2⟩ := interpolate_of_convertible w.conversion (objectGet p "format")
      (hconv "format" (by decide))
    have hx : builtinMethod w context "executeExportData" (some p)
        = some (executeExportData w (some p)) := rfl
    have e : executeExportData w (some p) = .ok ⟨true, none, none,
        some ("/exports/" ++ t1 ++ "-" ++ toString w.dateNow ++ "." ++ t2)⟩ := by
      simp only [executeExportData, h1, h2]
    exact ⟨_, by rw [hx, e], rfl⟩
  · exact ⟨_, rfl, rfl⟩
  · exact ⟨_, rfl, rfl⟩
  · obtain ⟨t1, h1⟩ := interpolate_of_convertible w.conversion (objectGet p "workflowName")
      (hconv "workflowName" (by decide))
    have hx : builtinMethod w context "executeWorkflow" (some p)
        = some (executeWorkflow w (some p)) := rfl
    have e : executeWorkflow w (some p)
        = .ok ⟨true, none, some ("Workflow " ++ t1 ++ " executed"), none⟩ := by
      simp only [executeWorkflow, h1]
    exact ⟨_, by rw [hx, e], rfl⟩

/-- A template with two values throws when one of them does not convert. -/
theorem two_conversions_throw (c : Conversion) (v1 v2 : Option JVal)
    (build : String → String → Result)
    (h : unconvertible c v1 = true ∨ unconvertible c v2 = true) :
    ∃ m, (match interpolate c v1 with
      | .threw message => Outcome.threw message
      | .ok t1 =>
        match interpolate c v2 with
        | .threw message => Outcome.threw message
        | .ok t2 => Outcome.ok (build t1 t2)) = .threw m := by
  cases h1 : interpolate c v1 with
  | threw m => exact ⟨m, rfl⟩
  | ok t1 =>
    rcases h with h | h
    · obtain ⟨m, hm⟩ := interpolate_of_unconvertible c v1 h
      rw [hm] at h1
      cases h1
    · obtain ⟨m, hm⟩ := interpolate_of_unconvertible c v2 h
      exact ⟨m, by simp only [hm]⟩

/-- A built-in method that makes no call outside the agent throws when one of
the values it converts does not convert. -/
theorem local_builtin_throws (w : Builtins) (context : JObject) (method field : String)
    (p : JObject) (hfield : field ∈ convertedFields method)
    (hbad : unconvertible w.conversion (objectGet p field) = true) :
    ∃ m, builtinMethod w context method (some p) = some (.threw m) := by
  unfold convertedFields at hfield
  split_ifs at hfield with h1 h2 h3 h4
  · subst h1
    have hx : builtinMethod w context "executeGenerateReport" (some p)
        = some (executeGenerateReport w (some p)) := rfl
    have hor : unconvertible w.conversion (objectGet p "reportType") = true ∨
        unconvertible w.conversion (objectGet p "format") = true := by
      simp only [List.mem_cons, List.mem_singleton, List.not_mem_nil, or_false] at hfield
      rcases hfield with rfl | rfl
      · exact Or.inl hbad
      · exact Or.inr hbad
    obtain ⟨m, hm⟩ := two_conversions_throw w.conversion _ _
      (fun t1 t2 => ⟨true, none, some "Report generated",
        some ("/reports/" ++ t1 ++ "-" ++ toString w.dateNow ++ "." ++ t2)⟩) hor
    exact ⟨m, by rw [hx]; exact congrArg some hm⟩
  · subst h2
    have hx : builtinMethod w context "executeExportData" (some p)
        = some (executeExportData w (some p)) := rfl
    have hor : unconvertible w.conversion (objectGet p "dataType") = true ∨
        unconvertible w.conversion (objectGet p "format") = true := by
      simp only [List.mem_cons, List.mem_singleton, List.not_mem_nil, or_false] at hfield
      rcases hfield with rfl | rfl
      · exact Or.inl hbad
      · exact Or.inr hbad
    obtain ⟨m, hm⟩ := two_conversions_throw w.conversion _ _
      (fun t1 t2 => ⟨true, none, none,
        some ("/exports/" ++ t1 ++ "-" ++ toString w.dateNow ++ "." ++ t2)⟩) hor
    exact ⟨m, by rw [hx]; exact congrArg some hm⟩
  · subst h3
    have hx : builtinMethod w context "executeWorkflow" (some p)
        = some (executeWorkflow w (some p)) := rfl
    simp only [List.mem_singleton] at hfield
    subst hfield
    obtain ⟨m, hm⟩ := interpolate_of_unconvertible w.conversion _ hbad
    exact ⟨m, by rw [hx]; simp only [executeWorkflow, hm]⟩
  · subst h4
    have hx : builtinMethod w context "executeCalculateRoyalties" (some p)
        = some (executeCalculateRoyalties w (some p)) := rfl
    simp only [List.mem_singleton] at hfield
    subst hfield
    obtain ⟨m, hm⟩ := toNumber_of_unconvertible w.conversion _ hbad
    exact ⟨m, by rw [hx]; simp only [executeCalculateRoyalties, hm]⟩
  · cases hfield

theorem executeAnalyzeRoyalties_ok (w : Builtins) (params : Option JObject) (r : Result)
    (h : executeAnalyzeRoyalties w params = .ok r) : r.success = true := by
  unfold executeAnalyzeRoyalties at h
  repeat' split at h
  all_goals first | (cases h; rfl) | cases h

theorem executeProcessPayment_ok (w : Builtins) (context : JObject) (params : Option JObject)
    (r : Result) (h : executeProcessPayment w context params = .ok r) : r.success = true := by
  unfold executeProcessPayment at h
  split at h
  · cases h
  · dsimp only at h
    repeat' split at h
    all_goals first | (cases h; rfl) | cases h

theorem executeGenerateReport_ok (w : Builtins) (params : Option JObject) (r : Result)
    (h : executeGenerateReport w params = .ok r) : r.success = true := by
  unfold executeGenerateReport at h
  repeat' split at h
  all_goals first | (cases h; rfl) | cases h

theorem executeQueryDatabase_ok (w : Builtins) (params : Option JObject) (r : Result)
    (h : executeQueryDatabase w params = .ok r) : r.success = true := by
  unfold executeQueryDatabase at h
  repeat' split at h
  all_goals first | (cases h; rfl) | cases h

theorem executeCalculateRoyalties_ok (w : Builtins) (params : Option JObject) (r : Result)
    (h : executeCalculateRoyalties w params = .ok r) : r.success = true := by
  unfold executeCalculateRoyalties at h
  repeat' split at h
  all_goals first | (cases h; rfl) | cases h

theorem executeAnalyzeContract_ok (w : Builtins) (params : Option JObject) (r : Result)
    (h : executeAnalyzeContract w params = .ok r) : r.success = true := by
  unfold executeAnalyzeContract at h
  repeat' split at h
  all_goals first | (cases h; rfl) | cases h

theorem executeExportData_ok (w : Builtins) (params : Option JObject) (r : Result)
    (h : executeExportData w params = .ok r) : r.success = true := by
  unfold executeExportData at h
  repeat' split at h
  all_goals first | (cases h; rfl) | cases h

theorem executeWorkflow_ok (w : Builtins) (params : Option JObject) (r : Result)
    (h : executeWorkflow w params = .ok r) : r.success = true := by
  unfold executeWorkflow at h
  repeat' split at h
  all_goals first | (cases h; rfl) | cases h

/-- No built-in method returns a failure object: a result it returns has
`success: true`, for every argument. -/
theorem builtin_result_succeeds (w : Builtins) (context : JObject) (method : String)
    (params : Option JObject) (r : Result)
    (h : builtinMethod w context method params = some (.ok r)) : r.success = true := by
  by_cases h1 : method = "executeAnalyzeRoyalties"
  · subst h1
    exact executeAnalyzeRoyalties_ok w params r (Option.some.inj h)
  by_cases h2 : method = "executeProcessPayment"
  · subst h2
    exact executeProcessPayment_ok w context params r (Option.some.inj h)
  by_cases h3 : method = "executeGenerateReport"
  · subst h3
    exact executeGenerateReport_ok w params r (Option.some.inj h)
  by_cases h4 : method = "executeSendEmail"
  · subst h4
    cases Option.some.inj h
    rfl
  by_cases h5 : method = "executeQueryDatabase"
  · subst h5
    exact executeQueryDatabase_ok w params r (Option.some.inj h)
  by_cases h6 : method = "executeCalculateRoyalties"
  · subst h6
    exact executeCalculateRoyalties_ok w params r (Option.some.inj h)
  by_cases h7 : method = "executeSearchWeb"
  · subst h7
    cases Option.some.inj h
    rfl
  by_cases h8 : method = "executeAnalyzeContract"
  · subst h8
    exact executeAnalyzeContract_ok w params r (Option.some.inj h)
  by_cases h9 : method = "executePredictRevenue"
  · subst h9
    cases Option.some.inj h
    rfl
  by_cases h10 : method = "executeOptimizePayments"
  · subst h10
    cases Option.some.inj h
    rfl
  by_cases h11 : method = "executeSendNotification"
  · subst h11
    cases Option.some.inj h
    rfl
  by_cases h12 : method = "executeExportData"
  · subst h12
    exact executeExportData_ok w params r (Option.some.inj h)
  by_cases h13 : method = "executeSyncPlatformData"
  · subst h13
    cases Option.some.inj h
    rfl
  by_cases h14 : method = "executeCheckCompliance"
  · subst h14
    cases Option.some.inj h
    rfl
  by_cases h15 : method = "executeWorkflow"
  · subst h15
    exact executeWorkflow_ok w params r (Option.some.inj h)
  unfold builtinMethod at h
  rw [if_neg h1, if_neg h2, if_neg h3, if_neg h4, if_neg h5, if_neg h6, if_neg h7, if_neg h8, if_neg h9, if_neg h10, if_neg h11, if_neg h12, if_neg h13, if_neg h14, if_neg h15] at h
  cases h

/-- C20 (amended). Every Hostinger tool returns a result object for every
parameter object and every behaviour of the hosting service: an error inside
the tool is caught by the tool and returned as `{success: false, error}`.
The built-in `execute*` methods have no error boundary of their own and never
return `{success: false}`: whatever fails inside one is thrown to its caller.
Those that make no call outside the agent return `{success: true, ...}` for a
parameter object unless a value they convert to a primitive (`reportType`,
`format`, `dataType`, `workflowName` in a template, `streams` in a product)
has none, in which case they throw. The four that make a model call
(`executeAnalyzeRoyalties`, `executeProcessPayment`, `executeQueryDatabase`,
`executeAnalyzeContract`) throw the error their model call throws, and
`executeQueryDatabase` also throws on a parameter object without
`collection`. It is the `try`/`catch` of `executeAction` that turns such an
error into `{success: false, error}`. -/
theorem capability_error_boundaries (w : Builtins) (context : JObject) (h : Hosting) :
    (∀ name ∈ HostingerTools.toolNames, ∀ params,
      ∃ run, HostingerTools.execute h name params = some run ∧
        HostingerTools.Contained h run) ∧
    (∀ method params r, builtinMethod w context method params = some (.ok r) →
      r.success = true) ∧
    (∀ method ∈ builtinMethods, method ∉ callingMethods → ∀ p,
      ((∀ field ∈ convertedFields method,
          unconvertible w.conversion (objectGet p field) = false) →
        ∃ r, builtinMethod w context method (some p) = some (.ok r) ∧ r.success = true) ∧
      (∀ field ∈ convertedFields method,
        unconvertible w.conversion (objectGet p field) = true →
        ∃ m, builtinMethod w context method (some p) = some (.threw m))) ∧
    (∀ method ∈ callingMethods, method ∈ builtinMethods) ∧
    (∀ p m, w.getArtistSummary p = .threw m →
      builtinMethod w context "executeAnalyzeRoyalties" (some p) = some (.threw m)) ∧
    (∀ p m, objectGet p "royaltyIds" = none →
      w.createPayment p (objectGet context "userId") = .threw m →
      builtinMethod w context "executeProcessPayment" (some p) = some (.threw m)) ∧
    (∀ p c m, objectGet p "collection" = some (.str c) →
      w.requireModel (modelModule c) = .ok () → w.find p = .threw m →
      builtinMethod w context "executeQueryDatabase" (some p) = some (.threw m)) ∧
    (∀ p, objectGet p "collection" = none →
      builtinMethod w context "executeQueryDatabase" (some p)
        = some (.threw (readOfUndefined "charAt"))) ∧
    (∀ p m, w.findById (objectGet p "contractId") = .threw m →
      builtinMethod w context "executeAnalyzeContract" (some p) = some (.threw m)) ∧
    (∀ (env : Env) (a : Agent) (action : Action) (key : String) (tool : Tool) (m : String),
      action.type ≠ some "complete" → lookupTool action.tool = .own key tool →
      env.execute key action.parameters a.state.iterations = .threw m →
      (AutonomousAgent.executeAction env a action).2 = .ok ⟨false, some m, none, none⟩) := by
  refine ⟨?_, ?_, ?_, by decide, ?_, ?_, ?_, ?_, ?_, ?_⟩
  · intro name hname params
    exact HostingerTools.contained_execute h name params hname
  · intro method params r hr
    exact builtin_result_succeeds w context method params r hr
  · intro method hm hlocal p
    exact ⟨fun hconv => local_builtin_succeeds w context method p hm hlocal hconv,
      fun field hfield hbad => local_builtin_throws w context method field p hfield hbad⟩
  · intro p m hs
    simp [builtinMethod, executeAnalyzeRoyalties, hs]
  · intro p m hids hc
    simp [builtinMethod, executeProcessPayment, hids, hc]
  · intro p c m hcol hreq hfind
    simp [builtinMethod, executeQueryDatabase, hcol, hreq, hfind]
  · intro p hcol
    simp [builtinMethod, executeQueryDatabase, hcol]
  · intro p m hf
    simp [builtinMethod, executeAnalyzeContract, hf]
  · intro env a action key tool m hc hl hx
    rw [(AutonomousAgent.executeAction_own env a action key tool hc hl).2, hx]

/-- C20 (as stated) fails: `executeAnalyzeRoyalties`, the implementation of
the registered tool `analyzeRoyalties`, throws to its caller the error its
model call throws, `executeQueryDatabase` throws on an empty parameter
object without any outside call failing, and `executeWorkflow` throws on a
`workflowName` that converts to no text; none returns a result object. -/
theorem builtin_throws_to_caller :
    (initializeTools.lookup "analyzeRoyalties").map (fun t => t.execute)
      = some "executeAnalyzeRoyalties" ∧
    builtinMethod failingBuiltins [] "executeAnalyzeRoyalties"
      (some [("artistId", .str "not-an-id")]) = some (.threw "Cast to ObjectId failed") ∧
    (initializeTools.lookup "queryDatabase").map (fun t => t.execute)
      = some "executeQueryDatabase" ∧
    builtinMethod failingBuiltins [] "executeQueryDatabase" (some [])
      = some (.threw "Cannot read properties of undefined (reading 'charAt')") ∧
    (initializeTools.lookup "executeWorkflow").map (fun t => t.execute)
      = some "executeWorkflow" ∧
    builtinMethod failingBuiltins [] "executeWorkflow"
      (some [("workflowName", .json unconvertibleText)])
      = some (.threw "Cannot convert object to primitive value") := by
  refine ⟨by decide, by decide, by decide, by decide, by decide, by decide⟩

/-! ## The capability listing, names and model modules -/

/-- C21. The capability listing answers with exactly one descriptor per
registered tool, in registry order: its count is the number of tools in the
registry, 15, and each descriptor consists of the name, the description and
the parameter schema of its tool and of nothing else, so the `execute`
function is not part of it. -/
theorem capabilities_one_per_tool :
    (∃ body, capabilitiesRoute = .json 200 body ∧
      body.capabilities = capabilities ∧
      body.count = body.capabilities.length ∧
      body.count = initializeTools.length ∧
      body.count = 15) ∧
    capabilities.length = initializeTools.length ∧
    (∀ i (h1 : i < capabilities.length) (h2 : i < initializeTools.length),
      capabilities.get ⟨i, h1⟩ =
        ⟨(initializeTools.get ⟨i, h2⟩).2.name, (initializeTools.get ⟨i, h2⟩).2.description,
         (initializeTools.get ⟨i, h2⟩).2.parameters⟩) ∧
    (∀ c : Capability, c = ⟨c.name, c.description, c.parameters⟩) := by
  refine ⟨⟨_, rfl, rfl, rfl, by decide, by decide⟩, by decide, ?_, fun c => rfl⟩
  intro i h1 h2
  simp [capabilities]

/-- C22. Capability names are unique: the `name` fields of the 15 tools
built by `initializeTools` are pairwise distinct, and so are the names of the
8 tools of `HostingerTools.getTools`; a name therefore identifies at most one
tool of the registry and at most one descriptor of the listing. -/
theorem capability_names_unique :
    (initializeTools.map (fun kt => kt.2.name)).Nodup ∧
    initializeTools.length = 15 ∧
    HostingerTools.toolNames.Nodup ∧
    HostingerTools.toolNames.length = 8 ∧
    (∀ a ∈ initializeTools, ∀ b ∈ initializeTools, a.2.name = b.2.name → a = b) ∧
    (∀ a ∈ capabilities, ∀ b ∈ capabilities, a.name = b.name → a = b) := by
  refine ⟨by decide, by decide, by decide, by decide, ?_, ?_⟩
  · exact List.inj_on_of_nodup_map (by decide)
  · have h : (capabilities.map (fun c => c.name)).Nodup := by decide
    exact List.inj_on_of_nodup_map h

/-- C27, the code at the failing input: the schema allows the collections
`artists`, `royalties`, `payments`, `contracts` and `users`; dropping the last
character gives the model name for four of them, but for `royalties` the
module name derived is `Royaltie`, not `Royalty`. When no module of that name
can be loaded the method throws, and `executeAction` returns the failure. -/
theorem royalties_module_name_is_wrong :
    collectionEnum = ["artists", "royalties", "payments", "contracts", "users"] ∧
    "royalties" ∈ collectionEnum ∧
    modelModule "royalties" = "Royaltie" ∧
    some (modelModule "royalties") ≠ modelFor "royalties" ∧
    (∀ c ∈ collectionEnum, c ≠ "royalties" → some (modelModule c) = modelFor c) ∧
    (∀ w : Builtins, w.requireModel "Royaltie" = .threw "Cannot find module" →
      executeQueryDatabase w (some [("collection", .str "royalties")])
        = .threw "Cannot find module") := by
  refine ⟨by decide, by decide, by decide, by decide, by decide, ?_⟩
  intro w hw
  have hm : modelModule "royalties" = "Royaltie" := by decide
  simp [executeQueryDatabase, objectGet, List.lookup, hm, hw]

/-- C28, the code at the failing input: once the result of a finished
session is stored under `<agentId>-result`, asking `status` or `stop` for
that key makes the handler take the stored result for an agent and fault on
its missing `state` (a 500 answer, neither `Agent not found` nor a
well-formed one); `list` skips such keys. -/
theorem result_key_faults_status_and_stop :
    mapGet registryAfterRun "agent-1700000000000-k3j9x0q1z-result"
      = some (.result (AutonomousAgent.run (emailEnv (.ok "Done")) paymentsSession.agent
          paymentsSession.task paymentsSession.context).returned) ∧
    statusRoute registryAfterRun "agent-1700000000000-k3j9x0q1z-result"
      = .error 500 "Cannot read properties of undefined (reading 'isRunning')" ∧
    (stopRoute registryAfterRun "agent-1700000000000-k3j9x0q1z-result").response
      = .error 500 "Cannot set properties of undefined (setting 'isRunning')" ∧
    (stopRoute registryAfterRun "agent-1700000000000-k3j9x0q1z-result").registry
      = registryAfterRun ∧
    (∃ body, listRoute registryAfterRun = .json 200 body ∧
      ∀ item ∈ body.agents, item.agentId ≠ "agent-1700000000000-k3j9x0q1z-result") := by
  refine ⟨by decide, by decide, by decide, by decide, ⟨_, rfl, by decide⟩⟩

/-- C29, the code at the failing input: a chat request without a
conversation id, with the clock reading 5 when the new agent is stored and 6
when the answer is built. The agent is stored under `conv-5`, the answer
carries `conv-6`, nothing is stored under `conv-6`, and a next request sent
with `conv-6` starts a newly constructed agent instead of reaching the
first. -/
theorem chat_answers_another_id :
    (chatRoute [] satisfiedEnv adminUser firstChat 5 6).key = some "conv-5" ∧
    (∃ body, (chatRoute [] satisfiedEnv adminUser firstChat 5 6).response = .json 200 body ∧
      body.conversationId = "conv-6") ∧
    (∃ a, mapGet (chatRoute [] satisfiedEnv adminUser firstChat 5 6).registry "conv-5"
      = some (.agent a)) ∧
    mapGet (chatRoute [] satisfiedEnv adminUser firstChat 5 6).registry "conv-6" = none ∧
    (chatRoute (chatRoute [] satisfiedEnv adminUser firstChat 5 6).registry satisfiedEnv
        adminUser ⟨some "again", some "conv-6"⟩ 7 8).ran
      = some (AutonomousAgent.run satisfiedEnv (AutonomousAgent.new ⟨none, none⟩)
          (chatTask "again") (chatContext adminUser (some "conv-6"))) ∧
    ((chatRoute (chatRoute [] satisfiedEnv adminUser firstChat 5 6).registry satisfiedEnv
        adminUser ⟨some "again", some "conv-6"⟩ 7 8).registry.map (fun kv => kv.1))
      = ["conv-5", "conv-6"] := by
  refine ⟨by decide, ⟨_, rfl, by decide⟩, ⟨_, rfl⟩, by decide, by decide, by decide⟩

/-! ## The planner's window, the completion check and the count of results -/

namespace AutonomousAgent

/-- C23. In every iteration the previous actions the planner is given are
exactly the last `min 3 n` of the `n` results the agent holds (those recorded
so far in this run, which starts with none), in their original order; they
do not depend on the memory, and so not on the 10-entry short-term memory. -/
theorem planner_sees_last_three (a : Agent) :
    (plannerPrompt a).previousActions
      = a.state.results.drop (a.state.results.length - 3) ∧
    (plannerPrompt a).previousActions.length = min 3 a.state.results.length ∧
    a.state.results
      = a.state.results.take (a.state.results.length - 3)
        ++ (plannerPrompt a).previousActions ∧
    (plannerPrompt (beginPass a)).previousActions = (plannerPrompt a).previousActions ∧
    (∀ m : Memory, (plannerPrompt { a with memory := m }).previousActions
      = (plannerPrompt a).previousActions) ∧
    (∀ task context, (plannerPrompt (start a task context)).previousActions = []) := by
  have h : (plannerPrompt a).previousActions
      = a.state.results.drop (a.state.results.length - 3) := by
    simp [plannerPrompt, jsSlice]
  refine ⟨h, ?_, ?_, rfl, fun m => rfl, fun task context => rfl⟩
  · rw [h, List.length_drop]; omega
  · rw [h]; exact (List.take_append_drop _ _).symm

/-- C24 (amended). The completion check is requested after every invocation
that gives a result, whatever its `success` flag: the pass appends the
result, asks `isTaskComplete`, and ends the run early as completed when the
answer is true, also after a result with `success: false`. -/
theorem check_follows_every_invocation (env : Env) (a : Agent) (action : Action)
    (result : Result) (answer : Bool)
    (hp : env.getNextAction (a.state.iterations + 1) = .ok action)
    (hc : action.type ≠ some "complete")
    (he : (executeAction env (beginPass a) action).2 = .ok result)
    (hj : env.isTaskComplete (a.state.iterations + 1) = .ok answer) :
    (iteration env a).agent.state.results = a.state.results ++ [result] ∧
    (iteration env a).agent.ghost.completionChecks = a.ghost.completionChecks ++ [answer] ∧
    (iteration env a).control = (if answer then .satisfied else .next) := by
  have e1 := (executeAction_state env (beginPass a) action).1
  have e5 := (executeAction_state env (beginPass a) action).2.2.2.2
  rw [iteration_checked env a action result answer hp hc he hj]
  refine ⟨?_, ?_, rfl⟩
  · simp [noteCheck, updateMemory, pushResult, e1]
  · simp only [noteCheck, updateMemory, pushResult, e5]
    rfl

/-- A tool that fails, followed by a completion check answering true. -/
theorem check_follows_every_invocation_witness :
    (iteration failedYetCompleteEnv (start (new ⟨none, none⟩) "task" [])).agent.state.results
      = [] ++ [⟨false, some "Payment validation failed", none, none⟩] ∧
    (iteration failedYetCompleteEnv (start (new ⟨none, none⟩) "task" [])).control
      = (if true then .satisfied else .next) :=
  ⟨(check_follows_every_invocation failedYetCompleteEnv (start (new ⟨none, none⟩) "task" [])
      (toolCall "processPayment" []) ⟨false, some "Payment validation failed", none, none⟩
      true rfl (by decide) (by decide) rfl).1,
   (check_follows_every_invocation failedYetCompleteEnv (start (new ⟨none, none⟩) "task" [])
      (toolCall "processPayment" []) ⟨false, some "Payment validation failed", none, none⟩
      true rfl (by decide) (by decide) rfl).2.2⟩

/-- C24 (as stated) fails: the only invocation of the run gives
`{success: false, error}`; the completion check is made all the same, answers
true, and the run ends early as completed after one pass. -/
theorem failed_invocation_is_checked :
    (run failedYetCompleteEnv (new ⟨none, none⟩) "task" []).returned.results
      = [⟨false, some "Payment validation failed", none, none⟩] ∧
    (run failedYetCompleteEnv (new ⟨none, none⟩) "task" []).agent.ghost.completionChecks
      = [true] ∧
    (run failedYetCompleteEnv (new ⟨none, none⟩) "task" []).ending = .satisfied ∧
    (run failedYetCompleteEnv (new ⟨none, none⟩) "task" []).returned.success = true ∧
    (run failedYetCompleteEnv (new ⟨none, none⟩) "task" []).returned.iterations = 1 := by
  refine ⟨by decide, by decide, by decide, by decide, by decide⟩

/-- How a pass changes the number of results, by the way it ends. -/
theorem iteration_results_by_control (env : Env) (a : Agent) :
    ((iteration env a).control = .plannerComplete →
      (iteration env a).agent.state.results.length = a.state.results.length) ∧
    ((iteration env a).control = .next ∨ (iteration env a).control = .satisfied →
      (iteration env a).agent.state.results.length = a.state.results.length + 1) := by
  cases hp : env.getNextAction (a.state.iterations + 1) with
  | threw m => simp [iteration_plannerThrew env a m hp]
  | ok action =>
    have e1 := (executeAction_state env (beginPass a) action).1
    by_cases hc : action.type = some "complete"
    · simp [iteration_plannerComplete env a action hp hc]
    · cases he : (executeAction env (beginPass a) action).2 with
      | threw m => simp [iteration_executeThrew env a action m hp hc he]
      | ok result =>
        cases hj : env.isTaskComplete (a.state.iterations + 1) with
        | threw m => simp [iteration_checkThrew env a action result m hp hc he hj]
        | ok answer =>
          rw [iteration_checked env a action result answer hp hc he hj]
          cases answer <;> simp [noteCheck, updateMemory, pushResult, e1]

/-- The number of results against the iteration count when the loop is left
without an error. -/
theorem runLoop_results_count (env : Env) (fuel : Nat) :
    ∀ a : Agent,
      ((runLoop env fuel a).ending = .plannerComplete →
        (runLoop env fuel a).agent.state.results.length + 1 + a.state.iterations
          = (runLoop env fuel a).agent.state.iterations + a.state.results.length) ∧
      ((runLoop env fuel a).ending = .satisfied ∨ (runLoop env fuel a).ending = .exhausted →
        (runLoop env fuel a).agent.state.results.length + a.state.iterations
          = (runLoop env fuel a).agent.state.iterations + a.state.results.length) := by
  induction fuel with
  | zero =>
    intro a
    unfold runLoop
    split
    · simp
    · simp only [false_implies, true_implies, reduceCtorEq, or_true, true_and]
      omega
  | succ n ih =>
    intro a
    obtain ⟨f1, -, -, -⟩ := iteration_frame env a
    obtain ⟨c1, c2⟩ := iteration_results_by_control env a
    by_cases hlt : a.state.iterations < a.config.maxIterations
    · cases hc : (iteration env a).control with
      | next =>
        rw [runLoop_next env n a hlt hc]
        obtain ⟨i1, i2⟩ := ih (iteration env a).agent
        have hlen := c2 (Or.inl hc)
        refine ⟨fun h => ?_, fun h => ?_⟩
        · have := i1 h
          simp only
          omega
        · have := i2 h
          simp only
          omega
      | plannerComplete =>
        rw [runLoop_plannerComplete env n a hlt hc]
        have hlen := c1 hc
        refine ⟨fun _ => ?_, fun h => ?_⟩
        · simp only
          omega
        · simp at h
      | satisfied =>
        rw [runLoop_satisfied env n a hlt hc]
        have hlen := c2 (Or.inr hc)
        refine ⟨fun h => ?_, fun _ => ?_⟩
        · simp at h
        · simp only
          omega
      | threw m =>
        rw [runLoop_threw env n a m hlt hc]
        simp
    · rw [runLoop_exhausted env _ a hlt]
      simp only [false_implies, true_implies, reduceCtorEq, or_true, true_and]
      omega

/-- The object `run` returns is the success object when the loop was left
without an error and the summary call resolved, and the failure object with
the error's message otherwise. -/
theorem run_returned_cases (env : Env) (a : Agent) (task : String) (context : JObject) :
    (∃ s, env.generateSummary = .ok s ∧
      (∀ m, (runLoop env a.config.maxIterations (start a task context)).ending ≠ .threw m) ∧
      (run env a task context).returned =
        ⟨true, none, task,
         (runLoop env a.config.maxIterations (start a task context)).agent.state.iterations,
         (runLoop env a.config.maxIterations (start a task context)).agent.state.results,
         some s⟩) ∨
    (∃ m, ((runLoop env a.config.maxIterations (start a task context)).ending = .threw m ∨
        env.generateSummary = .threw m) ∧
      (run env a task context).returned =
        ⟨false, some m, task,
         (runLoop env a.config.maxIterations (start a task context)).agent.state.iterations,
         (runLoop env a.config.maxIterations (start a task context)).agent.state.results,
         none⟩) := by
  by_cases hthrew : ∃ m, (runLoop env a.config.maxIterations (start a task context)).ending
      = .threw m
  · obtain ⟨m, hm⟩ := hthrew
    exact Or.inr ⟨m, Or.inl hm, run_returned_threw env a task context m hm⟩
  · have hne : ∀ m, (runLoop env a.config.maxIterations (start a task context)).ending
        ≠ .threw m := fun m hm => hthrew ⟨m, hm⟩
    cases hs : env.generateSummary with
    | ok s => exact Or.inl ⟨s, rfl, hne, run_returned_success env a task context s hne hs⟩
    | threw m =>
      refine Or.inr ⟨m, Or.inr rfl, ?_⟩
      cases hE : (runLoop env a.config.maxIterations (start a task context)).ending with
      | threw e => exact absurd hE (hne e)
      | exhausted => simp [run, hE, hs]
      | plannerComplete => simp [run, hE, hs]
      | satisfied => simp [run, hE, hs]
      | outOfFuel => simp [run, hE, hs]

/-- C25. Whenever `run` returns `success: true`, the loop was left on the
planner's `complete`, by early satisfaction or because the limit was
reached, and the number of results and the iteration count are related
exactly: `results.length = iterations - 1` (with `iterations ≥ 1`) in the
first case and `results.length = iterations` in the other two; in every case
`results.length ≤ iterations`. -/
theorem run_success_counts (env : Env) (a : Agent) (task : String) (context : JObject)
    (h : (run env a task context).returned.success = true) :
    ((run env a task context).ending = .plannerComplete ∨
      (run env a task context).ending = .satisfied ∨
      (run env a task context).ending = .exhausted) ∧
    ((run env a task context).ending = .plannerComplete →
      1 ≤ (run env a task context).returned.iterations ∧
      (run env a task context).returned.results.length
        = (run env a task context).returned.iterations - 1) ∧
    ((run env a task context).ending = .satisfied ∨
      (run env a task context).ending = .exhausted →
      (run env a task context).returned.results.length
        = (run env a task context).returned.iterations) ∧
    (run env a task context).returned.results.length
      ≤ (run env a task context).returned.iterations := by
  obtain ⟨-, -, p3, p4, p5, -⟩ := run_parts env a task context
  obtain ⟨c1, c2⟩ := runLoop_results_count env a.config.maxIterations (start a task context)
  have hfuel := (runLoop_fuel env a.config.maxIterations
    (start a task context) (Nat.sub_le _ _)).2
  have hs : (start a task context).state.iterations = 0 := rfl
  have hr : (start a task context).state.results.length = 0 := rfl
  have hnot : ∀ m, (runLoop env a.config.maxIterations (start a task context)).ending
      ≠ .threw m := by
    intro m hm
    rw [run_returned_threw env a task context m hm] at h
    simp at h
  have hend : (run env a task context).ending = .plannerComplete ∨
      (run env a task context).ending = .satisfied ∨
      (run env a task context).ending = .exhausted := by
    rw [p3]
    cases hE : (runLoop env a.config.maxIterations (start a task context)).ending with
    | threw m => exact absurd hE (hnot m)
    | outOfFuel => exact absurd hE hfuel
    | exhausted => simp
    | plannerComplete => simp
    | satisfied => simp
  rw [p3, p4, p5] at *
  refine ⟨hend, ?_, ?_, ?_⟩
  · intro hE
    have := c1 hE
    omega
  · intro hE
    have := c2 hE
    omega
  · rcases hend with hE | hE | hE
    · have := c1 hE
      omega
    · have := c2 (Or.inl hE)
      omega
    · have := c2 (Or.inr hE)
      omega

/-- The payment scenario: one result, two iterations, ended on `complete`. -/
theorem run_success_counts_witness :
    (run paymentEnv (new ⟨none, none⟩) "task" []).ending = .plannerComplete ∧
    (run paymentEnv (new ⟨none, none⟩) "task" []).returned.results.length
      ≤ (run paymentEnv (new ⟨none, none⟩) "task" []).returned.iterations :=
  ⟨by decide,
   (run_success_counts paymentEnv (new ⟨none, none⟩) "task" [] (by decide)).2.2.2⟩

/-- On a string task, for every behaviour of the planner, the tools, the
completion check and the summary call, failures included, the loop ends by
itself and `run` returns an object with a boolean `success` flag, the task,
the iteration count and the results the agent holds; `success` is true
exactly when the loop was left without an error and the summary call
resolved, a failure carries the message of the error, and `isRunning` is
false once `run` has returned. -/
theorem run_always_returns (env : Env) (a : Agent) (task : String) (context : JObject) :
    (run env a task context).ending ≠ .outOfFuel ∧
    ((run env a task context).returned.success = true ∨
      (run env a task context).returned.success = false) ∧
    (run env a task context).returned.task = task ∧
    (run env a task context).returned.iterations
      = (run env a task context).agent.state.iterations ∧
    (run env a task context).returned.results
      = (run env a task context).agent.state.results ∧
    (run env a task context).agent.state.isRunning = false ∧
    ((run env a task context).returned.success = true ↔
      ((∀ m, (run env a task context).ending ≠ .threw m) ∧
        ∃ s, env.generateSummary = .ok s)) ∧
    ((run env a task context).returned.success = false →
      ∃ m, (run env a task context).returned.error = some m ∧
        ((run env a task context).ending = .threw m ∨ env.generateSummary = .threw m)) := by
  obtain ⟨-, p2, p3, p4, p5, p6⟩ := run_parts env a task context
  obtain ⟨-, -, -, r4⟩ := run_isRunning env a task context
  have hfuel := (runLoop_fuel env a.config.maxIterations
    (start a task context) (Nat.sub_le _ _)).2
  have hfin : ∀ b : Agent, (finish b).state.iterations = b.state.iterations ∧
      (finish b).state.results = b.state.results := fun b => ⟨rfl, rfl⟩
  refine ⟨by rw [p3]; exact hfuel, ?_, p6, by rw [p4, p2, (hfin _).1],
    by rw [p5, p2, (hfin _).2], r4, ?_, ?_⟩
  · cases (run env a task context).returned.success <;> simp
  · rcases run_returned_cases env a task context with ⟨s, hs, hne, hret⟩ | ⟨m, hm, hret⟩
    · rw [hret, p3]
      simp only [true_iff]
      exact ⟨hne, s, hs⟩
    · rw [hret, p3]
      simp only [Bool.false_eq_true, false_iff, not_and, not_exists]
      intro hne s hs
      rcases hm with hm | hm
      · exact hne m hm
      · rw [hs] at hm
        cases hm
  · intro hfalse
    rcases run_returned_cases env a task context with ⟨s, hs, hne, hret⟩ | ⟨m, hm, hret⟩
    · rw [hret] at hfalse
      simp at hfalse
    · rw [hret, p3]
      exact ⟨m, rfl, hm⟩

end AutonomousAgent

/-! ## The Hostinger management tools -/

namespace HostingerTools

/-- A selector value that is not handled is rejected without a service call. -/
theorem unknown_selector_rejected (h : Hosting) (name : String) (p : JObject)
    (hname : name ∈ managementTools)
    (hunknown : ∀ v ∈ handledValues name, objectGet p (selector name) ≠ some (.str v)) :
    execute h name (some p)
      = some (rejected (unknownText name
          ++ templateText h.compoundText (objectGet p (selector name)))) := by
  simp only [managementTools, List.mem_cons, List.mem_singleton, List.not_mem_nil,
    or_false] at hname
  rcases hname with rfl | rfl | rfl | rfl | rfl | rfl
  · have hx : execute h "manage_domain" (some p) = some (manageDomain h (some p)) := rfl
    have hu : ∀ v ∈ ["list", "get_details", "get_dns", "add_dns", "update_dns", "delete_dns"],
        objectGet p "action" ≠ some (.str v) := hunknown
    rw [hx]
    show some (manageDomain h (some p))
      = some (rejected ("Unknown action: " ++ templateText h.compoundText (objectGet p "action")))
    unfold manageDomain
    dsimp only
    split
    · rename_i heq; exact absurd heq (hu _ (by decide))
    · rename_i heq; exact absurd heq (hu _ (by decide))
    · rename_i heq; exact absurd heq (hu _ (by decide))
    · rename_i heq; exact absurd heq (hu _ (by decide))
    · rename_i heq; exact absurd heq (hu _ (by decide))
    · rename_i heq; exact absurd heq (hu _ (by decide))
    · rfl
  · have hx : execute h "manage_ssl" (some p) = some (manageSSL h (some p)) := rfl
    have hu : ∀ v ∈ ["get_info", "install"],
        objectGet p "action" ≠ some (.str v) := hunknown
    rw [hx]
    show some (manageSSL h (some p))
      = some (rejected ("Unknown action: " ++ templateText h.compoundText (objectGet p "action")))
    unfold manageSSL
    dsimp only
    split
    · rename_i heq; exact absurd heq (hu _ (by decide))
    · rename_i heq; exact absurd heq (hu _ (by decide))
    · rfl
  · have hx : execute h "manage_email" (some p) = some (manageEmail h (some p)) := rfl
    have hu : ∀ v ∈ ["list", "create", "delete"],
        objectGet p "action" ≠ some (.str v) := hunknown
    rw [hx]
    show some (manageEmail h (some p))
      = some (rejected ("Unknown action: " ++ templateText h.compoundText (objectGet p "action")))
    unfold manageEmail
    dsimp only
    split
    · rename_i heq; exact absurd heq (hu _ (by decide))
    · rename_i heq; exact absurd heq (hu _ (by decide))
    · rename_i heq; exact absurd heq (hu _ (by decide))
    · rfl
  · have hx : execute h "manage_database" (some p) = some (manageDatabase h (some p)) := rfl
    have hu : ∀ v ∈ ["list", "create"],
        objectGet p "action" ≠ some (.str v) := hunknown
    rw [hx]
    show some (manageDatabase h (some p))
      = some (rejected ("Unknown action: " ++ templateText h.compoundText (objectGet p "action")))
    unfold manageDatabase
    dsimp only
    split
    · rename_i heq; exact absurd heq (hu _ (by decide))
    · rename_i heq; exact absurd heq (hu _ (by decide))
    · rfl
  · have hx : execute h "manage_ftp" (some p) = some (manageFTP h (some p)) := rfl
    have hu : ∀ v ∈ ["list", "create"],
        objectGet p "action" ≠ some (.str v) := hunknown
    rw [hx]
    show some (manageFTP h (some p))
      = some (rejected ("Unknown action: " ++ templateText h.compoundText (objectGet p "action")))
    unfold manageFTP
    dsimp only
    split
    · rename_i heq; exact absurd heq (hu _ (by decide))
    · rename_i heq; exact absurd heq (hu _ (by decide))
    · rfl
  · have hx : execute h "get_hosting_stats" (some p) = some (getHostingStats h (some p)) := rfl
    have hu : ∀ v ∈ ["overview", "bandwidth", "disk_usage", "all"],
        objectGet p "metric" ≠ some (.str v) := hunknown
    rw [hx]
    show some (getHostingStats h (some p))
      = some (rejected ("Unknown metric: " ++ templateText h.compoundText (objectGet p "metric")))
    unfold getHostingStats
    dsimp only
    split
    · rename_i heq; exact absurd heq (hu _ (by decide))
    · rename_i heq; exact absurd heq (hu _ (by decide))
    · rename_i heq; exact absurd heq (hu _ (by decide))
    · rename_i heq; exact absurd heq (hu _ (by decide))
    · rfl

end HostingerTools

namespace HostingerTools

/-- A handled action whose needed field is absent (or falsy) is rejected
without a service call, with an error text that names the field. -/
theorem missing_field_rejected (h : Hosting) (name action field : String) (p : JObject)
    (hneeded : (name, action, field) ∈ neededFields)
    (hsel : objectGet p (selector name) = some (.str action))
    (hmissing : truthy (objectGet p field) = false) :
    ∃ message, execute h name (some p) = some (rejected message) ∧
      includes message field = true := by
  simp only [neededFields, List.mem_cons, List.mem_singleton, List.not_mem_nil, or_false,
    Prod.mk.injEq] at hneeded
  rcases hneeded with ⟨rfl, rfl, rfl⟩ | ⟨rfl, rfl, rfl⟩ | ⟨rfl, rfl, rfl⟩ | ⟨rfl, rfl, rfl⟩
    | ⟨rfl, rfl, rfl⟩ | ⟨rfl, rfl, rfl⟩ | ⟨rfl, rfl, rfl⟩ | ⟨rfl, rfl, rfl⟩ | ⟨rfl, rfl, rfl⟩
    | ⟨rfl, rfl, rfl⟩ | ⟨rfl, rfl, rfl⟩ | ⟨rfl, rfl, rfl⟩ | ⟨rfl, rfl, rfl⟩ | ⟨rfl, rfl, rfl⟩
  · have hs : objectGet p "action" = some (.str "get_details") := hsel
    have hx : execute h "manage_domain" (some p) = some (manageDomain h (some p)) := rfl
    exact ⟨"domain_name is required", by rw [hx]; simp [manageDomain, hs, hmissing],
      by decide⟩
  · have hs : objectGet p "action" = some (.str "get_dns") := hsel
    have hx : execute h "manage_domain" (some p) = some (manageDomain h (some p)) := rfl
    exact ⟨"domain_name is required", by rw [hx]; simp [manageDomain, hs, hmissing],
      by decide⟩
  · have hs : objectGet p "action" = some (.str "add_dns") := hsel
    have hx : execute h "manage_domain" (some p) = some (manageDomain h (some p)) := rfl
    exact ⟨"domain_name and dns_data are required",
      by rw [hx]; simp [manageDomain, hs, hmissing], by decide⟩
  · have hs : objectGet p "action" = some (.str "add_dns") := hsel
    have hx : execute h "manage_domain" (some p) = some (manageDomain h (some p)) := rfl
    exact ⟨"domain_name and dns_data are required",
      by rw [hx]; simp [manageDomain, hs, hmissing], by decide⟩
  · have hs : objectGet p "action" = some (.str "update_dns") := hsel
    have hx : execute h "manage_domain" (some p) = some (manageDomain h (some p)) := rfl
    exact ⟨"domain_name, record_id, and dns_data are required",
      by rw [hx]; simp [manageDomain, hs, hmissing], by decide⟩
  · have hs : objectGet p "action" = some (.str "update_dns") := hsel
    have hx : execute h "manage_domain" (some p) = some (manageDomain h (some p)) := rfl
    exact ⟨"domain_name, record_id, and dns_data are required",
      by rw [hx]; simp [manageDomain, hs, hmissing], by decide⟩
  · have hs : objectGet p "action" = some (.str "update_dns") := hsel
    have hx : execute h "manage_domain" (some p) = some (manageDomain h (some p)) := rfl
    exact ⟨"domain_name, record_id, and dns_data are required",
      by rw [hx]; simp [manageDomain, hs, hmissing], by decide⟩
  · have hs : objectGet p "action" = some (.str "delete_dns") := hsel
    have hx : execute h "manage_domain" (some p) = some (manageDomain h (some p)) := rfl
    exact ⟨"domain_name and record_id are required",
      by rw [hx]; simp [manageDomain, hs, hmissing], by decide⟩
  · have hs : objectGet p "action" = some (.str "delete_dns") := hsel
    have hx : execute h "manage_domain" (some p) = some (manageDomain h (some p)) := rfl
    exact ⟨"domain_name and record_id are required",
      by rw [hx]; simp [manageDomain, hs, hmissing], by decide⟩
  · have hs : objectGet p "action" = some (.str "install") := hsel
    have hx : execute h "manage_ssl" (some p) = some (manageSSL h (some p)) := rfl
    exact ⟨"ssl_data is required", by rw [hx]; simp [manageSSL, hs, hmissing], by decide⟩
  · have hs : objectGet p "action" = some (.str "create") := hsel
    have hx : execute h "manage_email" (some p) = some (manageEmail h (some p)) := rfl
    exact ⟨"email_data is required", by rw [hx]; simp [manageEmail, hs, hmissing],
      by decide⟩
  · have hs : objectGet p "action" = some (.str "delete") := hsel
    have hx : execute h "manage_email" (some p) = some (manageEmail h (some p)) := rfl
    exact ⟨"email_id is required", by rw [hx]; simp [manageEmail, hs, hmissing], by decide⟩
  · have hs : objectGet p "action" = some (.str "create") := hsel
    have hx : execute h "manage_database" (some p) = some (manageDatabase h (some p)) := rfl
    exact ⟨"database_data is required", by rw [hx]; simp [manageDatabase, hs, hmissing],
      by decide⟩
  · have hs : objectGet p "action" = some (.str "create") := hsel
    have hx : execute h "manage_ftp" (some p) = some (manageFTP h (some p)) := rfl
    exact ⟨"ftp_data is required", by rw [hx]; simp [manageFTP, hs, hmissing], by decide⟩

/-- C30. For every Hostinger management tool (`manageDomain`, `manageSSL`,
`manageEmail`, `manageDatabase`, `manageFTP`, `getHostingStats`) and every
parameter object: a call whose action (or metric) is not one of the handled
values returns `{success: false, error}` with the text `Unknown action: ...`
(or `Unknown metric: ...`), and a call whose handled action lacks a data
field it needs returns `{success: false, error}` with a text naming that
field; in both cases the tool makes no call to the hosting service. -/
theorem management_tools_reject_bad_calls (h : Hosting) (name : String) (p : JObject)
    (hname : name ∈ managementTools) :
    ((∀ v ∈ handledValues name, objectGet p (selector name) ≠ some (.str v)) →
      ∃ run, execute h name (some p) = some run ∧ run.calls = [] ∧
        run.outcome = .ok ⟨false,
          some (unknownText name ++ templateText h.compoundText (objectGet p (selector name))),
          none, none⟩) ∧
    (∀ action field, (name, action, field) ∈ neededFields →
      objectGet p (selector name) = some (.str action) →
      truthy (objectGet p field) = false →
      ∃ run message, execute h name (some p) = some run ∧ run.calls = [] ∧
        run.outcome = .ok ⟨false, some message, none, none⟩ ∧
        includes message field = true) ∧
    (∀ entry ∈ neededFields, entry.1 ∈ managementTools ∧
      entry.2.1 ∈ handledValues entry.1) := by
  refine ⟨?_, ?_, by decide⟩
  · intro hunknown
    exact ⟨_, unknown_selector_rejected h name p hname hunknown, rfl, rfl⟩
  · intro action field hneeded hsel hmissing
    obtain ⟨message, hrun, hnames⟩ :=
      missing_field_rejected h name action field p hneeded hsel hmissing
    exact ⟨_, message, hrun, rfl, rfl, hnames⟩

/-- The domain tool asked to add a DNS record without `dns_data`, and asked
for an action it does not have. -/
theorem management_tools_reject_bad_calls_witness :
    execute workingHosting "manage_domain"
        (some [("action", .str "add_dns"), ("domain_name", .str "example.com")])
      = some ⟨[], .ok ⟨false, some "domain_name and dns_data are required", none, none⟩⟩ ∧
    (∃ run, execute workingHosting "manage_domain" (some [("action", .str "transfer")])
        = some run ∧ run.calls = [] ∧
      run.outcome = .ok ⟨false,
        some (unknownText "manage_domain"
          ++ templateText workingHosting.compoundText
            (objectGet [("action", .str "transfer")] (selector "manage_domain"))),
        none, none⟩) :=
  ⟨by decide,
   (management_tools_reject_bad_calls workingHosting "manage_domain"
      [("action", .str "transfer")] (by decide)).1 (by decide)⟩

end HostingerTools

namespace AutonomousAgent

/-- C26 (amended). `run` returns, and does not throw, whenever its task
converts to text, as every string does: for every behaviour of the planner,
the tools, the completion check and the summary call (a failure being a
thrown `Error`), the loop ends by itself and `run` returns an object with the
`success` flag, the task, the iteration count and the results the agent
holds; `success` is true exactly when the loop was left without an error and
the summary call resolved, a failure carries the message of the error, and
`isRunning` is false once `run` has returned. For a task that converts to no
text, `run` throws at the log statement before its `try` block: it returns no
object, makes no call, and leaves `isRunning` true. -/
theorem run_returns_unless_task_unconvertible (c : Conversion) (env : Env) (a : Agent)
    (task : JVal) (context : JObject) :
    (∀ s, task = .str s → runValue c env a task context = .returned (run env a s context)) ∧
    (unconvertible c (some task) = false →
      ∃ r, runValue c env a task context = .returned r ∧
        r.ending ≠ .outOfFuel ∧
        r.returned.task = heldTask task ∧
        r.returned.iterations = r.agent.state.iterations ∧
        r.returned.results = r.agent.state.results ∧
        r.agent.state.isRunning = false ∧
        (r.returned.success = true ↔
          ((∀ m, r.ending ≠ .threw m) ∧ ∃ s, env.generateSummary = .ok s)) ∧
        (r.returned.success = false →
          ∃ m, r.returned.error = some m ∧
            (r.ending = .threw m ∨ env.generateSummary = .threw m))) ∧
    (unconvertible c (some task) = true →
      ∃ m, interpolate c (some task) = .threw m ∧
        runValue c env a task context
          = .threw m (startPoints a (heldTask task) context)
              (start a (heldTask task) context) ∧
        (runValue c env a task context).returnedObject = none ∧
        (runValue c env a task context).agent.state.isRunning = true ∧
        (runValue c env a task context).agent.ghost = a.ghost) := by
  refine ⟨?_, ?_, ?_⟩
  · intro s hs
    subst hs
    rfl
  · intro hconv
    obtain ⟨text, ht⟩ := interpolate_of_convertible c (some task) hconv
    have e : runValue c env a task context = .returned (run env a (heldTask task) context) := by
      simp only [runValue, ht]
    obtain ⟨h1, -, h3, h4, h5, h6, h7, h8⟩ := run_always_returns env a (heldTask task) context
    exact ⟨_, e, h1, h3, h4, h5, h6, h7, h8⟩
  · intro hbad
    obtain ⟨m, hm⟩ := interpolate_of_unconvertible c (some task) hbad
    have e : runValue c env a task context
        = .threw m (startPoints a (heldTask task) context)
            (start a (heldTask task) context) := by
      simp only [runValue, hm]
    refine ⟨m, hm, e, ?_, ?_, ?_⟩
    · rw [e]; rfl
    · rw [e]; rfl
    · rw [e]; rfl

/-- C26 (as stated) fails: called on a new agent with the task
`{"toString":1}`, an object that converts to no text, `run` throws before its
`try` block whatever the planner, the tools, the completion check and the
summary call would do: it returns no object and the agent stays marked as
running. On a string task the same agent and collaborators give a result. -/
theorem run_throws_on_unconvertible_task :
    interpolate sampleConversion (some (.json unconvertibleText))
      = .threw "Cannot convert object to primitive value" ∧
    (runValue sampleConversion (emailEnv (.ok "Done")) (new ⟨none, some 1⟩)
      (.json unconvertibleText) []).returnedObject = none ∧
    (runValue sampleConversion (emailEnv (.ok "Done")) (new ⟨none, some 1⟩)
      (.json unconvertibleText) []).agent.state.isRunning = true ∧
    (runValue sampleConversion (emailEnv (.ok "Done")) (new ⟨none, some 1⟩)
      (.json unconvertibleText) []).agent.ghost.plannerCalls = 0 ∧
    ((runValue sampleConversion (emailEnv (.ok "Done")) (new ⟨none, some 1⟩)
      (.str "send the statements") []).returnedObject).map (fun o => o.success)
      = some true := by
  refine ⟨by decide, by decide, by decide, by decide, by decide⟩

end AutonomousAgent

end Goat
